import Mathlib

/-!
# Asciismos: entity/component/system core and batched quad renderer

Shallow embedding of `ecs.cpp`, `renderer.cpp` and the headers they use.

Conventions of the embedding:
* C++ object pointers are natural numbers (addresses); the heap is a family of
  total functions from addresses to object contents. A pointer is assumed to
  point at a live object of the static type at which the source dereferences it;
  the one null pointer that the sources store in a component themselves, the
  `mapTex` of the watermark sprite, is tracked (`World.nullMapTex`).
* `std::vector<T>` is `List T`; `push_back` appends at the end.
* `std::map<K, V>` is an association list with unique keys; `emplace` keeps an
  existing entry.
* `delete p` is recorded in a log of released addresses.
* `float` values are rational numbers. In the quad builders of the renderer, in
  `PositionComponent::Rotate` and in the accumulator and the lifetime of the
  particle emitters every operation rounds its exact result to binary32 (`fl32`).
  In the viewport tests, the camera interpolation, the image anchoring and the
  animation timer the arithmetic is exact.
* An access past the end of a `std::vector` has no defined result (`none`).
-/

namespace Asciismos

/-! ## Pointers and identifiers -/

/-- Address of an `Entity` object (`Entity*`). -/
abbrev EntityPtr := Nat

/-- Address of a `Component` object (`Component*` and its subclasses). -/
abbrev CompPtr := Nat

/-- Type id `positionComponentID` used by ecs.cpp (component.h declares the
value 1 under the name `globalPositionComponentID`). -/
def positionComponentID : Int := 1

/-- Type id of the sprite component (component.h). -/
def spriteComponentID : Int := 2

/-- Type id of the input component (component.h). -/
def inputComponentID : Int := 3

/-- Type id of the animation component (component.h). -/
def animationComponentID : Int := 4

/-- Type id of the animation controller component (component.h). -/
def animationControllerComponentID : Int := 5

/-- Type id of the camera follow component (component.h). -/
def cameraFollowComponentID : Int := 6

/-- Type id of the particle component (component.h). -/
def particleComponentID : Int := 7

/-- Type id of the image component (component.h). -/
def imageComponentID : Int := 9

/-! ## Library routines used by the sources -/

/-- Result of `std::find(v.begin(), v.end(), x) - v.begin()`: the index of the
first element equal to `x`, or `v.size()` (the end iterator) when there is none. -/
def stdFind {α : Type} [DecidableEq α] : List α → α → Nat
  | [], _ => 0
  | y :: ys, x => if y = x then 0 else stdFind ys x + 1

/-- Result of `v.erase(std::remove(v.begin(), v.end(), s), v.end())`: the
elements different from `s`, in their order. -/
def eraseRemove {α : Type} [DecidableEq α] (v : List α) (s : α) : List α :=
  v.filter (fun x => decide (x ≠ s))

/-- Lookup in a `std::map` held as an association list: the value stored
under key `k`, if any. -/
def mapFind {κ β : Type} [DecidableEq κ] : List (κ × β) → κ → Option β
  | [], _ => none
  | (k', v) :: rest, k => if k' = k then some v else mapFind rest k

/-- Result of `m.emplace(k, v)` on a `std::map`: inserts the pair when no
entry with key `k` exists, and otherwise leaves the map as it is. -/
def mapEmplace {κ β : Type} [DecidableEq κ] (m : List (κ × β)) (k : κ) (v : β) : List (κ × β) :=
  match mapFind m k with
  | some _ => m
  | none => m ++ [(k, v)]

/-! ## Binary32 and binary64 arithmetic (IEEE 754) -/

/-- Rounding of a rational number to the nearest integer; a number half way
between two integers goes to the even one. -/
def roundEven (t : ℚ) : ℤ :=
  if t - ⌊t⌋ < 1 / 2 then ⌊t⌋
  else if 1 / 2 < t - ⌊t⌋ then ⌊t⌋ + 1
  else if ⌊t⌋ % 2 = 0 then ⌊t⌋ else ⌊t⌋ + 1

/-- The exponent of the binade of `x` in a binary format whose least normal
exponent is `emin`: the integer `e` with 2^e ≤ |x| < 2^(e+1), and `emin` for the
subnormal numbers. -/
def binade (emin : ℤ) (x : ℚ) : ℤ := max (Int.log 2 |x|) emin

/-- The spacing of the binary32 numbers (24 significand bits, least normal
exponent -126) around `x`. -/
def ulp32 (x : ℚ) : ℚ := 2 ^ (binade (-126) x - 23)

/-- The `float` nearest to `x`, ties to even: the result of one binary32
operation whose exact result is `x`, and of a conversion to `float`. Every
operation of the sources is rounded on its own (no fused multiply-add, no
intermediate result of higher precision). Overflow to infinity is not
represented: a number of magnitude 2^128 or more is rounded in its own binade. -/
def fl32 (x : ℚ) : ℚ := (roundEven (x / ulp32 x) : ℚ) * ulp32 x

/-- The spacing of the binary64 numbers (53 significand bits, least normal
exponent -1022) around `x`. -/
def ulp64 (x : ℚ) : ℚ := 2 ^ (binade (-1022) x - 52)

/-- The `double` nearest to `x`, ties to even. -/
def fl64 (x : ℚ) : ℚ := (roundEven (x / ulp64 x) : ℚ) * ulp64 x

/-! ## Data model -/

/-- Base class `Component` (component.h). -/
structure Component where
  active : Bool
  entity : EntityPtr
  ID : Int
deriving DecidableEq

/-- Modelled from the spec: class `Entity`, declared in entity.h which is not
among the sources. ecs.cpp uses the private fields `ID`, `scene`, `name`
(constructor and accessors) and the public members `components` (vector of
component pointers) and `componentIDMap` (map from type id to component
pointer). The class has no destructor that releases components: the spec makes
the Systems responsible for releasing them on purge. -/
structure Entity where
  ID : Int
  scene : Int
  name : String
  components : List CompPtr
  componentIDMap : List (Int × CompPtr)
deriving DecidableEq

/-- The seven concrete `System` subclasses of system.h that ecs.cpp defines. -/
inductive SystemKind where
  | input
  | particle
  | image
  | staticRendering
  | cameraFollow
  | animationController
  | animation
deriving DecidableEq

/-- A `System` object (system.h): its dynamic class and its vector of component
pointers (named `move`, `particles`, `images`, `sprites`, `folls`,
`controllers`, `anims` in the seven subclasses). -/
structure System where
  kind : SystemKind
  components : List CompPtr
deriving DecidableEq

/-- Class `ComponentBlock` (constructor in ecs.cpp): a system and the type id
it serves. Each block owns the system created for it in `ECS::Init`. -/
structure ComponentBlock where
  system : System
  componentID : Int
deriving DecidableEq

/-- Modelled from the spec: class `ECS`, declared in ecs.h which is not among
the sources. ecs.cpp uses the members `entityIDCounter`, `round`,
`activeScene`, `componentBlocks` and `dyingEntities`. -/
structure ECS where
  entityIDCounter : Nat
  round : Nat
  activeScene : Int
  componentBlocks : List ComponentBlock
  dyingEntities : List EntityPtr
deriving DecidableEq

/-- The heap as far as the ECS orchestrator touches it: base-class fields of
every component, contents of every entity, and the addresses released by
`delete` so far, in order. -/
structure Memory where
  component : CompPtr → Component
  entity : EntityPtr → Entity
  deletedComponents : List CompPtr
  deletedEntities : List EntityPtr

/-! ## ComponentBlock and System: AddComponent, PurgeEntity -/

/-- Method `AddComponent` of every system: `push_back` of the (cast) pointer. -/
def System.AddComponent (s : System) (c : CompPtr) : System :=
  { s with components := s.components ++ [c] }

/-- The `for` loop of `PurgeEntity`, identical in the seven systems:
`for (i = 0; i < v.size(); i++) if (v[i]->entity == e) { s = v[i]; erase-remove s; delete s; }`.
The state is the index `i`, the vector and the log of released pointers; the
first argument bounds the number of iterations. -/
def purgeLoop (owner : CompPtr → EntityPtr) (e : EntityPtr) :
    Nat → Nat → List CompPtr → List CompPtr → List CompPtr × List CompPtr
  | 0, _, v, del => (v, del)
  | fuel + 1, i, v, del =>
    match v[i]? with
    | none => (v, del)
    | some s =>
      if owner s = e then
        purgeLoop owner e fuel (i + 1) (eraseRemove v s) (del ++ [s])
      else
        purgeLoop owner e fuel (i + 1) v del

/-- Method `PurgeEntity` of every system. The loop index grows by one in each
iteration and the vector never grows, so `v.size()` iterations suffice. -/
def System.PurgeEntity (mem : Memory) (s : System) (e : EntityPtr) : Memory × System :=
  let r := purgeLoop (fun c => (mem.component c).entity) e s.components.length 0 s.components
    mem.deletedComponents
  ({ mem with deletedComponents := r.2 }, { s with components := r.1 })

/-- Method `ComponentBlock::AddComponent`. -/
def ComponentBlock.AddComponent (b : ComponentBlock) (c : CompPtr) : ComponentBlock :=
  { b with system := b.system.AddComponent c }

/-- Method `ComponentBlock::PurgeEntity`. -/
def ComponentBlock.PurgeEntity (mem : Memory) (b : ComponentBlock) (e : EntityPtr) :
    Memory × ComponentBlock :=
  let r := b.system.PurgeEntity mem e
  (r.1, { b with system := r.2 })

/-! ## ECS orchestrator -/

/-- A default-constructed `ECS` object: no blocks, nothing pending. -/
def ECS.empty : ECS :=
  { entityIDCounter := 0, round := 0, activeScene := 0, componentBlocks := [], dyingEntities := [] }

/-- Method `ECS::Init`: one system and block per component type, appended in this order. -/
def ECS.Init (ecs : ECS) : ECS :=
  { ecs with componentBlocks := ecs.componentBlocks ++
      [ ⟨⟨SystemKind.input, []⟩, inputComponentID⟩,
        ⟨⟨SystemKind.particle, []⟩, particleComponentID⟩,
        ⟨⟨SystemKind.image, []⟩, imageComponentID⟩,
        ⟨⟨SystemKind.staticRendering, []⟩, spriteComponentID⟩,
        ⟨⟨SystemKind.cameraFollow, []⟩, cameraFollowComponentID⟩,
        ⟨⟨SystemKind.animationController, []⟩, animationControllerComponentID⟩,
        ⟨⟨SystemKind.animation, []⟩, animationComponentID⟩ ] }

/-- Method `ECS::AddDeadEntity`. -/
def ECS.AddDeadEntity (ecs : ECS) (e : EntityPtr) : ECS :=
  if stdFind ecs.dyingEntities e = ecs.dyingEntities.length then
    { ecs with dyingEntities := ecs.dyingEntities ++ [e] }
  else
    ecs

/-- The loop of `ECS::DeleteEntity` over the component blocks. -/
def purgeBlocks (e : EntityPtr) : Memory → List ComponentBlock → Memory × List ComponentBlock
  | mem, [] => (mem, [])
  | mem, b :: bs =>
    let r := b.PurgeEntity mem e
    let rest := purgeBlocks e r.1 bs
    (rest.1, r.2 :: rest.2)

/-- Method `ECS::DeleteEntity`: `PurgeEntity(e)` on every block, then `delete e`. -/
def ECS.DeleteEntity (st : Memory × ECS) (e : EntityPtr) : Memory × ECS :=
  let r := purgeBlocks e st.1 st.2.componentBlocks
  ({ r.1 with deletedEntities := r.1.deletedEntities ++ [e] },
   { st.2 with componentBlocks := r.2 })

/-- Method `ECS::PurgeDeadEntities`: `DeleteEntity` on each pending entity in
order, then `clear` (nothing happens when the list is empty). -/
def ECS.PurgeDeadEntities (st : Memory × ECS) : Memory × ECS :=
  if 0 < st.2.dyingEntities.length then
    let r := st.2.dyingEntities.foldl ECS.DeleteEntity st
    (r.1, { r.2 with dyingEntities := [] })
  else
    st

/-- The loop of `ECS::RegisterComponent` over the blocks: the first block
whose type id equals `id` receives the component, and the loop returns. -/
def registerInBlocks (id : Int) (c : CompPtr) : List ComponentBlock → List ComponentBlock
  | [] => []
  | b :: bs => if b.componentID = id then b.AddComponent c :: bs else b :: registerInBlocks id c bs

/-- Method `ECS::RegisterComponent`. -/
def ECS.RegisterComponent (st : Memory × ECS) (c : CompPtr) (e : EntityPtr) : Memory × ECS :=
  let ent := st.1.entity e
  let ent1 : Entity :=
    { ent with components := ent.components ++ [c],
               componentIDMap := mapEmplace ent.componentIDMap (st.1.component c).ID c }
  ({ st.1 with entity := fun p => if p = e then ent1 else st.1.entity p },
   { st.2 with componentBlocks := registerInBlocks (st.1.component c).ID c st.2.componentBlocks })

/-! ## Renderer: data (renderer.h) -/

/-- Struct `Vertex` (renderer.h). -/
structure Vertex where
  xCoord : ℚ
  yCoord : ℚ
  rColor : ℚ
  gColor : ℚ
  bColor : ℚ
  aColor : ℚ
  sCoord : ℚ
  tCoord : ℚ
  textureIndex : ℚ
  widthMod : ℚ
  heightMod : ℚ
deriving DecidableEq

/-- Aggregate initialisation of a `Vertex` from nine values, as in
`{ x, y, r, g, b, a, s, t, index }`: the two trailing members are zero. -/
def Vertex.init (x y r g b a s t index : ℚ) : Vertex :=
  { xCoord := x, yCoord := y, rColor := r, gColor := g, bColor := b, aColor := a,
    sCoord := s, tCoord := t, textureIndex := index, widthMod := 0, heightMod := 0 }

/-- Struct `Quad` (renderer.h). -/
structure Quad where
  topRight : Vertex
  bottomRight : Vertex
  bottomLeft : Vertex
  topLeft : Vertex
deriving DecidableEq

/-- A quad whose members are all zero. -/
def Quad.zero : Quad :=
  { topRight := Vertex.init 0 0 0 0 0 0 0 0 0, bottomRight := Vertex.init 0 0 0 0 0 0 0 0 0,
    bottomLeft := Vertex.init 0 0 0 0 0 0 0 0 0, topLeft := Vertex.init 0 0 0 0 0 0 0 0 0 }

/-- Constant `Batch::MAX_QUADS`. -/
def MAX_QUADS : Nat := 10000

/-- Constant `Renderer::MAX_TEXTURES_PER_BATCH`. The renderer functions below
take the constant as their first argument, so that statements about another
value of the constant can be made; the value compiled into the source is this one. -/
def MAX_TEXTURES_PER_BATCH : Nat := 32

/-- Class `Batch` (renderer.h). The member `quadBuffer` is an array of
`MAX_QUADS` quads; it is held as a map from index to quad, in which the indices
from `MAX_QUADS` on lie outside the array. The source subscripts the array
without a bounds check, so a write at such an index is recorded as executed. -/
structure Batch where
  quadBuffer : Nat → Quad
  quadIndex : Nat

/-- A default-constructed batch: cursor 0. -/
def Batch.empty : Batch :=
  { quadBuffer := fun _ => Quad.zero, quadIndex := 0 }

/-- Class `Renderer` (renderer.h), without the GL object handles and the shader. -/
structure Renderer where
  textureIDs : List Nat
  whiteTextureIndex : ℚ
  whiteTextureID : Nat
  batches : List Batch

/-- Derived-class fields of `PositionComponent` (component.h, constructor in ecs.cpp). -/
structure PositionComponent where
  stat : Bool
  x : ℚ
  y : ℚ
  z : ℚ
  rotation : ℚ
deriving DecidableEq

/-- The routines `cos` and `sin` of `<math.h>`, as functions of their argument
in radians. Their values are not computed here; `Rotate` stores them in `float`
members, which is where they are rounded to binary32. -/
structure Trig where
  cos : ℚ → ℚ
  sin : ℚ → ℚ

/-- Macro `M_PI` of `<math.h>`, 3.14159265358979323846 as a `double`: the
binary64 number nearest to π. -/
def M_PI : ℚ := 884279719003555 / 281474976710656

/-- The local `float radians = rotation * (M_PI / 180.0f)` of `Rotate`: `M_PI`
is a `double`, so the quotient and the product are computed in binary64, and
the product is converted to `float`. -/
def PositionComponent.radians (rotation : ℚ) : ℚ :=
  fl32 (fl64 (rotation * fl64 (M_PI / 180)))

/-- Method `PositionComponent::RelativeLocation`: two products and one sum per
coordinate, each rounded to binary32. -/
def PositionComponent.RelativeLocation (p up right : ℚ × ℚ) : ℚ × ℚ :=
  (fl32 (fl32 (p.1 * right.1) + fl32 (p.2 * up.1)),
   fl32 (fl32 (p.1 * right.2) + fl32 (p.2 * up.2)))

/-- Method `PositionComponent::Rotate`. For a non-zero rotation, `right` is
`(cos(radians), sin(radians), 0)` and `up` is `glm::cross(forward, right)` with
`forward = (0, 0, 1)`, whose first two members are
`forward.y * right.z - right.y * forward.z` and
`forward.z * right.x - right.z * forward.x`. -/
def PositionComponent.Rotate (trig : Trig) (pos : PositionComponent) (point : ℚ × ℚ) : ℚ × ℚ :=
  if pos.rotation ≠ 0 then
    let c := fl32 (trig.cos (PositionComponent.radians pos.rotation))
    let s := fl32 (trig.sin (PositionComponent.radians pos.rotation))
    PositionComponent.RelativeLocation point
      (fl32 (fl32 (0 * 0) - fl32 (s * 1)), fl32 (fl32 (1 * c) - fl32 (0 * 0)))
      (c, s)
  else
    PositionComponent.RelativeLocation point (0, 1) (1, 0)

/-- An RGBA colour (`glm::vec4`). -/
structure Color where
  r : ℚ
  g : ℚ
  b : ℚ
  a : ℚ
deriving DecidableEq

/-! ## Renderer: constructor and quad submission (renderer.cpp) -/

/-- Constructor `Renderer::Renderer`: one batch, and the white texture as the
first bound texture. -/
def Renderer.create (whiteTexture : Nat) : Renderer :=
  { textureIDs := [whiteTexture], whiteTextureIndex := 0, whiteTextureID := whiteTexture,
    batches := [Batch.empty] }

/-- The opening of the three texture-resolving overloads of `prepareQuad`
("Figure out which batch should be written to"): the location of the texture in
`textureIDs`, and `textureIDs` after the `push_back` made when it was absent. -/
def resolveTexture (textureIDs : List Nat) (textureID : Nat) : Nat × List Nat :=
  let result := stdFind textureIDs textureID
  if result = textureIDs.length then
    (textureIDs.length, textureIDs ++ [textureID])
  else
    (result, textureIDs)

/-- The statements `Quad& quad = batch.quadBuffer[batch.quadIndex]; batch.quadIndex++;`
followed by the assignments through `quad`. -/
def Batch.write (batch : Batch) (q : Quad) : Batch :=
  { quadBuffer := fun i => if i = batch.quadIndex then q else batch.quadBuffer i,
    quadIndex := batch.quadIndex + 1 }

/-- The part shared by the three texture-resolving overloads of `prepareQuad`:
resolve the texture, compute `batchIndex` and `glTextureIndex`, select
`batches[batchIndex]` and write the quad built from `glTextureIndex` at the
cursor. `M` is `MAX_TEXTURES_PER_BATCH`, a positive constant. -/
def Renderer.submit (M : Nat) (r : Renderer) (textureID : Nat) (mk : ℚ → Quad) : Option Renderer :=
  let loc := resolveTexture r.textureIDs textureID
  let batchIndex := loc.1 / M
  let glTextureIndex : ℚ := ((loc.1 % M : Nat) : ℚ)
  match r.batches[batchIndex]? with
  | none => none
  | some batch =>
    some { r with textureIDs := loc.2,
                  batches := r.batches.set batchIndex (batch.write (mk glTextureIndex)) }

/-- The quad of the overload `prepareQuad(PositionComponent* pos, width, height,
scaleX, scaleY, rgb, textureID, flippedX, flippedY)`. The half extents
`(width * scaleX) / 2.0f` and `(height * scaleY) / 2.0f`, the rotated offsets
and the sums with the position are `float` operations. -/
def worldQuad (trig : Trig) (pos : PositionComponent) (width height scaleX scaleY : ℚ)
    (rgb : Color) (flippedX flippedY : Bool) (glTextureIndex : ℚ) : Quad :=
  let xL : ℚ := if flippedX then 1 else 0
  let xR : ℚ := if flippedX then 0 else 1
  let yL : ℚ := if flippedY then 1 else 0
  let yR : ℚ := if flippedY then 0 else 1
  let hw := fl32 (fl32 (width * scaleX) / 2)
  let hh := fl32 (fl32 (height * scaleY) / 2)
  let topRight := pos.Rotate trig (hw, hh)
  let bottomRight := pos.Rotate trig (hw, -hh)
  let bottomLeft := pos.Rotate trig (-hw, -hh)
  let topLeft := pos.Rotate trig (-hw, hh)
  { topRight := Vertex.init (fl32 (pos.x + topRight.1)) (fl32 (pos.y + topRight.2)) rgb.r rgb.g rgb.b rgb.a xR yR glTextureIndex,
    bottomRight := Vertex.init (fl32 (pos.x + bottomRight.1)) (fl32 (pos.y + bottomRight.2)) rgb.r rgb.g rgb.b rgb.a xR yL glTextureIndex,
    bottomLeft := Vertex.init (fl32 (pos.x + bottomLeft.1)) (fl32 (pos.y + bottomLeft.2)) rgb.r rgb.g rgb.b rgb.a xL yL glTextureIndex,
    topLeft := Vertex.init (fl32 (pos.x + topLeft.1)) (fl32 (pos.y + topLeft.2)) rgb.r rgb.g rgb.b rgb.a xL yR glTextureIndex }

/-- The quad of the overload `prepareQuad(glm::vec2 position, width, height,
scaleX, scaleY, rgb, textureID, flippedX, flippedY)`. -/
def screenQuad (position : ℚ × ℚ) (width height scaleX scaleY : ℚ)
    (rgb : Color) (flippedX flippedY : Bool) (glTextureIndex : ℚ) : Quad :=
  let xL : ℚ := if flippedX then 1 else 0
  let xR : ℚ := if flippedX then 0 else 1
  let yL : ℚ := if flippedY then 1 else 0
  let yR : ℚ := if flippedY then 0 else 1
  let hw := fl32 (fl32 (width * scaleX) / 2)
  let hh := fl32 (fl32 (height * scaleY) / 2)
  { topRight := Vertex.init (fl32 (position.1 + hw)) (fl32 (position.2 + hh)) rgb.r rgb.g rgb.b rgb.a xR yR glTextureIndex,
    bottomRight := Vertex.init (fl32 (position.1 + hw)) (fl32 (position.2 + -hh)) rgb.r rgb.g rgb.b rgb.a xR yL glTextureIndex,
    bottomLeft := Vertex.init (fl32 (position.1 + -hw)) (fl32 (position.2 + -hh)) rgb.r rgb.g rgb.b rgb.a xL yL glTextureIndex,
    topLeft := Vertex.init (fl32 (position.1 + -hw)) (fl32 (position.2 + hh)) rgb.r rgb.g rgb.b rgb.a xL yR glTextureIndex }

/-- The quad of the overload `prepareQuad(PositionComponent* pos, width, height,
scaleX, scaleY, rgb, animID, cellX, cellY, cols, rows, flippedX, flippedY)`.
The `int` arguments are converted to `float` where they meet a `float`:
`cellXMod = 1.0f / cols`, `uvX0 = cellX * cellXMod`, `uvX1 = uvX0 + cellXMod`
are three rounded operations, and so are the extents
`(width * scaleX) / (float)cols`. A division by `cols = 0` or `rows = 0` gives 0
here where the source gets an infinity; the statements take both positive. -/
def cellQuad (trig : Trig) (pos : PositionComponent) (width height scaleX scaleY : ℚ)
    (rgb : Color) (cellX cellY cols rows : Int) (flippedX flippedY : Bool)
    (glTextureIndex : ℚ) : Quad :=
  let cellXMod : ℚ := fl32 (1 / fl32 (cols : ℚ))
  let cellYMod : ℚ := fl32 (1 / fl32 (rows : ℚ))
  let u0 : ℚ := fl32 (fl32 (cellX : ℚ) * cellXMod)
  let v0 : ℚ := fl32 (fl32 (cellY : ℚ) * cellYMod)
  let u1 : ℚ := fl32 (u0 + cellXMod)
  let v1 : ℚ := fl32 (v0 + cellYMod)
  let uvX0 := if flippedX then u1 else u0
  let uvX1 := if flippedX then u0 else u1
  let uvY0 := if flippedY then v1 else v0
  let uvY1 := if flippedY then v0 else v1
  let ew := fl32 (fl32 (width * scaleX) / fl32 (cols : ℚ))
  let eh := fl32 (fl32 (height * scaleY) / fl32 (rows : ℚ))
  let topRight := pos.Rotate trig (ew, eh)
  let bottomRight := pos.Rotate trig (ew, -eh)
  let bottomLeft := pos.Rotate trig (-ew, -eh)
  let topLeft := pos.Rotate trig (-ew, eh)
  { topRight := Vertex.init (fl32 (pos.x + topRight.1)) (fl32 (pos.y + topRight.2)) rgb.r rgb.g rgb.b rgb.a uvX1 uvY1 glTextureIndex,
    bottomRight := Vertex.init (fl32 (pos.x + bottomRight.1)) (fl32 (pos.y + bottomRight.2)) rgb.r rgb.g rgb.b rgb.a uvX1 uvY0 glTextureIndex,
    bottomLeft := Vertex.init (fl32 (pos.x + bottomLeft.1)) (fl32 (pos.y + bottomLeft.2)) rgb.r rgb.g rgb.b rgb.a uvX0 uvY0 glTextureIndex,
    topLeft := Vertex.init (fl32 (pos.x + topLeft.1)) (fl32 (pos.y + topLeft.2)) rgb.r rgb.g rgb.b rgb.a uvX0 uvY1 glTextureIndex }

/-- Overload `Renderer::prepareQuad` with a world position and rotation. -/
def Renderer.prepareQuad (M : Nat) (trig : Trig) (r : Renderer) (pos : PositionComponent)
    (width height scaleX scaleY : ℚ) (rgb : Color) (textureID : Nat)
    (flippedX flippedY : Bool) : Option Renderer :=
  r.submit M textureID (worldQuad trig pos width height scaleX scaleY rgb flippedX flippedY)

/-- Overload `Renderer::prepareQuad` with a raw screen position. -/
def Renderer.prepareQuadScreen (M : Nat) (r : Renderer) (position : ℚ × ℚ)
    (width height scaleX scaleY : ℚ) (rgb : Color) (textureID : Nat)
    (flippedX flippedY : Bool) : Option Renderer :=
  r.submit M textureID (screenQuad position width height scaleX scaleY rgb flippedX flippedY)

/-- Overload `Renderer::prepareQuad` for one cell of an animation sheet. -/
def Renderer.prepareQuadCell (M : Nat) (trig : Trig) (r : Renderer) (pos : PositionComponent)
    (width height scaleX scaleY : ℚ) (rgb : Color) (animID : Nat)
    (cellX cellY cols rows : Int) (flippedX flippedY : Bool) : Option Renderer :=
  r.submit M animID
    (cellQuad trig pos width height scaleX scaleY rgb cellX cellY cols rows flippedX flippedY)

/-- Overload `Renderer::prepareQuad(int batchIndex, Quad& input)`. -/
def Renderer.prepareQuadRaw (r : Renderer) (batchIndex : Nat) (input : Quad) : Option Renderer :=
  match r.batches[batchIndex]? with
  | none => none
  | some batch => some { r with batches := r.batches.set batchIndex (batch.write input) }

/-- A call made to OpenGL by `sendToGL`: binding a texture to a texture unit
(`glActiveTexture` and `glBindTexture`), or the draw call of `flush`,
`glDrawElements` with its number of indices. -/
inductive GLCall where
  | bindTexture (unit : Nat) (texture : Nat)
  | drawElements (count : Nat)
deriving DecidableEq

/-- Method `Renderer::flush`: one draw call of `quadIndex * 6` indices. -/
def Renderer.flush (batch : Batch) : GLCall :=
  GLCall.drawElements (batch.quadIndex * 6)

/-- The `for` loop of `Renderer::sendToGL` over `textureIDs`, with the local
variables `currentBatch` and `texUnit` and the calls issued so far. -/
def sendToGLLoop (M : Nat) (batches : List Batch) :
    List Nat → Nat → Nat → List GLCall → Option (Nat × List GLCall)
  | [], currentBatch, _, calls => some (currentBatch, calls)
  | t :: rest, currentBatch, texUnit, calls =>
    if (texUnit : Int) ≥ (M : Int) - 1 then
      match batches[currentBatch]? with
      | none => none
      | some batch =>
        sendToGLLoop M batches rest (currentBatch + 1) 0
          (calls ++ [GLCall.bindTexture texUnit t, Renderer.flush batch])
    else
      sendToGLLoop M batches rest currentBatch (texUnit + 1)
        (calls ++ [GLCall.bindTexture texUnit t])

/-- Method `Renderer::sendToGL`: the loop, then the flush of `batches[currentBatch]`. -/
def Renderer.sendToGL (M : Nat) (r : Renderer) : Option (List GLCall) :=
  match sendToGLLoop M r.batches r.textureIDs 0 0 [] with
  | none => none
  | some (currentBatch, calls) =>
    match r.batches[currentBatch]? with
    | none => none
    | some batch => some (calls ++ [Renderer.flush batch])

/-- Method `Renderer::resetBuffers`. -/
def Renderer.resetBuffers (r : Renderer) : Renderer :=
  { r with batches := r.batches.map (fun batch => { batch with quadIndex := 0 }) }

/-! ## Components, assets and globals read by the systems -/

/-- Address of a `Texture2D` object. -/
abbrev TexPtr := Nat

/-- Address of an `Animation2D` object. -/
abbrev AnimPtr := Nat

/-- Modelled from the spec: class `Texture2D`, declared in texture_2D.h which is
not among the sources. ecs.cpp reads the members `ID`, `width` and `height`. -/
structure Texture2D where
  ID : Nat
  width : ℚ
  height : ℚ
deriving DecidableEq

/-- Modelled from the spec: class `Animation2D` (a clip), declared in
animation_2D.h which is not among the sources. ecs.cpp reads the members `ID`,
`width`, `height`, `columns`, `rows`, `speed` (the frame duration), `loop` and
`rowsToCols[row]` (the number of columns of a row). -/
structure Animation2D where
  ID : Nat
  width : ℚ
  height : ℚ
  columns : Int
  rows : Int
  speed : ℚ
  loop : Bool
  rowsToCols : Int → Int

/-- Derived-class fields of `StaticSpriteComponent` (component.h). -/
structure StaticSpriteComponent where
  width : ℚ
  height : ℚ
  scaleX : ℚ
  scaleY : ℚ
  flippedX : Bool
  flippedY : Bool
  tiled : Bool
  sprite : TexPtr
  mapTex : TexPtr
  pos : CompPtr
deriving DecidableEq

/-- Derived-class fields of `InputComponent` (component.h). -/
structure InputComponent where
  acceptInput : Bool
deriving DecidableEq

/-- Derived-class fields of `CameraFollowComponent` (component.h). -/
structure CameraFollowComponent where
  speed : ℚ
deriving DecidableEq

/-- Derived-class fields of `AnimationComponent` (component.h). The map
`animations` holds clip pointers, `none` standing for a null pointer. -/
structure AnimationComponent where
  activeX : Int
  activeY : Int
  activeAnimation : String
  animations : List (String × Option AnimPtr)
  mapTex : TexPtr
  pos : CompPtr
  lastTick : ℚ
  scaleX : ℚ
  scaleY : ℚ
  flippedX : Bool
  flippedY : Bool
deriving DecidableEq

/-- Derived-class fields of `AnimationControllerComponent` (component.h). -/
structure AnimationControllerComponent where
  animator : CompPtr
  subID : Int
deriving DecidableEq

/-- Constant `exampleAnimControllerSubID` (component.h). -/
def exampleAnimControllerSubID : Int := 1

/-- Derived-class fields of `ParticleComponent` (component.h). The member
`element` has the enumeration type `Element` of particleengine.h, held as its
integer value. -/
structure ParticleComponent where
  lastTick : ℚ
  tickRate : ℚ
  xOffset : ℚ
  yOffset : ℚ
  number : Int
  element : Int
  minLifetime : ℚ
  maxLifetime : ℚ
deriving DecidableEq

/-- Enumeration `Anchor` (component.h). -/
inductive Anchor where
  | topLeft
  | bottomLeft
  | topRight
  | bottomRight
deriving DecidableEq

/-- Derived-class fields of `ImageComponent` (component.h). -/
structure ImageComponent where
  anchor : Anchor
  x : ℚ
  y : ℚ
deriving DecidableEq

/-- The members of class `Game` (game.h) that the systems read or write. -/
structure Game where
  windowWidth : Int
  windowHeight : Int
  camX : ℚ
  camY : ℚ
  camZ : ℚ
  zoom : ℚ
  topY : ℚ
  bottomY : ℚ
  leftX : ℚ
  rightX : ℚ
deriving DecidableEq

/-- Modelled from the spec: a quad submission made by a rendering system. The
calls `Game::main.renderer->prepareQuad(...)` in ecs.cpp pass a map-texture id
(and, for sprites, a tiling flag) which the overloads of renderer.cpp do not
take, so the overloads they reach are not among the sources; a submission is
recorded with its arguments, the position being the content of `*pos` at the call. -/
inductive QuadCall where
  | sprite (pos : PositionComponent) (width height scaleX scaleY : ℚ) (rgb : Color)
      (textureID mapTexID : Nat) (tiled flippedX flippedY : Bool)
  | cell (pos : PositionComponent) (width height scaleX scaleY : ℚ) (rgb : Color)
      (animID mapTexID : Nat) (cellX cellY cols rows : Int) (flippedX flippedY : Bool)
deriving DecidableEq

/-- Modelled from the spec: a call `ParticleEngine::main.AddParticles(count, x,
y, element, lifetime)` to the particle engine, which is not among the sources. -/
structure ParticleCall where
  count : Int
  x : ℚ
  y : ℚ
  element : Int
  lifetime : ℚ
deriving DecidableEq

/-- Constant `RAND_MAX` of `<cstdlib>` (its value in glibc). -/
def RAND_MAX : Nat := 2147483647

/-- Everything the systems work on: the heap of `Memory`, the derived-class
fields of the components by address and class, the assets, the globals of
`Game::main`, the quad submissions and particle requests made so far, and the
results of `rand()` (`randOracle n` is the result of call number `n`). The
pointers held in components point at live objects, with one exception that the
sources produce themselves: `nullMapTex s` tells that the `mapTex` stored in the
sprite at address `s` is the null pointer. -/
structure World extends Memory where
  position : CompPtr → PositionComponent
  sprite : CompPtr → StaticSpriteComponent
  input : CompPtr → InputComponent
  cameraFollow : CompPtr → CameraFollowComponent
  animation : CompPtr → AnimationComponent
  animationController : CompPtr → AnimationControllerComponent
  particle : CompPtr → ParticleComponent
  image : CompPtr → ImageComponent
  texture : TexPtr → Texture2D
  animation2D : AnimPtr → Animation2D
  game : Game
  quadCalls : List QuadCall
  particleCalls : List ParticleCall
  randOracle : Nat → Nat
  randCount : Nat
  nullMapTex : CompPtr → Bool := fun _ => false

/-! ## Systems: Update (ecs.cpp) -/

/-- The test that opens the loop body of every `Update`:
`c->active && c->entity->Get_Scene() == activeScene || c->active && c->entity->Get_Scene() == 0`. -/
def eligible (w : World) (c : CompPtr) (activeScene : Int) : Bool :=
  ((w.component c).active && decide ((w.entity (w.component c).entity).scene = activeScene)) ||
  ((w.component c).active && decide ((w.entity (w.component c).entity).scene = 0))

/-- The loop `for (i = 0; i < v.size(); i++) { c = v[i]; if (eligible) { body } }`
shared by the seven `Update` methods; no `Update` changes its vector inside the
loop. A body without a defined result (a null pointer dereferenced) ends the run. -/
def updateLoop (body : World → CompPtr → Option World) (activeScene : Int) :
    List CompPtr → World → Option World
  | [], w => some w
  | c :: cs, w =>
    if eligible w c activeScene then
      match body w c with
      | none => none
      | some w1 => updateLoop body activeScene cs w1
    else
      updateLoop body activeScene cs w

/-- Loop body of `StaticRenderingSystem::Update`: viewport test, then submission. -/
def StaticRenderingSystem.body (w : World) (s : CompPtr) : Option World :=
  let sp := w.sprite s
  let pos := w.position sp.pos
  if pos.x + (sp.width / 2) > w.game.leftX ∧ pos.x - (sp.width / 2) < w.game.rightX ∧
     pos.y + (sp.height / 2) > w.game.bottomY ∧ pos.y - (sp.height / 2) < w.game.topY ∧
     pos.z < w.game.camZ then
    some { w with quadCalls := w.quadCalls ++
      [QuadCall.sprite pos sp.width sp.height sp.scaleX sp.scaleY ⟨1, 1, 1, 1⟩
        (w.texture sp.sprite).ID (w.texture sp.mapTex).ID sp.tiled sp.flippedX sp.flippedY] }
  else
    some w

/-- Method `StaticRenderingSystem::Update`. The first argument stands for
`std::sort`, which is given the comparison `a->pos->z < b->pos->z`; the result
is the world and the vector as sorted. -/
def StaticRenderingSystem.Update (sort : (CompPtr → CompPtr → Bool) → List CompPtr → List CompPtr)
    (w : World) (sprites : List CompPtr) (activeScene : Int) (_deltaTime : ℚ) :
    Option (World × List CompPtr) :=
  let sorted := sort
    (fun a b => decide ((w.position (w.sprite a).pos).z < (w.position (w.sprite b).pos).z)) sprites
  match updateLoop StaticRenderingSystem.body activeScene sorted w with
  | none => none
  | some w1 => some (w1, sorted)

/-- Loop body of `InputSystem::Update`: empty. -/
def InputSystem.body (w : World) (_m : CompPtr) : Option World :=
  some w

/-- Method `InputSystem::Update`. -/
def InputSystem.Update (w : World) (move : List CompPtr) (activeScene : Int) (_deltaTime : ℚ) :
    Option World :=
  updateLoop InputSystem.body activeScene move w

/-- Method `CameraFollowSystem::Lerp`. -/
def CameraFollowSystem.Lerp (a b t : ℚ) : ℚ :=
  (1 - t) * a + t * b

/-- Loop body of `CameraFollowSystem::Update`. The position pointer comes from
`componentIDMap[positionComponentID]`, which is null when the owner has no such
entry; the body then dereferences a null pointer. -/
def CameraFollowSystem.body (deltaTime : ℚ) (w : World) (f : CompPtr) : Option World :=
  match mapFind (w.entity (w.component f).entity).componentIDMap positionComponentID with
  | none => none
  | some p =>
    let pos := w.position p
    some { w with game :=
      { w.game with
        camX := CameraFollowSystem.Lerp w.game.camX pos.x ((w.cameraFollow f).speed * deltaTime),
        camY := CameraFollowSystem.Lerp w.game.camY pos.y ((w.cameraFollow f).speed * deltaTime) } }

/-- Method `CameraFollowSystem::Update`. -/
def CameraFollowSystem.Update (w : World) (folls : List CompPtr) (activeScene : Int)
    (deltaTime : ℚ) : Option World :=
  updateLoop (CameraFollowSystem.body deltaTime) activeScene folls w

/-- Loop body of `AnimationControllerSystem::Update`: the test of `subID`
guards an empty block. -/
def AnimationControllerSystem.body (w : World) (c : CompPtr) : Option World :=
  if (w.animationController c).subID = exampleAnimControllerSubID then some w else some w

/-- Method `AnimationControllerSystem::Update`. -/
def AnimationControllerSystem.Update (w : World) (controllers : List CompPtr) (activeScene : Int)
    (_deltaTime : ℚ) : Option World :=
  updateLoop AnimationControllerSystem.body activeScene controllers w

/-- The frame advance inside the loop body of `AnimationSystem::Update`, from
`a->lastTick += deltaTime` to the end of the block guarded by
`activeAnimation->speed < a->lastTick`. The locals `cellX`, `cellY` end equal
to the members `activeX`, `activeY`. -/
def AnimationSystem.advance (anim : Animation2D) (deltaTime : ℚ) (a : AnimationComponent) :
    AnimationComponent :=
  let a1 := { a with lastTick := a.lastTick + deltaTime }
  if anim.speed < a1.lastTick then
    let a2 := { a1 with lastTick := 0 }
    if a2.activeX + 1 < anim.rowsToCols a2.activeY then
      { a2 with activeX := a2.activeX + 1 }
    else
      let a3 := if anim.loop ∨ a2.activeY > 0 then { a2 with activeX := 0 } else a2
      if a3.activeY - 1 ≥ 0 then
        { a3 with activeY := a3.activeY - 1 }
      else if anim.loop then
        { a3 with activeX := 0, activeY := anim.rows - 1 }
      else
        a3
  else
    a1

/-- Loop body of `AnimationSystem::Update`: frame advance, viewport test,
submission of the active cell. The clip pointer comes from
`a->animations[a->activeAnimation]`, which is null when the map has no clip
under that name; the body then dereferences a null pointer. -/
def AnimationSystem.body (deltaTime : ℚ) (w : World) (a : CompPtr) : Option World :=
  match mapFind (w.animation a).animations (w.animation a).activeAnimation with
  | none => none
  | some none => none
  | some (some ap) =>
    let anim := w.animation2D ap
    let ac := AnimationSystem.advance anim deltaTime (w.animation a)
    let w1 : World := { w with animation := fun c => if c = a then ac else w.animation c }
    let pos := w1.position ac.pos
    if pos.x + ((anim.width / (anim.columns : ℚ)) / 2) > w1.game.leftX ∧
       pos.x - ((anim.width / (anim.columns : ℚ)) / 2) < w1.game.rightX ∧
       pos.y + ((anim.height / (anim.rows : ℚ)) / 2) > w1.game.bottomY ∧
       pos.y - ((anim.height / (anim.rows : ℚ)) / 2) < w1.game.topY ∧
       pos.z < w1.game.camZ then
      some { w1 with quadCalls := w1.quadCalls ++
        [QuadCall.cell pos anim.width anim.height ac.scaleX ac.scaleY ⟨1, 1, 1, 1⟩
          anim.ID (w1.texture ac.mapTex).ID ac.activeX ac.activeY anim.columns anim.rows
          ac.flippedX ac.flippedY] }
    else
      some w1

/-- Method `AnimationSystem::Update`. The first argument stands for `std::sort`. -/
def AnimationSystem.Update (sort : (CompPtr → CompPtr → Bool) → List CompPtr → List CompPtr)
    (w : World) (anims : List CompPtr) (activeScene : Int) (deltaTime : ℚ) :
    Option (World × List CompPtr) :=
  let sorted := sort
    (fun a b => decide ((w.position (w.animation a).pos).z < (w.position (w.animation b).pos).z)) anims
  match updateLoop (AnimationSystem.body deltaTime) activeScene sorted w with
  | none => none
  | some w1 => some (w1, sorted)

/-- The lifetime handed to `AddParticles`,
`p->minLifetime + static_cast<float>(rand()) * static_cast<float>(p->maxLifetime - p->minLifetime) / RAND_MAX`,
for the value `r` returned by `rand()`: the `int` values `rand()` and `RAND_MAX`
are converted to `float`, and the difference, the product, the quotient and the
sum are `float` operations. -/
def ParticleSystem.lifetime (pc : ParticleComponent) (r : Nat) : ℚ :=
  fl32 (pc.minLifetime +
    fl32 (fl32 (fl32 (r : ℚ) * fl32 (pc.maxLifetime - pc.minLifetime)) / fl32 (RAND_MAX : ℚ)))

/-- Loop body of `ParticleSystem::Update`; the four bounds are the locals
`screenLeft`, `screenRight`, `screenBottom`, `screenTop` computed before the
loop. The accumulator `lastTick` is a `float`, and `p->lastTick += deltaTime` is
a `float` addition. -/
def ParticleSystem.body (screenLeft screenRight screenBottom screenTop deltaTime : ℚ)
    (w : World) (p : CompPtr) : Option World :=
  let pc := w.particle p
  if pc.lastTick ≥ pc.tickRate then
    let w1 : World :=
      { w with particle := fun c => if c = p then { pc with lastTick := 0 } else w.particle c }
    match mapFind (w1.entity (w1.component p).entity).componentIDMap positionComponentID with
    | none => none
    | some q =>
      let pos := w1.position q
      let pPosX := pos.x + pc.xOffset
      let pPosY := pos.y + pc.yOffset
      if pPosX > screenLeft ∧ pPosX < screenRight ∧ pPosY > screenBottom ∧ pPosY < screenTop then
        let lifetime : ℚ := ParticleSystem.lifetime pc (w1.randOracle w1.randCount)
        some { w1 with
          randCount := w1.randCount + 1,
          particleCalls := w1.particleCalls ++ [⟨pc.number, pPosX, pPosY, pc.element, lifetime⟩] }
      else
        some w1
  else
    some { w with particle := fun c =>
      if c = p then { pc with lastTick := fl32 (pc.lastTick + deltaTime) } else w.particle c }

/-- Method `ParticleSystem::Update`. -/
def ParticleSystem.Update (w : World) (particles : List CompPtr) (activeScene : Int)
    (deltaTime : ℚ) : Option World :=
  let screenLeft := w.game.camX - ((w.game.windowWidth : ℚ) * w.game.zoom / 1)
  let screenRight := w.game.camX + ((w.game.windowWidth : ℚ) * w.game.zoom / 1)
  let screenBottom := w.game.camY - ((w.game.windowHeight : ℚ) * w.game.zoom / 1)
  let screenTop := w.game.camY + ((w.game.windowHeight : ℚ) * w.game.zoom / 1)
  updateLoop (ParticleSystem.body screenLeft screenRight screenBottom screenTop deltaTime)
    activeScene particles w

/-- Loop body of `ImageSystem::Update`. Both pointers come from
`componentIDMap[...]` and are null when the owner has no such entry. -/
def ImageSystem.body (w : World) (img : CompPtr) : Option World :=
  match mapFind (w.entity (w.component img).entity).componentIDMap positionComponentID,
        mapFind (w.entity (w.component img).entity).componentIDMap spriteComponentID with
  | some p, some sp =>
    let tex := w.texture (w.sprite sp).sprite
    let anchorPos : ℚ × ℚ :=
      match (w.image img).anchor with
      | Anchor.topLeft => (w.game.leftX - (-tex.width), w.game.topY - tex.height)
      | Anchor.topRight => (w.game.rightX - tex.width, w.game.topY - tex.height)
      | Anchor.bottomLeft => (w.game.leftX + tex.width, w.game.bottomY + tex.height)
      | Anchor.bottomRight => (w.game.rightX + (-tex.width), w.game.bottomY + tex.height)
    some { w with position := fun c =>
      if c = p then
        { w.position p with x := anchorPos.1 + (w.image img).x, y := anchorPos.2 + (w.image img).y }
      else w.position c }
  | _, _ => none

/-- Method `ImageSystem::Update`. -/
def ImageSystem.Update (w : World) (images : List CompPtr) (activeScene : Int) (_deltaTime : ℚ) :
    Option World :=
  updateLoop ImageSystem.body activeScene images w

/-- The virtual call `system->Update(activeScene, deltaTime)` of
`ComponentBlock::Update`, resolved by the dynamic class of the system. -/
def System.Update (sort : (CompPtr → CompPtr → Bool) → List CompPtr → List CompPtr)
    (w : World) (s : System) (activeScene : Int) (deltaTime : ℚ) : Option (World × System) :=
  match s.kind with
  | SystemKind.input =>
    (InputSystem.Update w s.components activeScene deltaTime).map (fun w1 => (w1, s))
  | SystemKind.particle =>
    (ParticleSystem.Update w s.components activeScene deltaTime).map (fun w1 => (w1, s))
  | SystemKind.image =>
    (ImageSystem.Update w s.components activeScene deltaTime).map (fun w1 => (w1, s))
  | SystemKind.staticRendering =>
    (StaticRenderingSystem.Update sort w s.components activeScene deltaTime).map
      (fun r => (r.1, { s with components := r.2 }))
  | SystemKind.cameraFollow =>
    (CameraFollowSystem.Update w s.components activeScene deltaTime).map (fun w1 => (w1, s))
  | SystemKind.animationController =>
    (AnimationControllerSystem.Update w s.components activeScene deltaTime).map (fun w1 => (w1, s))
  | SystemKind.animation =>
    (AnimationSystem.Update sort w s.components activeScene deltaTime).map
      (fun r => (r.1, { s with components := r.2 }))

/-! ## AnimationComponent: SetAnimation, AddAnimation (ecs.cpp) -/

/-- Result of `m[k]` on a `std::map` whose values are pointers: the value
stored under `k` and the map unchanged, or, when there is no entry for `k`, a
null pointer and the map with the entry `(k, null)` inserted. -/
def mapIndex {κ β : Type} [DecidableEq κ] (m : List (κ × Option β)) (k : κ) :
    Option β × List (κ × Option β) :=
  match mapFind m k with
  | some v => (v, m)
  | none => (none, m ++ [(k, none)])

/-- Method `AnimationComponent::SetAnimation`. The test evaluates
`animations[s]`; inside the block `animations[s]->rows` evaluates it again and
dereferences the result, which has no defined result for a null pointer. The
first argument is the heap of clips. -/
def AnimationComponent.SetAnimation (clips : AnimPtr → Animation2D) (a : AnimationComponent)
    (s : String) : Option AnimationComponent :=
  let r1 := mapIndex a.animations s
  match r1.1 with
  | some _ =>
    let r2 := mapIndex r1.2 s
    match r2.1 with
    | some ap =>
      some { a with animations := r2.2, activeAnimation := s, activeX := 0,
                    activeY := (clips ap).rows - 1, lastTick := 0 }
    | none => none
  | none => some { a with animations := r1.2 }

/-- Method `AnimationComponent::AddAnimation`; the pointer `anim` may be null. -/
def AnimationComponent.AddAnimation (a : AnimationComponent) (s : String)
    (anim : Option AnimPtr) : AnimationComponent :=
  { a with animations := mapEmplace a.animations s anim }

/-! ## Vocabulary for statements about participation -/

/-- A loop body run on every component of a list in turn, without any test. -/
def bodyLoop (body : World → CompPtr → Option World) : List CompPtr → World → Option World
  | [], w => some w
  | c :: cs, w =>
    match body w c with
    | none => none
    | some w1 => bodyLoop body cs w1

/-- The loop body that the `Update` of a system of the given class runs;
`w0` is the world at the entry of `Update`, from which `ParticleSystem::Update`
computes its bounds. -/
def System.body (kind : SystemKind) (w0 : World) (deltaTime : ℚ) : World → CompPtr → Option World :=
  match kind with
  | SystemKind.input => InputSystem.body
  | SystemKind.particle =>
    ParticleSystem.body
      (w0.game.camX - ((w0.game.windowWidth : ℚ) * w0.game.zoom / 1))
      (w0.game.camX + ((w0.game.windowWidth : ℚ) * w0.game.zoom / 1))
      (w0.game.camY - ((w0.game.windowHeight : ℚ) * w0.game.zoom / 1))
      (w0.game.camY + ((w0.game.windowHeight : ℚ) * w0.game.zoom / 1)) deltaTime
  | SystemKind.image => ImageSystem.body
  | SystemKind.staticRendering => StaticRenderingSystem.body
  | SystemKind.cameraFollow => CameraFollowSystem.body deltaTime
  | SystemKind.animationController => AnimationControllerSystem.body
  | SystemKind.animation => AnimationSystem.body deltaTime

/-- The order in which the `Update` of a system visits its collection: the
collection as sorted for the two rendering systems, as it is for the others. -/
def System.order (sort : (CompPtr → CompPtr → Bool) → List CompPtr → List CompPtr)
    (w : World) (s : System) : List CompPtr :=
  match s.kind with
  | SystemKind.staticRendering =>
    sort (fun a b => decide ((w.position (w.sprite a).pos).z < (w.position (w.sprite b).pos).z))
      s.components
  | SystemKind.animation =>
    sort (fun a b => decide ((w.position (w.animation a).pos).z < (w.position (w.animation b).pos).z))
      s.components
  | _ => s.components

/-- The fields of a component object: those of the base class and those of
its own class. -/
inductive ComponentFields where
  | input (base : Component) (own : InputComponent)
  | particle (base : Component) (own : ParticleComponent)
  | image (base : Component) (own : ImageComponent)
  | sprite (base : Component) (own : StaticSpriteComponent)
  | cameraFollow (base : Component) (own : CameraFollowComponent)
  | animationController (base : Component) (own : AnimationControllerComponent)
  | animation (base : Component) (own : AnimationComponent)
deriving DecidableEq

/-- All fields of the component at address `c`, read as a component of the
class that a system of the given kind holds. -/
def World.fieldsOf (w : World) (kind : SystemKind) (c : CompPtr) : ComponentFields :=
  match kind with
  | SystemKind.input => ComponentFields.input (w.component c) (w.input c)
  | SystemKind.particle => ComponentFields.particle (w.component c) (w.particle c)
  | SystemKind.image => ComponentFields.image (w.component c) (w.image c)
  | SystemKind.staticRendering => ComponentFields.sprite (w.component c) (w.sprite c)
  | SystemKind.cameraFollow => ComponentFields.cameraFollow (w.component c) (w.cameraFollow c)
  | SystemKind.animationController =>
    ComponentFields.animationController (w.component c) (w.animationController c)
  | SystemKind.animation => ComponentFields.animation (w.component c) (w.animation c)

/-- Insertion into a list ordered by `lt`. -/
def insertBy (lt : CompPtr → CompPtr → Bool) (x : CompPtr) : List CompPtr → List CompPtr
  | [] => [x]
  | y :: ys => if lt y x then y :: insertBy lt x ys else x :: y :: ys

/-- Insertion sort by the comparison `lt`: one of the results `std::sort` may give. -/
def insertionSortBy (lt : CompPtr → CompPtr → Bool) : List CompPtr → List CompPtr
  | [] => []
  | x :: xs => insertBy lt x (insertionSortBy lt xs)

/-- A world with a global entity 1 (scene 0) and an entity 2 of scene 5, each
with a Position (addresses 10 and 20); every other component address is owned
by entity 1 when it is odd and by entity 2 when it is even, and is active.
Particle emitters have tick rate 1 and accumulator 0; the viewport is the
square from -10 to 10 around a camera at the origin. -/
def exampleWorld : World :=
  { component := fun c => if c % 2 = 1 then ⟨true, 1, particleComponentID⟩
                          else ⟨true, 2, particleComponentID⟩,
    entity := fun e => if e = 1 then ⟨1, 0, "global", [10], [(positionComponentID, 10)]⟩
                       else ⟨2, 5, "local", [20], [(positionComponentID, 20)]⟩,
    deletedComponents := [],
    deletedEntities := [],
    position := fun c => if c = 10 then ⟨true, 0, 0, 1, 0⟩ else ⟨true, 3, 3, 2, 0⟩,
    sprite := fun _ => ⟨2, 2, 1, 1, false, false, false, 0, 0, 10⟩,
    input := fun _ => ⟨false⟩,
    cameraFollow := fun _ => ⟨2⟩,
    animation := fun _ => ⟨0, 0, "idle", [("idle", some 0)], 0, 10, 0, 1, 1, false, false⟩,
    animationController := fun _ => ⟨0, exampleAnimControllerSubID⟩,
    particle := fun _ => ⟨0, 1, 0, 0, 3, 0, 1, 2⟩,
    image := fun _ => ⟨Anchor.topRight, 0, 0⟩,
    texture := fun _ => ⟨7, 2, 2⟩,
    animation2D := fun _ => ⟨8, 8, 2, 4, 1, 1 / 10, true, fun _ => 4⟩,
    game := ⟨20, 20, 0, 0, 120, 1 / 2, 10, -10, -10, 10⟩,
    quadCalls := [],
    particleCalls := [],
    randOracle := fun _ => 0,
    randCount := 0 }

/-! ## Vocabulary for statements about sequences of submissions -/

/-- Quads submitted one after the other with the given texture ids (raw screen
position overload, a white unit quad at the origin each time). -/
def submitAll (M : Nat) : Renderer → List Nat → Option Renderer
  | r, [] => some r
  | r, t :: ts =>
    match r.prepareQuadScreen M (0, 0) 1 1 1 1 ⟨1, 1, 1, 1⟩ t false false with
    | none => none
    | some r1 => submitAll M r1 ts

/-- The texture resolution of `prepareQuad` run over a sequence of texture ids:
the locations found, in order, and the final list of bound textures. -/
def resolveAll : List Nat → List Nat → List Nat × List Nat
  | ids, [] => ([], ids)
  | ids, t :: ts =>
    ((resolveTexture ids t).1 :: (resolveAll (resolveTexture ids t).2 ts).1,
     (resolveAll (resolveTexture ids t).2 ts).2)

/-- The cursors of the batches of a renderer, in order. -/
def Renderer.cursors (r : Renderer) : List Nat :=
  r.batches.map (fun b => b.quadIndex)

/-! ## Vocabulary for statements about ownership -/

/-- Entries of a vector of component pointers whose owner (`->entity`) is `e`. -/
def ownedBy (mem : Memory) (e : EntityPtr) (v : List CompPtr) : List CompPtr :=
  v.filter (fun c => decide ((mem.component c).entity = e))

/-- Entries of a vector of component pointers whose owner (`->entity`) is not `e`. -/
def notOwnedBy (mem : Memory) (e : EntityPtr) (v : List CompPtr) : List CompPtr :=
  v.filter (fun c => decide ((mem.component c).entity ≠ e))

/-- Every component pointer held by the systems of the blocks, in block order. -/
def heldComponents (blocks : List ComponentBlock) : List CompPtr :=
  blocks.flatMap (fun b => b.system.components)

/-- The block with the owner's components taken out of its system's collection. -/
def ComponentBlock.without (mem : Memory) (e : EntityPtr) (b : ComponentBlock) : ComponentBlock :=
  { b with system := { b.system with components := notOwnedBy mem e b.system.components } }

/-! ## Example states -/

/-- A heap in the shape of the first-frame bootstrap of `ECS::Update`: entity 1
("Watermark", scene 0) and three components owned by it, a Position at address
10, a StaticSprite at 11 and an Image at 12. Nothing is registered yet. -/
def bootstrapMemory : Memory :=
  { component := fun c =>
      if c = 10 then ⟨true, 1, positionComponentID⟩
      else if c = 11 then ⟨true, 1, spriteComponentID⟩
      else ⟨true, 1, imageComponentID⟩,
    entity := fun _ => ⟨1, 0, "Watermark", [], []⟩,
    deletedComponents := [],
    deletedEntities := [] }

/-- The state after `Init` and the three `RegisterComponent` calls of the bootstrap. -/
def bootstrapState : Memory × ECS :=
  ECS.RegisterComponent
    (ECS.RegisterComponent (ECS.RegisterComponent (bootstrapMemory, ECS.empty.Init) 10 1) 11 1) 12 1

/-- A sequence of `RegisterComponent(c, e)` calls, executed in order. -/
def registerAll (st : Memory × ECS) (calls : List (CompPtr × EntityPtr)) : Memory × ECS :=
  calls.foldl (fun s call => ECS.RegisterComponent s call.1 call.2) st

/-- The block after the calls of a sequence that carry its type id have reached it. -/
def ComponentBlock.afterCalls (mem : Memory) (calls : List (CompPtr × EntityPtr))
    (b : ComponentBlock) : ComponentBlock :=
  { b with system := { b.system with components := b.system.components ++
      (calls.filter (fun call => decide ((mem.component call.1).ID = b.componentID))).map Prod.fst } }

/-- A heap in which every component address holds a StaticSprite owned by
entity 1, and entity 1 has no component registered yet. -/
def spritesMemory : Memory :=
  { component := fun _ => ⟨true, 1, spriteComponentID⟩,
    entity := fun _ => ⟨1, 0, "", [], []⟩,
    deletedComponents := [],
    deletedEntities := [] }

/-! ## Vocabulary for statements about flushing -/

/-- The number of draw calls among the calls made to OpenGL. -/
def drawCount (calls : List GLCall) : Nat :=
  (calls.filter (fun call =>
    match call with
    | GLCall.drawElements _ => true
    | GLCall.bindTexture _ _ => false)).length

/-- The texture bindings among the calls made to OpenGL, as pairs of texture
unit and texture, in order. -/
def bindings : List GLCall → List (Nat × Nat)
  | [] => []
  | GLCall.bindTexture unit texture :: rest => (unit, texture) :: bindings rest
  | GLCall.drawElements _ :: rest => bindings rest

/-! ## Vocabulary for statements about animation -/

/-- The active cell of an animation component, as (column, row). -/
def AnimationComponent.cell (a : AnimationComponent) : Int × Int :=
  (a.activeX, a.activeY)

/-- The animation component after `n` ticks of the frame advance with one clip
and one time step. -/
def AnimationSystem.ticks (anim : Animation2D) (deltaTime : ℚ) : Nat → AnimationComponent →
    AnimationComponent
  | 0, a => a
  | n + 1, a => AnimationSystem.advance anim deltaTime (AnimationSystem.ticks anim deltaTime n a)

/-- A clip of one row with four columns, frame duration 0.1, id 8 and a sheet
of 8 by 2 pixels, looping or not. -/
def rowClip (loop : Bool) : Animation2D :=
  { ID := 8, width := 8, height := 2, columns := 4, rows := 1, speed := 1 / 10, loop := loop,
    rowsToCols := fun _ => 4 }

/-- An animation component at the given cell with the given accumulator,
playing the clip registered under the name "idle" at clip address 0. -/
def idleAnimation (column row : Int) (elapsed : ℚ) : AnimationComponent :=
  { activeX := column, activeY := row, activeAnimation := "idle",
    animations := [("idle", some 0)], mapTex := 0, pos := 10, lastTick := elapsed,
    scaleX := 1, scaleY := 1, flippedX := false, flippedY := false }

/-- The example world with every animation component at the last column of row
0 of a clip that does not loop. -/
def lastFrameWorld : World :=
  { exampleWorld with
    animation := fun _ => idleAnimation 3 0 0,
    animation2D := fun _ => rowClip false }

/-! ## Vocabulary for statements about rendering passes -/

/-- The viewport test of `StaticRenderingSystem::Update` for the sprite at
address `s`. -/
def StaticRenderingSystem.visible (w : World) (s : CompPtr) : Bool :=
  decide ((w.position (w.sprite s).pos).x + ((w.sprite s).width / 2) > w.game.leftX ∧
    (w.position (w.sprite s).pos).x - ((w.sprite s).width / 2) < w.game.rightX ∧
    (w.position (w.sprite s).pos).y + ((w.sprite s).height / 2) > w.game.bottomY ∧
    (w.position (w.sprite s).pos).y - ((w.sprite s).height / 2) < w.game.topY ∧
    (w.position (w.sprite s).pos).z < w.game.camZ)

/-- The quad submission that `StaticRenderingSystem::Update` makes for the
sprite at address `s`. -/
def StaticRenderingSystem.call (w : World) (s : CompPtr) : QuadCall :=
  QuadCall.sprite (w.position (w.sprite s).pos) (w.sprite s).width (w.sprite s).height
    (w.sprite s).scaleX (w.sprite s).scaleY ⟨1, 1, 1, 1⟩ (w.texture (w.sprite s).sprite).ID
    (w.texture (w.sprite s).mapTex).ID (w.sprite s).tiled (w.sprite s).flippedX
    (w.sprite s).flippedY

/-- The quad submissions that the loop of `StaticRenderingSystem::Update` makes
when it visits the list `cs`: one for every entry that is eligible and passes
the viewport test, in the order of the list. -/
def StaticRenderingSystem.calls (w : World) (activeScene : Int) (cs : List CompPtr) :
    List QuadCall :=
  (cs.filter (fun c => eligible w c activeScene && StaticRenderingSystem.visible w c)).map
    (StaticRenderingSystem.call w)

/-- The collection of `StaticRenderingSystem` as `Update` sorts it: the result of
the sorting routine for the comparison `a->pos->z < b->pos->z`. -/
def StaticRenderingSystem.sorted
    (sort : (CompPtr → CompPtr → Bool) → List CompPtr → List CompPtr)
    (w : World) (sprites : List CompPtr) : List CompPtr :=
  sort (fun a b => decide ((w.position (w.sprite a).pos).z < (w.position (w.sprite b).pos).z))
    sprites

/-- The depth `pos->z` with which a quad was submitted. -/
def QuadCall.z : QuadCall → ℚ
  | QuadCall.sprite pos _ _ _ _ _ _ _ _ _ _ => pos.z
  | QuadCall.cell pos _ _ _ _ _ _ _ _ _ _ _ _ _ => pos.z

/-- The example world with a window of 20 by 20 at zoom 1/2 and the camera at
the origin, the viewport from -5 to 5 that the frame driver computes for them
(camera plus and minus window size times zoom times 0.5), every Position at
(7, 0), and emitters with tick rate 1 whose accumulator has reached 1. -/
def particleWorld : World :=
  { exampleWorld with
    game := ⟨20, 20, 0, 0, 120, 1 / 2, 5, -5, -5, 5⟩,
    position := fun _ => ⟨true, 7, 0, 1, 0⟩,
    particle := fun _ => ⟨1, 1, 0, 0, 3, 0, 1, 2⟩ }

/-- The particle world with entities of scene 0 that carry no component at all,
in particular no Position. -/
def bareWorld : World :=
  { particleWorld with entity := fun _ => ⟨3, 0, "bare", [], []⟩ }

/-! ## Renderer: the index buffer (constructor, renderer.cpp) -/

/-- The assignment `a[p] = v` on an array of unsigned integers. -/
def arrayStore (a : Nat → Nat) (p v : Nat) : Nat → Nat :=
  fun q => if q = p then v else a q

/-- Iteration `i` of the loop of the constructor `Renderer::Renderer` that fills
the local array `quadIndices`. -/
def quadIndicesStep (i : Nat) (quadIndices : Nat → Nat) : Nat → Nat :=
  let rightOffset := 4 * i
  let leftOffset := 6 * i
  let a0 := arrayStore quadIndices (leftOffset + 0) (rightOffset + 0)
  let a1 := arrayStore a0 (leftOffset + 1) (rightOffset + 1)
  let a2 := arrayStore a1 (leftOffset + 2) (rightOffset + 3)
  let a3 := arrayStore a2 (leftOffset + 3) (rightOffset + 1)
  let a4 := arrayStore a3 (leftOffset + 4) (rightOffset + 2)
  arrayStore a4 (leftOffset + 5) (rightOffset + 3)

/-- The loop `for (int i = 0; i < n; i++)` of the constructor over
`quadIndices`, iterations `0` to `n - 1` in order. -/
def quadIndicesLoop : Nat → (Nat → Nat) → (Nat → Nat)
  | 0, quadIndices => quadIndices
  | n + 1, quadIndices => quadIndicesStep n (quadIndicesLoop n quadIndices)

/-- The array `quadIndices` that the constructor hands to `glBufferData` as the
index buffer. The array is declared without an initialiser with
`MAX_QUADS * 6` elements; `uninit` stands for what it held before the loop, and
the positions from `MAX_QUADS * 6` on lie outside the array. -/
def Renderer.quadIndices (uninit : Nat → Nat) : Nat → Nat :=
  quadIndicesLoop MAX_QUADS uninit

/-! ## Vocabulary for statements about quads -/

/-- The positions of the vertices of a quad, in the order bottomLeft,
bottomRight, topRight, topLeft. -/
def Quad.corners (q : Quad) : List (ℚ × ℚ) :=
  [(q.bottomLeft.xCoord, q.bottomLeft.yCoord), (q.bottomRight.xCoord, q.bottomRight.yCoord),
   (q.topRight.xCoord, q.topRight.yCoord), (q.topLeft.xCoord, q.topLeft.yCoord)]

/-! ## Frame driver (main.cpp) -/

/-- The statements of the frame loop of `main` that "manage the game window
and view": the four viewport bounds, from the camera, the window size and the
zoom. -/
def Game.updateViewport (g : Game) : Game :=
  let halfWindowHeight : ℚ := (g.windowHeight : ℚ) * g.zoom * (1 / 2)
  let halfWindowWidth : ℚ := (g.windowWidth : ℚ) * g.zoom * (1 / 2)
  { g with topY := g.camY + halfWindowHeight,
           bottomY := g.camY - halfWindowHeight,
           rightX := g.camX + halfWindowWidth,
           leftX := g.camX - halfWindowWidth }

/-! ## Vocabulary for statements about images and emitters -/

/-- The world after `n` successive calls of `ParticleSystem::Update` with one
vector of emitters, one active scene and one time step. -/
def ParticleSystem.ticks (particles : List CompPtr) (activeScene : Int) (deltaTime : ℚ) :
    Nat → World → Option World
  | 0, w => some w
  | n + 1, w =>
    match ParticleSystem.ticks particles activeScene deltaTime n w with
    | none => none
    | some w1 => ParticleSystem.Update w1 particles activeScene deltaTime

/-! ## AnimationComponent: constructor (ecs.cpp) -/

/-- Constructor `AnimationComponent::AnimationComponent`, as far as the
derived-class fields go (the base-class fields `ID`, `entity` and `active` are
held in `Component`). `idleAnimation` is a pointer and may be null; the last
assignment to `activeY` evaluates `animations[activeAnimation]->rows`, which has
no defined result for a null pointer. The first argument is the heap of clips. -/
def AnimationComponent.create (clips : AnimPtr → Animation2D) (pos : CompPtr)
    (idleAnimation : Option AnimPtr) (animationName : String) (mapTex : TexPtr)
    (scaleX scaleY : ℚ) (flippedX flippedY : Bool) : Option AnimationComponent :=
  let animations := mapEmplace ([] : List (String × Option AnimPtr)) animationName idleAnimation
  let r := mapIndex animations animationName
  match r.1 with
  | none => none
  | some ap =>
    some { activeX := 0, activeY := (clips ap).rows - 1, activeAnimation := animationName,
           animations := r.2, mapTex := mapTex, pos := pos, lastTick := 0,
           scaleX := scaleX, scaleY := scaleY, flippedX := flippedX, flippedY := flippedY }

/-! ## Vocabulary for statements about the animation cell -/

/-- A clip with at least one row and at least one column in every row. -/
def Animation2D.WellShaped (clip : Animation2D) : Prop :=
  1 ≤ clip.rows ∧ ∀ row : Int, 0 ≤ row → row < clip.rows → 1 ≤ clip.rowsToCols row

/-- The active cell of the component is a cell of the clip:
`0 ≤ row < rows` and `0 ≤ column < cols(row)`. -/
def AnimationComponent.InClip (a : AnimationComponent) (clip : Animation2D) : Prop :=
  0 ≤ a.activeY ∧ a.activeY < clip.rows ∧ 0 ≤ a.activeX ∧ a.activeX < clip.rowsToCols a.activeY

/-- The active clip name of the component is bound to a clip, and the active
cell is a cell of that clip. -/
def AnimationComponent.CellValid (clips : AnimPtr → Animation2D) (a : AnimationComponent) : Prop :=
  ∃ ap, mapFind a.animations a.activeAnimation = some (some ap) ∧ a.InClip (clips ap)

/-! ## Vocabulary for statements about texture units -/

/-- The texture units after `glBindTextureUnit(unit, texture)`. -/
def bindUnit (st : Nat → Option Nat) (unit texture : Nat) : Nat → Option Nat :=
  fun v => if v = unit then some texture else st v

/-- The texture bound to each unit after the calls made to OpenGL, from the
state `st` of the units before them: the last binding of the unit. -/
def boundAfter : List GLCall → (Nat → Option Nat) → Nat → Option Nat
  | [], st => st
  | GLCall.bindTexture unit texture :: rest, st => boundAfter rest (bindUnit st unit texture)
  | GLCall.drawElements _ :: rest, st => boundAfter rest st

/-- The draw calls among the calls made to OpenGL, in order, each as its index
count together with the state of the texture units at the moment of the draw. -/
def drawSnapshots : List GLCall → (Nat → Option Nat) → List (Nat × (Nat → Option Nat))
  | [], _ => []
  | GLCall.bindTexture unit texture :: rest, st => drawSnapshots rest (bindUnit st unit texture)
  | GLCall.drawElements count :: rest, st => (count, st) :: drawSnapshots rest st

/-! ## ECS orchestrator: Update (ecs.cpp) -/

/-- Whether `StaticRenderingSystem::Update` evaluates `s->mapTex->ID` (the
argument of its `prepareQuad` call) on a null `mapTex`: some sprite of the
vector is eligible, passes the viewport test and holds the null pointer. The
loop changes neither the eligibility nor the position of a sprite, so the order
in which `std::sort` leaves the vector does not matter. -/
def StaticRenderingSystem.derefsNull (w : World) (sprites : List CompPtr) (activeScene : Int) :
    Bool :=
  sprites.any (fun s => eligible w s activeScene && StaticRenderingSystem.visible w s
    && w.nullMapTex s)

/-- Method `ComponentBlock::Update`: `system->Update(activeScene, deltaTime)`.
`System.Update` is stated for pointers that point at live objects; the call has
no defined result when the sprite system dereferences a null `mapTex`. -/
def ComponentBlock.Update (sort : (CompPtr → CompPtr → Bool) → List CompPtr → List CompPtr)
    (w : World) (b : ComponentBlock) (activeScene : Int) (deltaTime : ℚ) :
    Option (World × ComponentBlock) :=
  if b.system.kind = SystemKind.staticRendering ∧
      StaticRenderingSystem.derefsNull w b.system.components activeScene = true then
    none
  else
    (System.Update sort w b.system activeScene deltaTime).map
      (fun r => (r.1, { b with system := r.2 }))

/-- The loop `for (i = 0; i < componentBlocks.size(); i++)
componentBlocks[i]->Update(activeScene, deltaTime);` of `ECS::Update`; no
`Update` of a system changes the vector of blocks or `activeScene`. -/
def updateBlocks (sort : (CompPtr → CompPtr → Bool) → List CompPtr → List CompPtr)
    (activeScene : Int) (deltaTime : ℚ) :
    List ComponentBlock → World → Option (World × List ComponentBlock)
  | [], w => some (w, [])
  | b :: bs, w =>
    match b.Update sort w activeScene deltaTime with
    | none => none
    | some r1 =>
      match updateBlocks sort activeScene deltaTime bs r1.1 with
      | none => none
      | some r2 => some (r2.1, r1.2 :: r2.2)

/-- What the first-frame block of `ECS::Update` takes from outside the ECS: the
addresses returned by its four `new` expressions, and the two pointers read
from `Game::main.textureMap` with `operator[]`, which gives the null pointer
(`none`) for a name that the map does not hold. The pointer `watermark` is
dereferenced by the block; the pointer `watermarkMap` is stored in the sprite. -/
structure Bootstrap where
  entity : EntityPtr
  position : CompPtr
  sprite : CompPtr
  image : CompPtr
  watermark : Option TexPtr
  watermarkMap : Option TexPtr

/-- The map `Game::main.textureMap` as main.cpp fills it before the first
frame: its only `emplace` is the one of the name "watermark". -/
def mainTextureMap (watermark : TexPtr) : List (String × TexPtr) :=
  mapEmplace [] "watermark" watermark

/-- The two lookups `Game::main.textureMap["watermark"]` and
`Game::main.textureMap["watermarkMap"]` of the first-frame block. -/
def Bootstrap.lookup (textureMap : List (String × TexPtr)) (entity : EntityPtr)
    (position sprite image : CompPtr) : Bootstrap :=
  { entity := entity, position := position, sprite := sprite, image := image,
    watermark := mapFind textureMap "watermark",
    watermarkMap := mapFind textureMap "watermarkMap" }

/-- Conversion of a `uint32_t` to `int`. -/
def toInt32 (n : Nat) : Int :=
  if n % 4294967296 < 2147483648 then ((n % 4294967296 : Nat) : Int)
  else ((n % 4294967296 : Nat) : Int) - 4294967296

/-- Method `uint32_t ECS::GetID()`: `return ++entityIDCounter`, in 32-bit
unsigned arithmetic. -/
def ECS.GetID (ecs : ECS) : Nat × ECS :=
  ((ecs.entityIDCounter + 1) % 4294967296,
   { ecs with entityIDCounter := (ecs.entityIDCounter + 1) % 4294967296 })

/-- Method `ECS::CreateEntity`: `new Entity(GetID(), scene, name)`, the new
object at the address `e`, with no component yet; the id is stored in an `int`. -/
def ECS.CreateEntity (st : World × ECS) (e : EntityPtr) (scene : Int) (name : String) :
    World × ECS :=
  let r := st.2.GetID
  ({ st.1 with entity := fun p => if p = e then ⟨toInt32 r.1, scene, name, [], []⟩
                                  else st.1.entity p }, r.2)

/-- Method `ECS::RegisterComponent` on a world. -/
def World.RegisterComponent (st : World × ECS) (c : CompPtr) (e : EntityPtr) : World × ECS :=
  let r := ECS.RegisterComponent (st.1.toMemory, st.2) c e
  ({ st.1 with toMemory := r.1 }, r.2)

/-- Constructor `PositionComponent::PositionComponent`, the new object at the
address `c`. -/
def PositionComponent.construct (w : World) (c : CompPtr) (entity : EntityPtr) (active stat : Bool)
    (x y z rotation : ℚ) : World :=
  { w with
    component := fun p => if p = c then ⟨active, entity, positionComponentID⟩ else w.component p,
    position := fun p => if p = c then ⟨stat, x, y, z, rotation⟩ else w.position p }

/-- Constructor `StaticSpriteComponent::StaticSpriteComponent`, the new object
at the address `c`. The pointer `mapTex` is stored as it is given, null or not. -/
def StaticSpriteComponent.construct (w : World) (c : CompPtr) (entity : EntityPtr) (active : Bool)
    (pos : CompPtr) (width height scaleX scaleY : ℚ) (sprite : TexPtr) (mapTex : Option TexPtr)
    (flippedX flippedY tiled : Bool) : World :=
  { w with
    component := fun p => if p = c then ⟨active, entity, spriteComponentID⟩ else w.component p,
    sprite := fun p =>
      if p = c then
        ⟨width, height, scaleX, scaleY, flippedX, flippedY, tiled, sprite, mapTex.getD 0, pos⟩
      else w.sprite p,
    nullMapTex := fun p => if p = c then mapTex.isNone else w.nullMapTex p }

/-- Constructor `ImageComponent::ImageComponent`, the new object at the address
`c`. -/
def ImageComponent.construct (w : World) (c : CompPtr) (entity : EntityPtr) (active : Bool)
    (anchor : Anchor) (x y : ℚ) : World :=
  { w with
    component := fun p => if p = c then ⟨active, entity, imageComponentID⟩ else w.component p,
    image := fun p => if p = c then ⟨anchor, x, y⟩ else w.image p }

/-- The block `if (round == 1) { ... }` of `ECS::Update` ("UI Instantiation"):
the watermark entity with a Position, a StaticSprite and an Image. The position
pointer handed to the sprite is `alphaWatermark->componentIDMap[positionComponentID]`. -/
def ECS.bootstrap (boot : Bootstrap) (st : World × ECS) : Option (World × ECS) :=
  let st1 := ECS.CreateEntity st boot.entity 0 "Watermark"
  let st2 := World.RegisterComponent
    (PositionComponent.construct st1.1 boot.position boot.entity true true 0 0 100 0, st1.2)
    boot.position boot.entity
  match boot.watermark, mapFind (st2.1.entity boot.entity).componentIDMap positionComponentID with
  | some watermark, some pos =>
    let st3 := World.RegisterComponent
      (StaticSpriteComponent.construct st2.1 boot.sprite boot.entity true pos
        (st2.1.texture watermark).width (st2.1.texture watermark).height 1 1
        watermark boot.watermarkMap false false false, st2.2)
      boot.sprite boot.entity
    some (World.RegisterComponent
      (ImageComponent.construct st3.1 boot.image boot.entity true Anchor.topRight 0 0, st3.2)
      boot.image boot.entity)
  | _, _ => none

/-- The opening of `ECS::Update`: `round++` and, in round 1, the bootstrap. -/
def ECS.beginFrame (boot : Bootstrap) (st : World × ECS) : Option (World × ECS) :=
  let ecs1 : ECS := { st.2 with round := st.2.round + 1 }
  if ecs1.round = 1 then ECS.bootstrap boot (st.1, ecs1) else some (st.1, ecs1)

/-- The call `PurgeDeadEntities()` that closes `ECS::Update`, on a world. -/
def World.PurgeDeadEntities (st : World × ECS) : World × ECS :=
  let r := ECS.PurgeDeadEntities (st.1.toMemory, st.2)
  ({ st.1 with toMemory := r.1 }, r.2)

/-- Method `ECS::Update`. The first argument stands for `std::sort`. -/
def ECS.Update (sort : (CompPtr → CompPtr → Bool) → List CompPtr → List CompPtr)
    (boot : Bootstrap) (st : World × ECS) (deltaTime : ℚ) : Option (World × ECS) :=
  match ECS.beginFrame boot st with
  | none => none
  | some st1 =>
    match updateBlocks sort st1.2.activeScene deltaTime st1.2.componentBlocks st1.1 with
    | none => none
    | some r => some (World.PurgeDeadEntities (r.1, { st1.2 with componentBlocks := r.2 }))

/-! ## Vocabulary for statements about the frame -/

/-- Addresses and textures for a run of the first-frame bootstrap: entity 50,
components 51, 52 and 53, watermark texture 0. -/
def exampleBootstrap : Bootstrap :=
  { entity := 50, position := 51, sprite := 52, image := 53, watermark := some 0,
    watermarkMap := some 0 }

/-- The dynamic class of the system of a block and the type id of the block. -/
def ComponentBlock.signature (b : ComponentBlock) : SystemKind × Int :=
  (b.system.kind, b.componentID)

/-! ## Vocabulary for statements about culling and drawn rectangles -/

/-- The axis-aligned rectangle spanned by the bottomLeft and topRight vertices
of a quad overlaps the viewport (strictly, as in the viewport tests). -/
def Quad.overlapsViewport (q : Quad) (g : Game) : Prop :=
  q.topRight.xCoord > g.leftX ∧ q.bottomLeft.xCoord < g.rightX ∧
  q.topRight.yCoord > g.bottomY ∧ q.bottomLeft.yCoord < g.topY

/-- The example world (viewport from -10 to 10, camera depth 120) with every
Position at (12, 0, 1) without rotation and every sprite 2 by 2 at scale 4. -/
def scaledSpriteWorld : World :=
  { exampleWorld with
    position := fun _ => ⟨true, 12, 0, 1, 0⟩,
    sprite := fun _ => ⟨2, 2, 4, 4, false, false, false, 0, 0, 10⟩ }

/-! ## Vocabulary for statements about the raster scan -/

/-- One step of the raster scan of a clip from the cell (column, row): the next
column of the row; after the last column of a row above row 0, column 0 of the
row below; after the last column of row 0, column 0 of the top row when the
clip loops, and the same cell when it does not. -/
def rasterStep (clip : Animation2D) (cell : Int × Int) : Int × Int :=
  if cell.1 + 1 < clip.rowsToCols cell.2 then (cell.1 + 1, cell.2)
  else if cell.2 > 0 then (0, cell.2 - 1)
  else if clip.loop then (0, clip.rows - 1)
  else cell

/-- Successive runs of the loop of `AnimationSystem::Update` over the one
component `a`, one for each time step of the list. -/
def AnimationSystem.frames (activeScene : Int) (a : CompPtr) : List ℚ → World → Option World
  | [], w => some w
  | dt :: dts, w =>
    match updateLoop (AnimationSystem.body dt) activeScene [a] w with
    | none => none
    | some w1 => AnimationSystem.frames activeScene a dts w1

/-! ## Vocabulary for statements about sequences of calls on an animation component -/

/-- A world in which the animation component at address `a` is `ac`. -/
def World.withAnimation (w : World) (a : CompPtr) (ac : AnimationComponent) : World :=
  { w with animation := fun c => if c = a then ac else w.animation c }

/-- A call that reaches the animation component at one address: `SetAnimation`,
`AddAnimation` (the clip pointer may be null), or a run of
`AnimationSystem::Update` over it. -/
inductive AnimationCall where
  | setAnimation (s : String)
  | addAnimation (s : String) (anim : Option AnimPtr)
  | update (activeScene : Int) (deltaTime : ℚ)

/-- The world after a call on the animation component at address `a`. -/
def AnimationCall.run (a : CompPtr) (w : World) : AnimationCall → Option World
  | AnimationCall.setAnimation s =>
    ((w.animation a).SetAnimation w.animation2D s).map (fun ac => w.withAnimation a ac)
  | AnimationCall.addAnimation s anim =>
    some (w.withAnimation a ((w.animation a).AddAnimation s anim))
  | AnimationCall.update activeScene deltaTime =>
    updateLoop (AnimationSystem.body deltaTime) activeScene [a] w

/-- The world after a sequence of calls on the animation component at address
`a`, made in order. -/
def AnimationCall.runAll (a : CompPtr) : List AnimationCall → World → Option World
  | [], w => some w
  | call :: calls, w =>
    match call.run a w with
    | none => none
    | some w1 => AnimationCall.runAll a calls w1

/-- The active clip name of the component is a key of its clip map, bound to a
clip that is not null. -/
def AnimationComponent.Bound (a : AnimationComponent) : Prop :=
  ∃ ap, mapFind a.animations a.activeAnimation = some (some ap)

/-- Two clips: at address 1 a clip of three rows, elsewhere the looping clip of
one row. -/
def twoClips : AnimPtr → Animation2D :=
  fun p => if p = 1 then { rowClip true with ID := 9, rows := 3 } else rowClip true

/-! ## Vocabulary for statements about components without a block -/

/-- A heap in which every component address holds a Position owned by entity
1, and entity 1 has no component registered yet. -/
def positionsMemory : Memory :=
  { component := fun _ => ⟨true, 1, positionComponentID⟩,
    entity := fun _ => ⟨1, 0, "", [], []⟩,
    deletedComponents := [],
    deletedEntities := [] }

/-! ## The first frame of main.cpp -/

/-- The world in which main.cpp calls `ECS::Update` for the first time: a
window of 1280 by 960, zoom 1/2 and the camera at (0, 0, 120), the values that
game.h gives them, the viewport that the frame driver computes from them, and
textures of the given width and height. The blocks of the ECS are those of
`Init`, which hold no component. -/
def firstFrameWorld (width height : ℚ) : World :=
  { exampleWorld with
    game := Game.updateViewport ⟨1280, 960, 0, 0, 120, 1 / 2, 0, 0, 0, 0⟩,
    texture := fun _ => ⟨1, width, height⟩ }

/-- The first-frame block of `ECS::Update` with the texture map of main.cpp,
the watermark texture at address 0, and the addresses 50 for the entity and 51,
52, 53 for its Position, StaticSprite and Image. -/
def firstFrameBootstrap : Bootstrap :=
  Bootstrap.lookup (mainTextureMap 0) 50 51 52 53

/-! ## Vocabulary for statements about texture coordinates -/

/-- Values of `cos` and `sin` at the `float` 13176795 / 2^23 = 1.5707964, which
is `radians` for a rotation of 90 degrees and lies above π/2 by about
4.37e-8: the cosine is the `float` -12303662 / 2^48 = -4.371139e-8 and the sine
is 1, as a correctly rounding C library returns them. -/
def quarterTurnTrig : Trig :=
  { cos := fun x => if x = 13176795 / 8388608 then -12303662 / 281474976710656 else 1,
    sin := fun x => if x = 13176795 / 8388608 then 1 else 0 }

/-! ## Theorems: binary32 rounding -/

theorem roundEven_eq (t : ℚ) (n : ℤ)
    (h : |t - n| < 1 / 2 ∨ (|t - n| = 1 / 2 ∧ n % 2 = 0)) : roundEven t = n := by
  have hf1 : (⌊t⌋ : ℚ) ≤ t := Int.floor_le t
  have hf2 : t < ⌊t⌋ + 1 := Int.lt_floor_add_one t
  have key : ⌊t⌋ = n ∨ ⌊t⌋ = n - 1 := by
    have h1 : |t - n| ≤ 1 / 2 := by
      rcases h with h | h
      · exact h.le
      · exact h.1.le
    have h2 := abs_le.mp h1
    have a1 : (⌊t⌋ : ℚ) < n + 1 := by linarith [h2.2]
    have a2 : (n : ℚ) - 2 < ⌊t⌋ := by linarith [h2.1]
    have b1 : ⌊t⌋ < n + 1 := by exact_mod_cast a1
    have b2 : n - 2 < ⌊t⌋ := by exact_mod_cast a2
    omega
  unfold roundEven
  rcases key with k | k
  · rw [k]
    have hge : (0 : ℚ) ≤ t - n := by rw [k] at hf1; linarith
    rw [abs_of_nonneg hge] at h
    rcases h with h | h
    · rw [if_pos h]
    · rw [if_neg (by rw [h.1]; exact lt_irrefl _), if_neg (by rw [h.1]; exact lt_irrefl _), if_pos h.2]
  · rw [k]
    have hcast : ((n - 1 : ℤ) : ℚ) = (n : ℚ) - 1 := by push_cast; ring
    rw [hcast]
    rw [k, hcast] at hf2
    have hle : t - n ≤ 0 := by linarith
    rw [abs_of_nonpos hle] at h
    rcases h with h | h
    · rw [if_neg (by linarith), if_pos (by linarith)]
      omega
    · rw [if_neg (by linarith [h.1]), if_neg (by linarith [h.1]), if_neg (by omega)]
      omega

theorem roundEven_spec (t : ℚ) :
    |t - roundEven t| < 1 / 2 ∨ (|t - roundEven t| = 1 / 2 ∧ roundEven t % 2 = 0) := by
  have hf1 : (⌊t⌋ : ℚ) ≤ t := Int.floor_le t
  have hf2 : t < ⌊t⌋ + 1 := Int.lt_floor_add_one t
  unfold roundEven
  split_ifs with h1 h2 h3
  · left
    rw [abs_of_nonneg (by linarith)]
    exact h1
  · left
    push_cast
    rw [abs_of_nonpos (by linarith)]
    linarith
  · right
    have he : t - ⌊t⌋ = 1 / 2 := le_antisymm (not_lt.mp h2) (not_lt.mp h1)
    exact ⟨by rw [abs_of_nonneg (by linarith)]; exact he, h3⟩
  · right
    have he : t - ⌊t⌋ = 1 / 2 := le_antisymm (not_lt.mp h2) (not_lt.mp h1)
    refine ⟨?_, by omega⟩
    push_cast
    rw [abs_of_nonpos (by linarith)]
    linarith

theorem roundEven_intCast (n : ℤ) : roundEven (n : ℚ) = n :=
  roundEven_eq _ n (Or.inl (by simp))

theorem roundEven_neg (t : ℚ) : roundEven (-t) = -roundEven t := by
  apply roundEven_eq
  have e : -t - ((-roundEven t : ℤ) : ℚ) = -(t - roundEven t) := by push_cast; ring
  rw [e, abs_neg]
  rcases roundEven_spec t with h | h
  · exact Or.inl h
  · exact Or.inr ⟨h.1, by omega⟩

theorem roundEven_mono {t u : ℚ} (h : t ≤ u) : roundEven t ≤ roundEven u := by
  by_contra hlt
  push_neg at hlt
  have h1 : (roundEven u : ℚ) + 1 ≤ roundEven t := by exact_mod_cast hlt
  have st : |t - roundEven t| ≤ 1 / 2 := by
    rcases roundEven_spec t with a | a
    · exact a.le
    · exact a.1.le
  have su : |u - roundEven u| ≤ 1 / 2 := by
    rcases roundEven_spec u with a | a
    · exact a.le
    · exact a.1.le
  have bt := abs_le.mp st
  have bu := abs_le.mp su
  -- t ≥ R t - 1/2 ≥ R u + 1/2 ≥ u ≥ t, so all are equalities
  have e1 : t - roundEven t = -(1 / 2) := by linarith [bt.1, bu.2]
  have e2 : u - roundEven u = 1 / 2 := by linarith [bt.1, bu.2]
  have e3 : (roundEven t : ℚ) = roundEven u + 1 := by linarith [bt.1, bu.2]
  have e3i : roundEven t = roundEven u + 1 := by exact_mod_cast e3
  have p1 : roundEven t % 2 = 0 := by
    rcases roundEven_spec t with a | a
    · rw [e1, abs_neg, abs_of_pos (by norm_num : (0 : ℚ) < 1 / 2)] at a
      exact absurd a (lt_irrefl _)
    · exact a.2
  have p2 : roundEven u % 2 = 0 := by
    rcases roundEven_spec u with a | a
    · rw [e2, abs_of_pos (by norm_num : (0 : ℚ) < 1 / 2)] at a
      exact absurd a (lt_irrefl _)
    · exact a.2
  omega

theorem roundEven_zero : roundEven 0 = 0 := by
  have := roundEven_intCast 0
  simpa using this

theorem roundEven_nonneg {t : ℚ} (h : 0 ≤ t) : 0 ≤ roundEven t := by
  have := roundEven_mono h
  rwa [roundEven_zero] at this

theorem binade_neg (emin : ℤ) (x : ℚ) : binade emin (-x) = binade emin x := by
  simp [binade]

theorem binade_ge (emin : ℤ) (x : ℚ) : emin ≤ binade emin x := le_max_right _ _

theorem lt_zpow_binade (emin : ℤ) (x : ℚ) : |x| < 2 ^ (binade emin x + 1) := by
  have h := Int.lt_zpow_succ_log_self (by norm_num : 1 < 2) |x|
  have h2 : ((2 : ℕ) : ℚ) ^ (Int.log 2 |x| + 1) ≤ (2 : ℚ) ^ (binade emin x + 1) := by
    rw [Nat.cast_ofNat]
    exact zpow_le_zpow_right₀ (by norm_num) (by unfold binade; have := le_max_left (Int.log 2 |x|) emin; omega)
  exact lt_of_lt_of_le h h2

theorem zpow_binade_le (emin : ℤ) (x : ℚ) (h : emin < binade emin x) (hx : x ≠ 0) :
    2 ^ binade emin x ≤ |x| := by
  have hb : binade emin x = Int.log 2 |x| := by
    unfold binade at h ⊢
    rcases max_cases (Int.log 2 |x|) emin with c | c
    · exact c.1
    · omega
  rw [hb]
  have := Int.zpow_log_le_self (by norm_num : 1 < 2) (abs_pos.mpr hx)
  rwa [Nat.cast_ofNat] at this

theorem binade_eq (emin : ℤ) (x : ℚ) (e : ℤ) (he : emin ≤ e) (h1 : 2 ^ e ≤ |x|)
    (h2 : |x| < 2 ^ (e + 1)) : binade emin x = e := by
  have hpos : 0 < |x| := lt_of_lt_of_le (zpow_pos (by norm_num) e) h1
  have a : e ≤ Int.log 2 |x| := by
    rw [← Int.zpow_le_iff_le_log (by norm_num) hpos, Nat.cast_ofNat]
    exact h1
  have b : Int.log 2 |x| < e + 1 := by
    rw [← Int.lt_zpow_iff_log_lt (by norm_num) hpos, Nat.cast_ofNat]
    exact h2
  unfold binade
  rw [max_eq_left (by omega)]
  omega

theorem binade_eq_emin (emin : ℤ) (x : ℚ) (hx : x ≠ 0) (h2 : |x| < 2 ^ (emin + 1)) :
    binade emin x = emin := by
  have hpos : 0 < |x| := abs_pos.mpr hx
  have b : Int.log 2 |x| < emin + 1 := by
    rw [← Int.lt_zpow_iff_log_lt (by norm_num) hpos, Nat.cast_ofNat]
    exact h2
  unfold binade
  exact max_eq_right (by omega)

theorem ulp32_pos (x : ℚ) : 0 < ulp32 x := zpow_pos (by norm_num) _

theorem ulp32_neg (x : ℚ) : ulp32 (-x) = ulp32 x := by
  simp [ulp32, binade_neg]

theorem fl32_neg (x : ℚ) : fl32 (-x) = -fl32 x := by
  unfold fl32
  rw [ulp32_neg, neg_div, roundEven_neg]
  push_cast
  ring

theorem fl32_zero : fl32 0 = 0 := by
  simp [fl32, roundEven_zero]

theorem fl32_nonneg {x : ℚ} (h : 0 ≤ x) : 0 ≤ fl32 x := by
  unfold fl32
  have h1 : (0 : ℚ) ≤ roundEven (x / ulp32 x) := by
    exact_mod_cast roundEven_nonneg (div_nonneg h (ulp32_pos x).le)
  exact mul_nonneg h1 (ulp32_pos x).le

/-- Evaluation of `fl32` in a binade of normal numbers. -/
theorem fl32_eval (x : ℚ) (e n : ℤ) (he : -126 ≤ e) (h1 : 2 ^ e ≤ |x|) (h2 : |x| < 2 ^ (e + 1))
    (hn : roundEven (x / 2 ^ (e - 23)) = n) : fl32 x = n * 2 ^ (e - 23) := by
  unfold fl32 ulp32
  rw [binade_eq (-126) x e he h1 h2, hn]

/-- Evaluation of `fl32` below the least normal number. -/
theorem fl32_eval_subnormal (x : ℚ) (n : ℤ) (h2 : |x| < 2 ^ (-126 : ℤ))
    (hn : roundEven (x / 2 ^ (-149 : ℤ)) = n) : fl32 x = n * 2 ^ (-149 : ℤ) := by
  by_cases hx : x = 0
  · subst hx
    rw [fl32_zero]
    simp [roundEven_zero] at hn
    rw [← hn]
    simp
  · unfold fl32 ulp32
    have hb : binade (-126) x = -126 := by
      apply binade_eq_emin _ _ hx
      refine lt_of_lt_of_le h2 ?_
      exact zpow_le_zpow_right₀ (by norm_num) (by norm_num)
    rw [hb]
    norm_num only at hn ⊢
    rw [hn]

theorem ulp32_ge (x : ℚ) : (2 : ℚ) ^ (-149 : ℤ) ≤ ulp32 x := by
  unfold ulp32
  exact zpow_le_zpow_right₀ (by norm_num) (by have := binade_ge (-126) x; omega)

theorem abs_lt_ulp32 (x : ℚ) : |x| < 2 ^ (24 : ℕ) * ulp32 x := by
  have h := lt_zpow_binade (-126) x
  have e : (2 : ℚ) ^ (24 : ℕ) * ulp32 x = 2 ^ (binade (-126) x + 1) := by
    unfold ulp32
    rw [← zpow_natCast, ← zpow_add₀ (by norm_num : (2 : ℚ) ≠ 0)]
    congr 1
    push_cast
    ring
  rw [e]
  exact h

/-- The significand of a rounded value has at most 24 bits. -/
theorem roundEven_ulp32_le (x : ℚ) : |roundEven (x / ulp32 x)| ≤ 2 ^ 24 := by
  have hu := ulp32_pos x
  have h := abs_lt_ulp32 x
  have h' := abs_lt.mp h
  have a1 : x / ulp32 x ≤ ((2 ^ 24 : ℤ) : ℚ) := by
    rw [div_le_iff₀ hu]
    push_cast
    linarith [h'.2]
  have a2 : ((-(2 ^ 24) : ℤ) : ℚ) ≤ x / ulp32 x := by
    rw [le_div_iff₀ hu]
    push_cast
    linarith [h'.1]
  have b1 := roundEven_mono a1
  have b2 := roundEven_mono a2
  rw [roundEven_intCast] at b1 b2
  exact abs_le.mpr ⟨b2, b1⟩

/-- Every value of `fl32` is a significand of at most 24 bits times a power of
two not below 2^-149. -/
theorem fl32_repr (x : ℚ) :
    ∃ n k : ℤ, |n| ≤ 2 ^ 24 ∧ -149 ≤ k ∧ fl32 x = n * 2 ^ k :=
  ⟨roundEven (x / ulp32 x), binade (-126) x - 23, roundEven_ulp32_le x,
    by have := binade_ge (-126) x; omega, rfl⟩

theorem two_zpow_split (b : ℤ) (m : ℕ) : (2 : ℚ) ^ b = 2 ^ m * 2 ^ (b - m) := by
  rw [← zpow_natCast, ← zpow_add₀ (by norm_num : (2 : ℚ) ≠ 0)]
  congr 1
  ring

theorem fl32_of_repr_lt (n k : ℤ) (hn : |n| < 2 ^ 24) (hk : -149 ≤ k) :
    fl32 (n * 2 ^ k) = n * 2 ^ k := by
  by_cases h0 : n = 0
  · subst h0
    simp [fl32_zero]
  have hx : (n : ℚ) * 2 ^ k ≠ 0 := mul_ne_zero (by exact_mod_cast h0) (zpow_ne_zero _ (by norm_num))
  obtain ⟨b, hbdef⟩ : ∃ b, b = binade (-126) ((n : ℚ) * 2 ^ k) := ⟨_, rfl⟩
  have hb : b - 23 ≤ k := by
    by_contra hc
    push_neg at hc
    have hlt : -126 < binade (-126) ((n : ℚ) * 2 ^ k) := by omega
    have h1 := zpow_binade_le (-126) _ hlt hx
    have h2 : |(n : ℚ) * 2 ^ k| < 2 ^ (k + 24) := by
      rw [abs_mul, abs_of_pos (zpow_pos (by norm_num : (0 : ℚ) < 2) k),
        zpow_add₀ (by norm_num : (2 : ℚ) ≠ 0), mul_comm ((2 : ℚ) ^ k)]
      apply mul_lt_mul_of_pos_right _ (zpow_pos (by norm_num) k)
      have : ((|n| : ℤ) : ℚ) < ((2 ^ 24 : ℤ) : ℚ) := by exact_mod_cast hn
      rw [Int.cast_abs] at this
      norm_num at this ⊢
      exact this
    have h3 : (2 : ℚ) ^ (k + 24) ≤ 2 ^ binade (-126) ((n : ℚ) * 2 ^ k) :=
      zpow_le_zpow_right₀ (by norm_num) (by omega)
    linarith
  obtain ⟨j, hj⟩ : ∃ j : ℕ, k = b - 23 + j := ⟨(k - (b - 23)).toNat, by omega⟩
  have e2 : (2 : ℚ) ^ k = 2 ^ (b - 23) * 2 ^ j := by
    rw [hj, zpow_add₀ (by norm_num : (2 : ℚ) ≠ 0), zpow_natCast]
  have hu : ulp32 ((n : ℚ) * 2 ^ k) = 2 ^ (b - 23) := by rw [hbdef]; rfl
  have hpos : (0 : ℚ) < 2 ^ (b - 23) := zpow_pos (by norm_num) _
  have hq : (n : ℚ) * 2 ^ k / ulp32 ((n : ℚ) * 2 ^ k) = ((n * 2 ^ j : ℤ) : ℚ) := by
    rw [hu, e2]
    push_cast
    field_simp
    ring
  unfold fl32
  rw [hq, roundEven_intCast, hu, e2]
  push_cast
  ring

/-- A significand of at most 24 bits times a power of two not below 2^-149 is
a binary32 value: `fl32` returns it unchanged. -/
theorem fl32_of_repr (n k : ℤ) (hn : |n| ≤ 2 ^ 24) (hk : -149 ≤ k) :
    fl32 (n * 2 ^ k) = n * 2 ^ k := by
  by_cases h : |n| < 2 ^ 24
  · exact fl32_of_repr_lt n k h hk
  · have he : |n| = 2 ^ 24 := le_antisymm hn (not_lt.mp h)
    have hs : n = 2 ^ 24 ∨ n = -(2 ^ 24) := by
      rcases abs_cases n with c | c <;> omega
    have key : ∀ m : ℤ, m = 2 * (m / 2) → (m : ℚ) * 2 ^ k = ((m / 2 : ℤ) : ℚ) * 2 ^ (k + 1) := by
      intro m hm
      rw [zpow_add₀ (by norm_num : (2 : ℚ) ≠ 0)]
      nth_rewrite 1 [hm]
      push_cast
      ring
    rw [key n (by omega)]
    exact fl32_of_repr_lt (n / 2) (k + 1) (by rcases hs with c | c <;> rw [c] <;> norm_num) (by omega)

theorem fl32_idem (x : ℚ) : fl32 (fl32 x) = fl32 x := by
  obtain ⟨n, k, hn, hk, h⟩ := fl32_repr x
  rw [h]
  exact fl32_of_repr n k hn hk

theorem fl32_intCast (n : ℤ) (hn : |n| ≤ 2 ^ 24) : fl32 (n : ℚ) = n := by
  have := fl32_of_repr n 0 hn (by norm_num)
  simpa using this

theorem fl32_mono_nonneg {x y : ℚ} (hx : 0 ≤ x) (h : x ≤ y) : fl32 x ≤ fl32 y := by
  rcases eq_or_lt_of_le hx with h0 | hpos
  · rw [← h0, fl32_zero]
    exact fl32_nonneg (le_trans hx h)
  have hy : 0 < y := lt_of_lt_of_le hpos h
  have hbe : binade (-126) x ≤ binade (-126) y := by
    unfold binade
    exact max_le_max (Int.log_mono_right (abs_pos.mpr hpos.ne')
      (by rw [abs_of_pos hpos, abs_of_pos hy]; exact h)) (le_refl _)
  rcases eq_or_lt_of_le hbe with hb | hb
  · have hu : ulp32 x = ulp32 y := by unfold ulp32; rw [hb]
    unfold fl32
    rw [hu]
    apply mul_le_mul_of_nonneg_right _ (ulp32_pos y).le
    exact_mod_cast roundEven_mono (div_le_div_of_nonneg_right h (ulp32_pos y).le)
  · -- fl32 x ≤ 2 ^ (binade x + 1) ≤ 2 ^ binade y ≤ fl32 y
    have a1 : fl32 x ≤ 2 ^ (binade (-126) x + 1) := by
      have hr := roundEven_ulp32_le x
      have hr2 : roundEven (x / ulp32 x) ≤ 2 ^ 24 := (abs_le.mp hr).2
      have hr3 : (roundEven (x / ulp32 x) : ℚ) ≤ 2 ^ (24 : ℕ) := by exact_mod_cast hr2
      have e : (2 : ℚ) ^ (binade (-126) x + 1) = 2 ^ (24 : ℕ) * ulp32 x := by
        unfold ulp32
        rw [← zpow_natCast, ← zpow_add₀ (by norm_num : (2 : ℚ) ≠ 0)]
        congr 1
        push_cast
        ring
      rw [e]
      unfold fl32
      exact mul_le_mul_of_nonneg_right hr3 (ulp32_pos x).le
    have a2 : (2 : ℚ) ^ (binade (-126) x + 1) ≤ 2 ^ binade (-126) y :=
      zpow_le_zpow_right₀ (by norm_num) (by omega)
    have a3 : (2 : ℚ) ^ binade (-126) y ≤ fl32 y := by
      have hlt : -126 < binade (-126) y := by have := binade_ge (-126) x; omega
      have h1 := zpow_binade_le (-126) y hlt hy.ne'
      rw [abs_of_pos hy] at h1
      have e : (2 : ℚ) ^ binade (-126) y = ((2 ^ 23 : ℤ) : ℚ) * ulp32 y := by
        unfold ulp32
        rw [two_zpow_split (binade (-126) y) 23]
        push_cast
        rfl
      have hq : ((2 ^ 23 : ℤ) : ℚ) ≤ y / ulp32 y := by
        rw [le_div_iff₀ (ulp32_pos y), ← e]
        exact h1
      have hr := roundEven_mono hq
      rw [roundEven_intCast] at hr
      have hr2 : ((2 ^ 23 : ℤ) : ℚ) ≤ roundEven (y / ulp32 y) := by exact_mod_cast hr
      rw [e]
      unfold fl32
      exact mul_le_mul_of_nonneg_right hr2 (ulp32_pos y).le
    linarith

theorem fl32_one : fl32 1 = 1 := by
  have := fl32_intCast 1 (by norm_num)
  simpa using this

/-- A natural number literal up to 2^24 is a binary32 value. -/
theorem fl32_ofNat (n : ℕ) [n.AtLeastTwo] (h : n ≤ 16777216) :
    fl32 (no_index (OfNat.ofNat n : ℚ)) = OfNat.ofNat n := by
  have h1 := fl32_intCast (n : ℤ) (by rw [abs_of_nonneg (by positivity)]; exact_mod_cast h)
  have h2 : ((n : ℤ) : ℚ) = (OfNat.ofNat n : ℚ) := by
    rw [Int.cast_natCast]
    exact Nat.cast_ofNat
  rwa [h2] at h1

/-- Rounding to binary32 is monotone. -/
theorem fl32_mono {x y : ℚ} (h : x ≤ y) : fl32 x ≤ fl32 y := by
  rcases le_total 0 x with hx | hx
  · exact fl32_mono_nonneg hx h
  · rcases le_total 0 y with hy | hy
    · have a := fl32_nonneg hy
      have b := fl32_nonneg (neg_nonneg.mpr hx)
      rw [fl32_neg] at b
      linarith
    · have := fl32_mono_nonneg (neg_nonneg.mpr hy) (neg_le_neg h)
      rw [fl32_neg, fl32_neg] at this
      linarith

/-- A binary32 value that bounds `x` from above bounds its rounding. -/
theorem fl32_le_of_le {x y : ℚ} (hy : fl32 y = y) (h : x ≤ y) : fl32 x ≤ y := by
  rw [← hy]
  exact fl32_mono h

/-- Evaluation of `fl32` at a positive number in a binade of normal numbers,
away from a tie. -/
theorem fl32_eval_pos (x : ℚ) (e n : ℤ) (he : -126 ≤ e) (h1 : 2 ^ e ≤ x) (h2 : x < 2 ^ (e + 1))
    (hlo : (n : ℚ) - 1 / 2 < x / 2 ^ (e - 23)) (hhi : x / 2 ^ (e - 23) < n + 1 / 2) :
    fl32 x = n * 2 ^ (e - 23) := by
  have hpos : 0 < x := lt_of_lt_of_le (zpow_pos (by norm_num) e) h1
  refine fl32_eval x e n he (by rwa [abs_of_pos hpos]) (by rwa [abs_of_pos hpos]) ?_
  exact roundEven_eq _ _ (Or.inl (abs_lt.mpr ⟨by linarith, by linarith⟩))

/-- Evaluation of `fl32` at a positive number in a binade of normal numbers,
half way between two neighbours: the even significand is taken. -/
theorem fl32_eval_tie (x : ℚ) (e n : ℤ) (he : -126 ≤ e) (h1 : 2 ^ e ≤ x) (h2 : x < 2 ^ (e + 1))
    (hn : x / 2 ^ (e - 23) = n + 1 / 2 ∨ x / 2 ^ (e - 23) = n - 1 / 2) (heven : n % 2 = 0) :
    fl32 x = n * 2 ^ (e - 23) := by
  have hpos : 0 < x := lt_of_lt_of_le (zpow_pos (by norm_num) e) h1
  refine fl32_eval x e n he (by rwa [abs_of_pos hpos]) (by rwa [abs_of_pos hpos]) ?_
  refine roundEven_eq _ _ (Or.inr ⟨?_, heven⟩)
  rcases hn with h | h
  · rw [h]; norm_num
  · rw [h]; norm_num

/-! ## Theorems: library routines -/

theorem stdFind_le {α : Type} [DecidableEq α] (v : List α) (x : α) : stdFind v x ≤ v.length := by
  induction v with
  | nil => simp [stdFind]
  | cons y ys ih =>
    by_cases h : y = x
    · simp [stdFind, h]
    · simp [stdFind, h, ih]

theorem stdFind_eq_length_iff {α : Type} [DecidableEq α] (v : List α) (x : α) :
    stdFind v x = v.length ↔ x ∉ v := by
  induction v with
  | nil => simp [stdFind]
  | cons y ys ih =>
    by_cases h : y = x
    · simp [stdFind, h]
    · have h' : ¬ x = y := fun e => h e.symm
      simp [stdFind, h, h', ih]

/-! ## Theorems: the purge loop -/

theorem eraseRemove_length_le {α : Type} [DecidableEq α] (v : List α) (s : α) :
    (eraseRemove v s).length ≤ v.length :=
  List.length_filter_le _ _

/-- The iteration bound of `purgeLoop` is adequate: once it covers the distance
from the index to the end of the vector, a larger bound gives the same result. -/
theorem purgeLoop_fuel (owner : CompPtr → EntityPtr) (e : EntityPtr) (k : Nat) :
    ∀ (f i : Nat) (v del : List CompPtr), v.length ≤ i + f →
      purgeLoop owner e (f + k) i v del = purgeLoop owner e f i v del := by
  intro f
  induction f with
  | zero =>
    intro i v del h
    have hnone : v[i]? = none := List.getElem?_eq_none (by omega)
    cases k with
    | zero => rfl
    | succ k => simp [purgeLoop, hnone]
  | succ f ih =>
    intro i v del h
    have e1 : f + 1 + k = (f + k) + 1 := by omega
    rw [e1]
    simp only [purgeLoop]
    cases hv : v[i]? with
    | none => rfl
    | some s =>
      simp only []
      by_cases ho : owner s = e
      · rw [if_pos ho, if_pos ho]
        exact ih (i + 1) _ _ (by have := eraseRemove_length_le v s; omega)
      · rw [if_neg ho, if_neg ho]
        exact ih (i + 1) _ _ (by omega)

/-- A vector without any component owned by `e` is left as it is. -/
theorem purgeLoop_noop (owner : CompPtr → EntityPtr) (e : EntityPtr) :
    ∀ (f i : Nat) (v del : List CompPtr), (∀ x ∈ v, owner x ≠ e) →
      purgeLoop owner e f i v del = (v, del) := by
  intro f
  induction f with
  | zero => intro i v del _; rfl
  | succ f ih =>
    intro i v del h
    simp only [purgeLoop]
    cases hv : v[i]? with
    | none => rfl
    | some s =>
      have hs : s ∈ v := List.mem_iff_getElem?.mpr ⟨i, hv⟩
      simp only []
      rw [if_neg (h s hs)]
      exact ih (i + 1) v del h

/-- When at most one entry of the vector from index `i` on is owned by `e` and
none before `i` is, the loop removes exactly the entries owned by `e` and
releases them. -/
theorem purgeLoop_single (owner : CompPtr → EntityPtr) (e : EntityPtr) :
    ∀ (f i : Nat) (v del : List CompPtr), v.length ≤ i + f →
      ((v.drop i).filter (fun c => decide (owner c = e))).length ≤ 1 →
      (∀ x ∈ v.take i, owner x ≠ e) →
      purgeLoop owner e f i v del =
        (v.filter (fun c => decide (owner c ≠ e)),
         del ++ (v.drop i).filter (fun c => decide (owner c = e))) := by
  intro f
  induction f with
  | zero =>
    intro i v del hlen _ hpre
    have htake : v.take i = v := List.take_of_length_le (by omega)
    have hdrop : v.drop i = [] := List.drop_of_length_le (by omega)
    rw [htake] at hpre
    have hfil : v.filter (fun c => decide (owner c ≠ e)) = v :=
      List.filter_eq_self.mpr (fun a ha => by simpa using hpre a ha)
    rw [hdrop, hfil]
    simp [purgeLoop]
  | succ f ih =>
    intro i v del hlen hone hpre
    simp only [purgeLoop]
    cases hv : v[i]? with
    | none =>
      have hi : v.length ≤ i := by
        by_contra hc
        have hlt : i < v.length := by omega
        rw [List.getElem?_eq_getElem hlt] at hv
        exact Option.noConfusion hv
      have htake : v.take i = v := List.take_of_length_le hi
      have hdrop : v.drop i = [] := List.drop_of_length_le hi
      rw [htake] at hpre
      have hfil : v.filter (fun c => decide (owner c ≠ e)) = v :=
        List.filter_eq_self.mpr (fun a ha => by simpa using hpre a ha)
      rw [hdrop, hfil]
      simp
    | some s =>
      obtain ⟨hlt, hget⟩ := List.getElem?_eq_some.mp hv
      have hdrop : v.drop i = s :: v.drop (i + 1) := by
        rw [List.drop_eq_getElem_cons hlt, hget]
      have hsplit : v = v.take i ++ s :: v.drop (i + 1) := by
        rw [← hdrop, List.take_append_drop]
      simp only []
      by_cases ho : owner s = e
      · rw [if_pos ho]
        have hrest : (v.drop (i + 1)).filter (fun c => decide (owner c = e)) = [] := by
          rw [hdrop] at hone
          simp only [List.filter_cons, ho, decide_True, if_true, List.length_cons] at hone
          exact List.length_eq_zero.mp (by omega)
        have hpost : ∀ x ∈ v.drop (i + 1), owner x ≠ e := by
          intro x hx
          have := List.filter_eq_nil_iff.mp hrest x hx
          simpa using this
        have hcongr : eraseRemove v s = v.filter (fun c => decide (owner c ≠ e)) := by
          unfold eraseRemove
          apply List.filter_congr
          intro x hx
          rw [hsplit] at hx
          rcases List.mem_append.mp hx with h1 | h2
          · have hx1 := hpre x h1
            have hxs : x ≠ s := fun q => hx1 (q ▸ ho)
            simp [hx1, hxs]
          · rcases List.mem_cons.mp h2 with h3 | h4
            · subst h3
              simp [ho]
            · have hx1 := hpost x h4
              have hxs : x ≠ s := fun q => hx1 (q ▸ ho)
              simp [hx1, hxs]
        rw [hcongr]
        have hall : ∀ x ∈ v.filter (fun c => decide (owner c ≠ e)), owner x ≠ e := by
          intro x hx
          have := (List.mem_filter.mp hx).2
          simpa using this
        rw [purgeLoop_noop owner e f (i + 1) _ _ hall, hdrop]
        simp [ho, hrest]
      · rw [if_neg ho]
        have hpre1 : ∀ x ∈ v.take (i + 1), owner x ≠ e := by
          intro x hx
          rw [List.take_succ, hv] at hx
          rcases List.mem_append.mp hx with h1 | h2
          · exact hpre x h1
          · have : x = s := by simpa using h2
            rw [this]; exact ho
        have hone1 : ((v.drop (i + 1)).filter (fun c => decide (owner c = e))).length ≤ 1 := by
          rw [hdrop] at hone
          simpa [List.filter_cons, ho] using hone
        rw [ih (i + 1) v del (by omega) hone1 hpre1, hdrop]
        simp [List.filter_cons, ho]

/-- C3 (failing input): a collection holding two distinct components 10 and 11
that are both owned by entity 1. `PurgeEntity(1)` erases and releases 10, then
advances the index past 11, which stays in the collection although its owner
is entity 1. -/
theorem PurgeEntity_skips_after_erase :
    (System.PurgeEntity
        { component := fun _ => ⟨true, 1, spriteComponentID⟩,
          entity := fun _ => ⟨1, 0, "", [10, 11], [(spriteComponentID, 10)]⟩,
          deletedComponents := [], deletedEntities := [] }
        ⟨SystemKind.staticRendering, [10, 11]⟩ 1).2.components = [11] ∧
    (System.PurgeEntity
        { component := fun _ => ⟨true, 1, spriteComponentID⟩,
          entity := fun _ => ⟨1, 0, "", [10, 11], [(spriteComponentID, 10)]⟩,
          deletedComponents := [], deletedEntities := [] }
        ⟨SystemKind.staticRendering, [10, 11]⟩ 1).1.deletedComponents = [10] := by
  constructor <;> rfl

/-! ## Theorems: deferred destruction -/

/-- An entity that is not pending is appended to the pending list. -/
theorem AddDeadEntity_of_not_mem (ecs : ECS) (e : EntityPtr) (h : e ∉ ecs.dyingEntities) :
    ecs.AddDeadEntity e = { ecs with dyingEntities := ecs.dyingEntities ++ [e] } := by
  have heq : stdFind ecs.dyingEntities e = ecs.dyingEntities.length :=
    (stdFind_eq_length_iff ecs.dyingEntities e).mpr h
  simp [ECS.AddDeadEntity, heq]

/-- An entity that is already pending is not added again. -/
theorem AddDeadEntity_of_mem (ecs : ECS) (e : EntityPtr) (h : e ∈ ecs.dyingEntities) :
    ecs.AddDeadEntity e = ecs := by
  have hne : ¬ stdFind ecs.dyingEntities e = ecs.dyingEntities.length :=
    fun q => (stdFind_eq_length_iff ecs.dyingEntities e).mp q h
  simp [ECS.AddDeadEntity, hne]

/-- C1: `AddDeadEntity(e)` appends `e` to the pending list when it is not
already there and leaves the list unchanged when it is; applying it twice gives
the same state as applying it once; a duplicate-free pending list stays
duplicate-free. -/
theorem AddDeadEntity_idempotent (ecs : ECS) (e : EntityPtr) :
    (e ∉ ecs.dyingEntities → (ecs.AddDeadEntity e).dyingEntities = ecs.dyingEntities ++ [e]) ∧
    (e ∈ ecs.dyingEntities → (ecs.AddDeadEntity e).dyingEntities = ecs.dyingEntities) ∧
    (ecs.AddDeadEntity e).AddDeadEntity e = ecs.AddDeadEntity e ∧
    (ecs.dyingEntities.Nodup → (ecs.AddDeadEntity e).dyingEntities.Nodup) := by
  by_cases h : e ∈ ecs.dyingEntities
  · have hid := AddDeadEntity_of_mem ecs e h
    refine ⟨fun q => absurd h q, fun _ => by rw [hid], by rw [hid, hid], fun nd => by rw [hid]; exact nd⟩
  · have hpush := AddDeadEntity_of_not_mem ecs e h
    refine ⟨fun _ => by rw [hpush], fun q => absurd q h, ?_, fun nd => ?_⟩
    · rw [hpush]
      exact AddDeadEntity_of_mem _ e (by simp)
    · rw [hpush]
      show (ecs.dyingEntities ++ [e]).Nodup
      rw [List.nodup_append]
      refine ⟨nd, List.nodup_singleton e, ?_⟩
      intro a ha hb
      simp at hb
      exact h (hb ▸ ha)

/-- Witness for C1 on an ECS whose pending list is `[4]`: entity 7 is appended,
entity 4 is not added again, and the list stays duplicate-free. -/
theorem AddDeadEntity_idempotent_witness :
    ({ ECS.empty with dyingEntities := [4] }.AddDeadEntity 7).dyingEntities = [4] ++ [7] ∧
    ({ ECS.empty with dyingEntities := [4] }.AddDeadEntity 4).dyingEntities = [4] ∧
    ({ ECS.empty with dyingEntities := [4] }.AddDeadEntity 7).dyingEntities.Nodup :=
  ⟨(AddDeadEntity_idempotent { ECS.empty with dyingEntities := [4] } 7).1 (by decide),
   (AddDeadEntity_idempotent { ECS.empty with dyingEntities := [4] } 4).2.1 (by decide),
   (AddDeadEntity_idempotent { ECS.empty with dyingEntities := [4] } 7).2.2.2 (by decide)⟩

theorem System_PurgeEntity_single (mem : Memory) (s : System) (e : EntityPtr)
    (h : (ownedBy mem e s.components).length ≤ 1) :
    s.PurgeEntity mem e =
      ({ mem with deletedComponents := mem.deletedComponents ++ ownedBy mem e s.components },
       { s with components := notOwnedBy mem e s.components }) := by
  have key := purgeLoop_single (fun c => (mem.component c).entity) e s.components.length 0
    s.components mem.deletedComponents (by omega) (by simpa [ownedBy] using h) (by simp)
  simp only [System.PurgeEntity, key, List.drop_zero, ownedBy, notOwnedBy]

theorem purgeBlocks_single (e : EntityPtr) :
    ∀ (blocks : List ComponentBlock) (mem : Memory),
      (∀ b ∈ blocks, (ownedBy mem e b.system.components).length ≤ 1) →
      purgeBlocks e mem blocks =
        ({ mem with deletedComponents :=
              mem.deletedComponents ++ ownedBy mem e (heldComponents blocks) },
         blocks.map (ComponentBlock.without mem e)) := by
  intro blocks
  induction blocks with
  | nil => intro mem _; simp [purgeBlocks, heldComponents, ownedBy]
  | cons b bs ih =>
    intro mem h
    have hb := h b (List.mem_cons_self b bs)
    simp only [purgeBlocks, ComponentBlock.PurgeEntity, System_PurgeEntity_single mem b.system e hb]
    have step := ih ({ mem with deletedComponents := mem.deletedComponents ++ ownedBy mem e b.system.components })
      (by intro b' hb'; exact h b' (List.mem_cons_of_mem b hb'))
    rw [step]
    simp [heldComponents, ownedBy, notOwnedBy, ComponentBlock.without, List.append_assoc]

theorem mem_heldComponents (blocks : List ComponentBlock) (c : CompPtr) :
    c ∈ heldComponents blocks ↔ ∃ b ∈ blocks, c ∈ b.system.components := by
  simp [heldComponents, List.mem_flatMap]

/-- From an empty pending list, `AddDeadEntity(e)` twice followed by
`PurgeDeadEntities` is exactly one `DeleteEntity(e)`: the pending list is empty
afterwards and `e` is released once. If every system holds at most one component
owned by `e` and no such component is held twice overall, each block ends up
without the components owned by `e`, every held component owned by `e` is
released exactly once, and no other component is released. -/
theorem PurgeDeadEntities_after_double_add (mem : Memory) (ecs : ECS) (e : EntityPtr)
    (hempty : ecs.dyingEntities = [])
    (hone : ∀ b ∈ ecs.componentBlocks, (ownedBy mem e b.system.components).length ≤ 1)
    (hnodup : (ownedBy mem e (heldComponents ecs.componentBlocks)).Nodup) :
    ECS.PurgeDeadEntities (mem, (ecs.AddDeadEntity e).AddDeadEntity e)
        = ECS.DeleteEntity (mem, ecs) e ∧
    (ECS.PurgeDeadEntities (mem, (ecs.AddDeadEntity e).AddDeadEntity e)).2.dyingEntities = [] ∧
    (ECS.PurgeDeadEntities (mem, (ecs.AddDeadEntity e).AddDeadEntity e)).1.deletedEntities
        = mem.deletedEntities ++ [e] ∧
    (ECS.PurgeDeadEntities (mem, (ecs.AddDeadEntity e).AddDeadEntity e)).2.componentBlocks
        = ecs.componentBlocks.map (ComponentBlock.without mem e) ∧
    (∀ c, (mem.component c).entity = e → (∃ b ∈ ecs.componentBlocks, c ∈ b.system.components) →
      (ECS.PurgeDeadEntities (mem, (ecs.AddDeadEntity e).AddDeadEntity e)).1.deletedComponents.count c
        = mem.deletedComponents.count c + 1) ∧
    (∀ c, ((mem.component c).entity ≠ e ∨ ∀ b ∈ ecs.componentBlocks, c ∉ b.system.components) →
      (ECS.PurgeDeadEntities (mem, (ecs.AddDeadEntity e).AddDeadEntity e)).1.deletedComponents.count c
        = mem.deletedComponents.count c) := by
  have hadd : (ecs.AddDeadEntity e).AddDeadEntity e = { ecs with dyingEntities := [e] } := by
    have hnot : e ∉ ecs.dyingEntities := by rw [hempty]; simp
    rw [AddDeadEntity_of_not_mem ecs e hnot, AddDeadEntity_of_mem _ e (by simp), hempty]
    rfl
  have hpurge : ECS.PurgeDeadEntities (mem, (ecs.AddDeadEntity e).AddDeadEntity e)
      = ECS.DeleteEntity (mem, ecs) e := by
    rw [hadd]
    cases ecs
    simp_all [ECS.PurgeDeadEntities, ECS.DeleteEntity]
  have hblocks := purgeBlocks_single e ecs.componentBlocks mem hone
  rw [hpurge]
  refine ⟨rfl, ?_, ?_, ?_, ?_, ?_⟩
  · simp [ECS.DeleteEntity, hempty]
  · simp [ECS.DeleteEntity, hblocks]
  · simp [ECS.DeleteEntity, hblocks]
  · intro c hc hheld
    have hin : c ∈ ownedBy mem e (heldComponents ecs.componentBlocks) := by
      unfold ownedBy
      exact List.mem_filter.mpr ⟨(mem_heldComponents _ c).mpr hheld, by simpa using hc⟩
    simp only [ECS.DeleteEntity, hblocks, List.count_append]
    rw [List.count_eq_one_of_mem hnodup hin]
  · intro c hc
    have hnot : c ∉ ownedBy mem e (heldComponents ecs.componentBlocks) := by
      unfold ownedBy
      intro hin
      obtain ⟨h1, h2⟩ := List.mem_filter.mp hin
      rcases hc with hc | hc
      · exact hc (by simpa using h2)
      · obtain ⟨b, hb, hcb⟩ := (mem_heldComponents _ c).mp h1
        exact hc b hb hcb
    simp only [ECS.DeleteEntity, hblocks, List.count_append]
    rw [List.count_eq_zero.mpr hnot]
    rfl

/-- The purge after a double `AddDeadEntity` on the bootstrap state: the sprite
11 and the image 12 of entity 1 are each released once, the entity is released
once, and the pending list is empty. -/
theorem PurgeDeadEntities_after_double_add_witness :
    (ECS.PurgeDeadEntities
      (bootstrapState.1, (bootstrapState.2.AddDeadEntity 1).AddDeadEntity 1)).2.dyingEntities = [] ∧
    (ECS.PurgeDeadEntities
      (bootstrapState.1, (bootstrapState.2.AddDeadEntity 1).AddDeadEntity 1)).1.deletedEntities
        = bootstrapState.1.deletedEntities ++ [1] ∧
    (ECS.PurgeDeadEntities
      (bootstrapState.1, (bootstrapState.2.AddDeadEntity 1).AddDeadEntity 1)).1.deletedComponents.count 11
        = bootstrapState.1.deletedComponents.count 11 + 1 :=
  have h := PurgeDeadEntities_after_double_add bootstrapState.1 bootstrapState.2 1
    (by decide) (by decide) (by decide)
  ⟨h.2.1, h.2.2.1, h.2.2.2.2.1 11 (by decide) ⟨⟨⟨SystemKind.staticRendering, [11]⟩, spriteComponentID⟩,
    by decide, by decide⟩⟩

/-- C2 (failing input): the state after `Init` and the three `RegisterComponent`
calls of the first-frame block, with an empty pending list. The Position 10,
the StaticSprite 11 and the Image 12 are registered on entity 1, and no block
holds the Position, for which `Init` makes no system. After `AddDeadEntity(1)`
twice and `PurgeDeadEntities` the pending list is empty and the entity has been
released once, and so have its image and its sprite; the Position has not
been released. -/
theorem PurgeDeadEntities_leaves_position :
    bootstrapState.2.dyingEntities = [] ∧
    (bootstrapState.1.entity 1).components = [10, 11, 12] ∧
    (bootstrapState.1.entity 1).componentIDMap
      = [(positionComponentID, 10), (spriteComponentID, 11), (imageComponentID, 12)] ∧
    (∀ b ∈ bootstrapState.2.componentBlocks, 10 ∉ b.system.components) ∧
    (ECS.PurgeDeadEntities
      (bootstrapState.1, (bootstrapState.2.AddDeadEntity 1).AddDeadEntity 1)).2.dyingEntities
        = [] ∧
    (ECS.PurgeDeadEntities
      (bootstrapState.1, (bootstrapState.2.AddDeadEntity 1).AddDeadEntity 1)).1.deletedEntities
        = [1] ∧
    (ECS.PurgeDeadEntities
      (bootstrapState.1, (bootstrapState.2.AddDeadEntity 1).AddDeadEntity 1)).1.deletedComponents
        = [12, 11] ∧
    10 ∉ (ECS.PurgeDeadEntities
      (bootstrapState.1, (bootstrapState.2.AddDeadEntity 1).AddDeadEntity 1)).1.deletedComponents := by
  refine ⟨by decide, by decide, by decide, by decide, by decide, by decide, by decide,
    by decide⟩

/-! ## Theorems: registration -/

theorem mapFind_eq_none_iff {κ β : Type} [DecidableEq κ] (m : List (κ × β)) (k : κ) :
    mapFind m k = none ↔ k ∉ m.map Prod.fst := by
  induction m with
  | nil => simp [mapFind]
  | cons kv rest ih =>
    obtain ⟨k', v⟩ := kv
    by_cases h : k' = k
    · simp [mapFind, h]
    · have h' : ¬ k = k' := fun q => h q.symm
      simp [mapFind, h, h', ih]

theorem mapFind_append_of_none {κ β : Type} [DecidableEq κ] (m m2 : List (κ × β)) (k : κ)
    (h : mapFind m k = none) : mapFind (m ++ m2) k = mapFind m2 k := by
  induction m with
  | nil => rfl
  | cons kv rest ih =>
    obtain ⟨k', v⟩ := kv
    by_cases hk : k' = k
    · simp [mapFind, hk] at h
    · simp only [mapFind, hk, if_false] at h
      simp [mapFind, hk, ih h]

theorem mapFind_emplace_of_none {κ β : Type} [DecidableEq κ] (m : List (κ × β)) (k : κ) (v : β)
    (h : mapFind m k = none) : mapFind (mapEmplace m k v) k = some v := by
  unfold mapEmplace
  rw [h]
  simp [mapFind_append_of_none m _ k h, mapFind]

theorem mapEmplace_keys_nodup {κ β : Type} [DecidableEq κ] (m : List (κ × β)) (k : κ) (v : β)
    (h : (m.map Prod.fst).Nodup) : ((mapEmplace m k v).map Prod.fst).Nodup := by
  unfold mapEmplace
  cases hf : mapFind m k with
  | some w => simpa using h
  | none =>
    have hk := (mapFind_eq_none_iff m k).mp hf
    simp only [List.map_append, List.map_cons, List.map_nil]
    rw [List.nodup_append]
    refine ⟨h, List.nodup_singleton k, ?_⟩
    intro a ha hb
    have : a = k := by simpa using hb
    exact hk (this ▸ ha)

/-- With pairwise distinct block ids, the loop of `RegisterComponent` appends the
component to the one block whose id matches and keeps all other blocks. -/
theorem registerInBlocks_split (id : Int) (c : CompPtr) :
    ∀ (blocks : List ComponentBlock), (blocks.map (fun b => b.componentID)).Nodup →
      id ∈ blocks.map (fun b => b.componentID) →
      ∃ pre b post, blocks = pre ++ b :: post ∧ b.componentID = id ∧
        (∀ b' ∈ pre ++ post, b'.componentID ≠ id) ∧
        registerInBlocks id c blocks =
          pre ++ { b with system := { b.system with components := b.system.components ++ [c] } } :: post := by
  intro blocks
  induction blocks with
  | nil => intro _ h; simp at h
  | cons b bs ih =>
    intro hnd hin
    rw [List.map_cons, List.nodup_cons] at hnd
    by_cases hb : b.componentID = id
    · refine ⟨[], b, bs, rfl, hb, ?_, ?_⟩
      · intro b' hb' q
        apply hnd.1
        rw [hb, ← q]
        have hb2 : b' ∈ bs := by simpa using hb'
        exact List.mem_map_of_mem (fun (x : ComponentBlock) => x.componentID) hb2
      · simp [registerInBlocks, hb, ComponentBlock.AddComponent, System.AddComponent]
    · have hin' : id ∈ bs.map (fun b => b.componentID) := by
        rcases List.mem_cons.mp hin with h1 | h2
        · exact absurd h1.symm hb
        · exact h2
      obtain ⟨pre, b0, post, h1, h2, h3, h4⟩ := ih hnd.2 hin'
      refine ⟨b :: pre, b0, post, by rw [h1]; rfl, h2, ?_, ?_⟩
      · intro b' hb'
        have hb2 : b' = b ∨ b' ∈ pre ++ post := by simpa using hb'
        rcases hb2 with q | q
        · rw [q]; exact hb
        · exact h3 b' q
      · simp [registerInBlocks, hb, h4]

/-- C6: in an ECS whose blocks carry the seven type ids of `Init`, for a
component `c` with one of these ids, `RegisterComponent(c, e)` appends `c` to the
component sequence of `e`, makes the type-id map of `e` return `c` for the id of
`c` when the map had no entry for it, appends `c` to the collection of the one
block with that id, and leaves all other blocks as they were. -/
theorem RegisterComponent_appends (st : Memory × ECS) (c : CompPtr) (e : EntityPtr)
    (hinit : st.2.componentBlocks.map (fun b => b.componentID)
      = ECS.empty.Init.componentBlocks.map (fun b => b.componentID))
    (hid : (st.1.component c).ID ∈ ECS.empty.Init.componentBlocks.map (fun b => b.componentID)) :
    ((ECS.RegisterComponent st c e).1.entity e).components = (st.1.entity e).components ++ [c] ∧
    (mapFind (st.1.entity e).componentIDMap (st.1.component c).ID = none →
      mapFind ((ECS.RegisterComponent st c e).1.entity e).componentIDMap (st.1.component c).ID
        = some c) ∧
    ∃ pre b post, st.2.componentBlocks = pre ++ b :: post ∧
      b.componentID = (st.1.component c).ID ∧
      (∀ b' ∈ pre ++ post, b'.componentID ≠ (st.1.component c).ID) ∧
      (ECS.RegisterComponent st c e).2.componentBlocks =
        pre ++ { b with system := { b.system with components := b.system.components ++ [c] } } :: post := by
  refine ⟨by simp [ECS.RegisterComponent], ?_, ?_⟩
  · intro hnone
    simp [ECS.RegisterComponent, mapFind_emplace_of_none _ _ c hnone]
  · have hnd : (st.2.componentBlocks.map (fun b => b.componentID)).Nodup := by
      rw [hinit]; decide
    have hin : (st.1.component c).ID ∈ st.2.componentBlocks.map (fun b => b.componentID) := by
      rw [hinit]; exact hid
    exact registerInBlocks_split (st.1.component c).ID c st.2.componentBlocks hnd hin

/-- Witness for C6: registering the sprite component 11 on entity 1 right after `Init`. -/
theorem RegisterComponent_appends_witness :
    ((ECS.RegisterComponent (bootstrapMemory, ECS.empty.Init) 11 1).1.entity 1).components
      = (bootstrapMemory.entity 1).components ++ [11] ∧
    mapFind ((ECS.RegisterComponent (bootstrapMemory, ECS.empty.Init) 11 1).1.entity 1).componentIDMap
      (bootstrapMemory.component 11).ID = some 11 :=
  have h := RegisterComponent_appends (bootstrapMemory, ECS.empty.Init) 11 1 rfl (by decide)
  ⟨h.1, h.2.1 (by decide)⟩

theorem filter_key_length_le_one {α κ : Type} [DecidableEq κ] (f : α → κ) (k : κ) :
    ∀ (l : List α), (l.map f).Nodup → (l.filter (fun x => decide (f x = k))).length ≤ 1 := by
  intro l
  induction l with
  | nil => intro _; simp
  | cons x xs ih =>
    intro hnd
    rw [List.map_cons, List.nodup_cons] at hnd
    by_cases hx : f x = k
    · have hnil : xs.filter (fun y => decide (f y = k)) = [] := by
        apply List.filter_eq_nil_iff.mpr
        intro y hy hyk
        apply hnd.1
        have : f y = k := by simpa using hyk
        rw [hx, ← this]
        exact List.mem_map_of_mem f hy
      simp [List.filter_cons, hx, hnil]
    · have := ih hnd.2
      simpa [List.filter_cons, hx] using this

theorem registerInBlocks_map (id : Int) (c : CompPtr) :
    ∀ (blocks : List ComponentBlock), (blocks.map (fun b => b.componentID)).Nodup →
      registerInBlocks id c blocks =
        blocks.map (fun b => if b.componentID = id then b.AddComponent c else b) := by
  intro blocks
  induction blocks with
  | nil => intro _; rfl
  | cons b bs ih =>
    intro hnd
    rw [List.map_cons, List.nodup_cons] at hnd
    by_cases hb : b.componentID = id
    · have hrest : bs.map (fun b => if b.componentID = id then b.AddComponent c else b) = bs := by
        conv_rhs => rw [← List.map_id bs]
        apply List.map_congr_left
        intro b' hb'
        have hne : b'.componentID ≠ id := by
          intro q
          apply hnd.1
          rw [hb, ← q]
          exact List.mem_map_of_mem (fun (x : ComponentBlock) => x.componentID) hb'
        simp [hne]
      simp [registerInBlocks, hb, hrest]
    · simp [registerInBlocks, hb, ih hnd.2]

/-- What a sequence of registrations does: component contents stay, every
entity gets the components registered on it appended in call order, its map
keeps distinct keys, and (with distinct block ids) every block gets the
components of its type id appended in call order. -/
theorem registerAll_spec (calls : List (CompPtr × EntityPtr)) :
    ∀ (st : Memory × ECS),
      (registerAll st calls).1.component = st.1.component ∧
      (∀ e, ((registerAll st calls).1.entity e).components =
        (st.1.entity e).components ++ (calls.filter (fun call => decide (call.2 = e))).map Prod.fst) ∧
      (∀ e, ((st.1.entity e).componentIDMap.map Prod.fst).Nodup →
        (((registerAll st calls).1.entity e).componentIDMap.map Prod.fst).Nodup) ∧
      ((st.2.componentBlocks.map (fun b => b.componentID)).Nodup →
        (registerAll st calls).2.componentBlocks =
          st.2.componentBlocks.map (ComponentBlock.afterCalls st.1 calls)) := by
  induction calls with
  | nil =>
    intro st
    refine ⟨rfl, fun e => by simp [registerAll], fun e h => h, fun _ => ?_⟩
    show st.2.componentBlocks = st.2.componentBlocks.map (ComponentBlock.afterCalls st.1 [])
    conv_lhs => rw [← List.map_id st.2.componentBlocks]
    apply List.map_congr_left
    intro b _
    simp [ComponentBlock.afterCalls]
  | cons call rest ih =>
    intro st
    obtain ⟨h1, h2, h3, h4⟩ := ih (ECS.RegisterComponent st call.1 call.2)
    have hstep : registerAll st (call :: rest)
        = registerAll (ECS.RegisterComponent st call.1 call.2) rest := rfl
    rw [hstep]
    refine ⟨by rw [h1]; rfl, ?_, ?_, ?_⟩
    · intro e
      rw [h2 e]
      by_cases he : call.2 = e
      · simp [ECS.RegisterComponent, he, List.filter_cons]
      · have he' : ¬ e = call.2 := fun q => he q.symm
        simp [ECS.RegisterComponent, he, he', List.filter_cons]
    · intro e hnd
      apply h3 e
      by_cases he : e = call.2
      · simp only [ECS.RegisterComponent, he, if_true]
        exact mapEmplace_keys_nodup _ _ _ (he ▸ hnd)
      · simp only [ECS.RegisterComponent, he, if_false]
        exact hnd
    · intro hnd
      have hmap := registerInBlocks_map (st.1.component call.1).ID call.1 st.2.componentBlocks hnd
      have hids : ((ECS.RegisterComponent st call.1 call.2).2.componentBlocks.map
          (fun b => b.componentID)) = st.2.componentBlocks.map (fun b => b.componentID) := by
        simp only [ECS.RegisterComponent, hmap, List.map_map]
        apply List.map_congr_left
        intro b _
        by_cases hb : b.componentID = (st.1.component call.1).ID
        · simp [hb, ComponentBlock.AddComponent]
        · simp [hb]
      rw [h4 (by rw [hids]; exact hnd)]
      simp only [ECS.RegisterComponent, hmap, List.map_map]
      apply List.map_congr_left
      intro b _
      by_cases hb : b.componentID = (st.1.component call.1).ID
      · simp [hb, ComponentBlock.afterCalls, ComponentBlock.AddComponent, System.AddComponent,
          List.filter_cons]
      · have hb' : ¬ (st.1.component call.1).ID = b.componentID := fun q => hb q.symm
        simp [hb, hb', ComponentBlock.afterCalls, List.filter_cons]

/-- C4 (as amended): after `Init` and any sequence of `RegisterComponent` calls on
entities that start without components, the type-id map of every entity has at
most one entry per type id. If no two calls gave the same entity a component of
the same type id and every registered component names the entity it is
registered on as its owner, the component sequence of every entity holds at
most one component of each type id, and every system holds at most one
component owned by each entity. -/
theorem RegisterComponent_at_most_one (mem : Memory) (calls : List (CompPtr × EntityPtr))
    (hfresh : ∀ e, (mem.entity e).components = [] ∧ (mem.entity e).componentIDMap = []) :
    (∀ e, (((registerAll (mem, ECS.empty.Init) calls).1.entity e).componentIDMap.map Prod.fst).Nodup) ∧
    ((∀ call ∈ calls, (mem.component call.1).entity = call.2) →
     (calls.map (fun call => (call.2, (mem.component call.1).ID))).Nodup →
     ∀ (e : EntityPtr) (t : Int),
      (((registerAll (mem, ECS.empty.Init) calls).1.entity e).components.filter
        (fun c => decide (((registerAll (mem, ECS.empty.Init) calls).1.component c).ID = t))).length ≤ 1 ∧
      ∀ b ∈ (registerAll (mem, ECS.empty.Init) calls).2.componentBlocks,
        (ownedBy (registerAll (mem, ECS.empty.Init) calls).1 e b.system.components).length ≤ 1) := by
  obtain ⟨h1, h2, h3, h4⟩ := registerAll_spec calls (mem, ECS.empty.Init)
  refine ⟨fun e => h3 e (by simp [(hfresh e).2]), ?_⟩
  intro howner hdistinct e t
  have hkey := filter_key_length_le_one
    (fun (call : CompPtr × EntityPtr) => (call.2, (mem.component call.1).ID)) (e, t) calls hdistinct
  constructor
  · rw [h2 e, h1]
    simp only [(hfresh e).1, List.nil_append, List.filter_map, List.length_map, List.filter_filter]
    refine le_trans (le_of_eq ?_) hkey
    congr 1
    apply List.filter_congr
    intro call _
    simp [Function.comp, Prod.ext_iff, and_comm]
    exact Bool.and_comm _ _
  · intro b hb
    have hids : (ECS.empty.Init.componentBlocks.map (fun b => b.componentID)).Nodup := by decide
    rw [h4 hids] at hb
    obtain ⟨b0, _, hb0⟩ := List.mem_map.mp hb
    have hkey2 := filter_key_length_le_one
      (fun (call : CompPtr × EntityPtr) => (call.2, (mem.component call.1).ID))
      (e, b0.componentID) calls hdistinct
    have hb0c : b0.system.components = [] := by
      have : b0 ∈ ECS.empty.Init.componentBlocks := by assumption
      simp [ECS.Init, ECS.empty] at this
      rcases this with q | q | q | q | q | q | q <;> rw [q]
    rw [← hb0]
    simp only [ownedBy, h1, ComponentBlock.afterCalls, hb0c, List.nil_append, List.filter_map,
      List.length_map, List.filter_filter]
    refine le_trans (le_of_eq ?_) hkey2
    congr 1
    apply List.filter_congr
    intro call hcall
    have := howner call hcall
    simp [Function.comp, Prod.ext_iff, this, and_comm]

/-- Witness for C4: the three registrations of the bootstrap (position 10,
sprite 11, image 12 on entity 1) give entity 1 at most one sprite. -/
theorem RegisterComponent_at_most_one_witness :
    (((registerAll (bootstrapMemory, ECS.empty.Init) [(10, 1), (11, 1), (12, 1)]).1.entity 1).components.filter
      (fun c => decide (((registerAll (bootstrapMemory, ECS.empty.Init)
        [(10, 1), (11, 1), (12, 1)]).1.component c).ID = spriteComponentID))).length ≤ 1 :=
  ((RegisterComponent_at_most_one bootstrapMemory [(10, 1), (11, 1), (12, 1)]
    (fun _ => ⟨rfl, rfl⟩)).2 (by decide) (by decide) 1 spriteComponentID).1

/-- C4 (counterexample): after `Init`, registering the two sprite components 20
and 21 on entity 1 leaves two components of the sprite type id in the
component sequence of entity 1 and two components owned by entity 1 in the
sprite system, while the type-id map keeps the first one only. -/
theorem RegisterComponent_allows_duplicates :
    ((registerAll (spritesMemory, ECS.empty.Init) [(20, 1), (21, 1)]).1.entity 1).components
      = [20, 21] ∧
    (registerAll (spritesMemory, ECS.empty.Init) [(20, 1), (21, 1)]).2.componentBlocks.map
      (fun b => (b.componentID, b.system.components))
      = [(3, []), (7, []), (9, []), (2, [20, 21]), (6, []), (5, []), (4, [])] ∧
    ((registerAll (spritesMemory, ECS.empty.Init) [(20, 1), (21, 1)]).1.entity 1).componentIDMap
      = [(2, 20)] ∧
    ((registerAll (spritesMemory, ECS.empty.Init) [(20, 1), (21, 1)]).1.component 20).ID = 2 ∧
    ((registerAll (spritesMemory, ECS.empty.Init) [(20, 1), (21, 1)]).1.component 21).ID = 2 ∧
    ((registerAll (spritesMemory, ECS.empty.Init) [(20, 1), (21, 1)]).1.component 20).entity = 1 ∧
    ((registerAll (spritesMemory, ECS.empty.Init) [(20, 1), (21, 1)]).1.component 21).entity = 1 := by
  refine ⟨by decide, by decide, by decide, by decide, by decide, by decide, by decide⟩

/-! ## Theorems: renderer -/

theorem stdFind_getElem? {α : Type} [DecidableEq α] (v : List α) (x : α) (h : x ∈ v) :
    v[stdFind v x]? = some x := by
  induction v with
  | nil => simp at h
  | cons y ys ih =>
    by_cases hy : y = x
    · simp [stdFind, hy]
    · have hx : x ∈ ys := by
        rcases List.mem_cons.mp h with q | q
        · exact absurd q.symm hy
        · exact q
      simp [stdFind, hy, ih hx]

theorem stdFind_append_of_mem {α : Type} [DecidableEq α] (v w : List α) (x : α) (h : x ∈ v) :
    stdFind (v ++ w) x = stdFind v x := by
  induction v with
  | nil => simp at h
  | cons y ys ih =>
    by_cases hy : y = x
    · simp [stdFind, hy]
    · have hx : x ∈ ys := by
        rcases List.mem_cons.mp h with q | q
        · exact absurd q.symm hy
        · exact q
      simp [stdFind, hy, ih hx]

theorem stdFind_append_of_not_mem {α : Type} [DecidableEq α] (v : List α) (x : α) (h : x ∉ v) :
    stdFind (v ++ [x]) x = v.length := by
  induction v with
  | nil => simp [stdFind]
  | cons y ys ih =>
    have hy : ¬ y = x := fun q => h (by simp [q])
    have hx : x ∉ ys := fun q => h (List.mem_cons_of_mem y q)
    simp [stdFind, hy, ih hx]

/-- A texture that is already bound resolves to its index, and the list is unchanged. -/
theorem resolveTexture_of_mem (ids : List Nat) (t : Nat) (h : t ∈ ids) :
    resolveTexture ids t = (stdFind ids t, ids) := by
  have hne : ¬ stdFind ids t = ids.length := fun q => (stdFind_eq_length_iff ids t).mp q h
  simp [resolveTexture, hne]

/-- A texture that is not bound yet resolves to the previous length of the
list, and is appended at its end. -/
theorem resolveTexture_of_not_mem (ids : List Nat) (t : Nat) (h : t ∉ ids) :
    resolveTexture ids t = (ids.length, ids ++ [t]) := by
  have heq : stdFind ids t = ids.length := (stdFind_eq_length_iff ids t).mpr h
  simp [resolveTexture, heq]

/-- Resolution never moves a bound texture: its index is the same afterwards. -/
theorem resolveTexture_stable (ids : List Nat) (t u : Nat) (hu : u ∈ ids) :
    stdFind (resolveTexture ids t).2 u = stdFind ids u := by
  by_cases h : t ∈ ids
  · rw [resolveTexture_of_mem ids t h]
  · rw [resolveTexture_of_not_mem ids t h]
    exact stdFind_append_of_mem ids [t] u hu

/-- When the batch selected for the texture exists, a submission writes the
quad at the cursor of that batch, advances that cursor by one, and touches
neither another batch nor the index of a bound texture. -/
theorem submit_of_batch (M : Nat) (r : Renderer) (t : Nat) (mk : ℚ → Quad) (batch : Batch)
    (h : r.batches[(resolveTexture r.textureIDs t).1 / M]? = some batch) :
    r.submit M t mk = some
      { r with textureIDs := (resolveTexture r.textureIDs t).2,
               batches := r.batches.set ((resolveTexture r.textureIDs t).1 / M)
                 (batch.write (mk (((resolveTexture r.textureIDs t).1 % M : Nat) : ℚ))) } := by
  simp [Renderer.submit, h]

theorem submit_batches_length (M : Nat) (r r1 : Renderer) (t : Nat) (mk : ℚ → Quad)
    (h : r.submit M t mk = some r1) : r1.batches.length = r.batches.length := by
  unfold Renderer.submit at h
  cases hb : r.batches[(resolveTexture r.textureIDs t).1 / M]? with
  | none => simp [hb] at h
  | some batch =>
    simp only [hb, Option.some.injEq] at h
    rw [← h]
    simp

/-- C7 (failing input): a renderer built by the constructor with white texture 0,
after submissions that bound the textures 1 to 31. Every submission so far found
its batch. The texture 99 is new: it resolves to slot 32, the previous length of
the list, so the batch index is 32 / 32 = 1, but the renderer holds one batch
only and the submission has no defined result. -/
theorem prepareQuad_no_batch_for_slot_32 :
    (submitAll MAX_TEXTURES_PER_BATCH (Renderer.create 0) (List.range' 1 31)).isSome = true ∧
    (submitAll MAX_TEXTURES_PER_BATCH (Renderer.create 0) (List.range' 1 31)).map
      (fun r => (resolveTexture r.textureIDs 99).1) = some 32 ∧
    (submitAll MAX_TEXTURES_PER_BATCH (Renderer.create 0) (List.range' 1 31)).map
      (fun r => r.batches.length) = some 1 ∧
    ((submitAll MAX_TEXTURES_PER_BATCH (Renderer.create 0) (List.range' 1 31)).bind
      (fun r => r.prepareQuad MAX_TEXTURES_PER_BATCH ⟨fun _ => 1, fun _ => 0⟩
        ⟨false, 0, 0, 0, 0⟩ 1 1 1 1 ⟨1, 1, 1, 1⟩ 99 false false)).isNone = true := by
  refine ⟨by decide, by decide, by decide, by decide⟩

/-- Submitting the white texture again and again to a renderer that holds one
batch and has the white texture in slot 0: every submission succeeds, and the
cursor of the batch grows by one each time, without any bound. -/
theorem submitAll_replicate (M : Nat) (w : Nat) :
    ∀ (n : Nat) (r : Renderer) (b : Batch), r.textureIDs = [w] → r.batches = [b] →
      ∃ r1 b1, submitAll M r (List.replicate n w) = some r1 ∧ r1.textureIDs = [w] ∧
        r1.batches = [b1] ∧ b1.quadIndex = b.quadIndex + n := by
  intro n
  induction n with
  | zero => intro r b h1 h2; exact ⟨r, b, rfl, h1, h2, rfl⟩
  | succ n ih =>
    intro r b h1 h2
    have hres : resolveTexture r.textureIDs w = (0, [w]) := by
      rw [h1]; simp [resolveTexture, stdFind]
    have hb : r.batches[(resolveTexture r.textureIDs w).1 / M]? = some b := by
      rw [hres, h2]; simp
    have hsub := submit_of_batch M r w
      (screenQuad (0, 0) 1 1 1 1 ⟨1, 1, 1, 1⟩ false false) b hb
    rw [hres, h2] at hsub
    obtain ⟨r1, b1, e1, e2, e3, e4⟩ := ih
      { r with textureIDs := [w],
               batches := [b].set (0 / M) (b.write
                 (screenQuad (0, 0) 1 1 1 1 ⟨1, 1, 1, 1⟩ false false (((0 % M : Nat) : ℚ)))) }
      (b.write (screenQuad (0, 0) 1 1 1 1 ⟨1, 1, 1, 1⟩ false false (((0 % M : Nat) : ℚ))))
      rfl (by simp)
    refine ⟨r1, b1, ?_, e2, e3, ?_⟩
    · simp only [List.replicate_succ, submitAll, Renderer.prepareQuadScreen, hsub]
      exact e1
    · rw [e4]; simp [Batch.write]; omega

/-- C9 (failing input): 10000 submissions of the white texture to a freshly
constructed renderer all succeed and bring the cursor of its batch to
`MAX_QUADS`. One more submission is accepted like the others: it writes its quad
at index 10000, outside the array, and the cursor becomes 10001. -/
theorem prepareQuad_beyond_capacity :
    ∃ r r1 : Renderer,
      submitAll MAX_TEXTURES_PER_BATCH (Renderer.create 0) (List.replicate MAX_QUADS 0) = some r ∧
      r.cursors = [MAX_QUADS] ∧
      r.prepareQuadRaw 0 (screenQuad (5, 5) 1 1 1 1 ⟨1, 1, 1, 1⟩ false false 0) = some r1 ∧
      r1.cursors = [10001] ∧
      r1.batches.map (fun b => b.quadBuffer 10000)
        = [screenQuad (5, 5) 1 1 1 1 ⟨1, 1, 1, 1⟩ false false 0] := by
  obtain ⟨r, b, e1, _, e3, e4⟩ := submitAll_replicate MAX_TEXTURES_PER_BATCH 0 MAX_QUADS
    (Renderer.create 0) Batch.empty rfl rfl
  have hq : b.quadIndex = 10000 := by rw [e4]; rfl
  refine ⟨r, { r with batches :=
    [b.write (screenQuad (5, 5) 1 1 1 1 ⟨1, 1, 1, 1⟩ false false 0)] }, e1, ?_, ?_, ?_, ?_⟩
  · simp [Renderer.cursors, e3, hq, MAX_QUADS]
  · simp [Renderer.prepareQuadRaw, e3]
  · simp [Renderer.cursors, Batch.write, hq]
  · simp [Batch.write, hq]

/-- The number of batches never changes under submissions. -/
theorem submitAll_batches_length (M : Nat) :
    ∀ (ts : List Nat) (r r1 : Renderer), submitAll M r ts = some r1 →
      r1.batches.length = r.batches.length := by
  intro ts
  induction ts with
  | nil =>
    intro r r1 h
    simp only [submitAll, Option.some.injEq] at h
    rw [h]
  | cons t ts ih =>
    intro r r1 h
    simp only [submitAll] at h
    split at h
    · exact Option.noConfusion h
    · rename_i r2 hs
      rw [ih r2 r1 h]
      exact submit_batches_length M r r2 t _ hs

/-- C10 (failing input): a freshly constructed renderer holds one batch, and
submissions never add one. After the textures 1 to 31 are bound, 32 textures
share that batch. Submitting texture 32 makes 33 bound textures, for which two
batches are needed; its slot is 32 and its batch index 1 is not an index into
the batch list, so the submission has no defined result. -/
theorem batches_not_grown :
    (Renderer.create 0).batches.length = 1 ∧
    (submitAll MAX_TEXTURES_PER_BATCH (Renderer.create 0) (List.range' 1 31)).map
      (fun r => (r.textureIDs.length, r.batches.length)) = some (32, 1) ∧
    (submitAll MAX_TEXTURES_PER_BATCH (Renderer.create 0) (List.range' 1 31)).map
      (fun r => ((resolveTexture r.textureIDs 32).2.length,
                 (resolveTexture r.textureIDs 32).1 / MAX_TEXTURES_PER_BATCH)) = some (33, 1) ∧
    (submitAll MAX_TEXTURES_PER_BATCH (Renderer.create 0) (List.range' 1 32)).isNone = true := by
  refine ⟨by decide, by decide, by decide, by decide⟩

/-- The slots given to pairwise distinct textures none of which is bound yet:
the next free slots, in order. -/
theorem resolveAll_fresh : ∀ (ts ids : List Nat), (ids ++ ts).Nodup →
    resolveAll ids ts = (List.range' ids.length ts.length, ids ++ ts) := by
  intro ts
  induction ts with
  | nil => intro ids _; simp [resolveAll]
  | cons t ts ih =>
    intro ids hnd
    have ht : t ∉ ids := by
      intro hin
      have := (List.nodup_append.mp hnd).2.2
      exact this hin (List.mem_cons_self t ts)
    have hnd' : ((ids ++ [t]) ++ ts).Nodup := by simpa using hnd
    simp only [resolveAll, resolveTexture_of_not_mem ids t ht, ih (ids ++ [t]) hnd']
    simp [List.range'_succ]

/-- C8 (as amended): a freshly constructed renderer has its white texture `w` in
slot 0. For texture references 5, 5, 7, 9, all different from `w`, the texture
resolution of `prepareQuad` gives the slots 1, 1, 2, 3, the bound textures are
then `w, 5, 7, 9`, and with two textures per batch the batch indices computed
from the slots are 0, 0, 1, 1. In general pairwise distinct textures different
from `w` get the slots 1, 2, 3, ... in the order of their submission. -/
theorem fresh_renderer_slots (w : Nat) :
    ((w ≠ 5 ∧ w ≠ 7 ∧ w ≠ 9) →
      resolveAll (Renderer.create w).textureIDs [5, 5, 7, 9] = ([1, 1, 2, 3], [w, 5, 7, 9]) ∧
      (resolveAll (Renderer.create w).textureIDs [5, 5, 7, 9]).1.map (fun slot => slot / 2)
        = [0, 0, 1, 1]) ∧
    (∀ ts : List Nat, (w :: ts).Nodup →
      resolveAll (Renderer.create w).textureIDs ts = (List.range' 1 ts.length, w :: ts)) := by
  constructor
  · rintro ⟨h5, h7, h9⟩
    have e : resolveAll (Renderer.create w).textureIDs [5, 5, 7, 9] = ([1, 1, 2, 3], [w, 5, 7, 9]) := by
      simp [resolveAll, resolveTexture, stdFind, Renderer.create, h5, h7, h9]
    rw [e]
    exact ⟨rfl, rfl⟩
  · intro ts hnd
    have := resolveAll_fresh ts [w] (by simpa using hnd)
    simpa [Renderer.create] using this

/-- Witness for C8 with white texture 0. -/
theorem fresh_renderer_slots_witness :
    resolveAll (Renderer.create 0).textureIDs [5, 5, 7, 9] = ([1, 1, 2, 3], [0, 5, 7, 9]) ∧
    resolveAll (Renderer.create 0).textureIDs [5, 7, 9] = (List.range' 1 3, [0, 5, 7, 9]) :=
  ⟨((fresh_renderer_slots 0).1 (by decide)).1, (fresh_renderer_slots 0).2 [5, 7, 9] (by decide)⟩

/-- C8 (counterexample): on a renderer constructed with white texture 0 and two
textures per batch, the first submitted texture 5 gets slot 1, not slot 0; the
two submissions of texture 5 succeed and leave the textures 0, 5 bound; the
submission of texture 7 (slot 2, batch index 1) has no defined result, since
the renderer holds a single batch. -/
theorem fresh_renderer_first_slot_is_white :
    (resolveTexture (Renderer.create 0).textureIDs 5).1 = 1 ∧
    (submitAll 2 (Renderer.create 0) [5, 5]).map (fun r => r.textureIDs) = some [0, 5] ∧
    (submitAll 2 (Renderer.create 0) [5, 5]).map
      (fun r => ((resolveTexture r.textureIDs 7).1, (resolveTexture r.textureIDs 7).1 / 2,
        r.batches.length)) = some (2, 1, 1) ∧
    (submitAll 2 (Renderer.create 0) [5, 5, 7, 9]).isNone = true := by
  refine ⟨by decide, by decide, by decide, by decide⟩

/-! ## Theorems: participation in Update -/

theorem eligible_iff (w : World) (c : CompPtr) (activeScene : Int) :
    eligible w c activeScene = true ↔
      (w.component c).active = true ∧
      ((w.entity (w.component c).entity).scene = activeScene ∨
       (w.entity (w.component c).entity).scene = 0) := by
  unfold eligible
  cases (w.component c).active <;> simp

/-- When the body never changes the base fields of components or the entities,
the loop of `Update` is the body run on the eligible components, in order. -/
theorem updateLoop_eq_bodyLoop (body : World → CompPtr → Option World) (activeScene : Int)
    (hbody : ∀ w c w1, body w c = some w1 → w1.component = w.component ∧ w1.entity = w.entity) :
    ∀ (cs : List CompPtr) (w : World),
      updateLoop body activeScene cs w =
        bodyLoop body (cs.filter (fun c => eligible w c activeScene)) w := by
  intro cs
  induction cs with
  | nil => intro w; rfl
  | cons c cs ih =>
    intro w
    by_cases he : eligible w c activeScene = true
    · simp only [updateLoop, he, if_true, List.filter_cons, bodyLoop]
      cases hb : body w c with
      | none => rfl
      | some w1 =>
        obtain ⟨h1, h2⟩ := hbody w c w1 hb
        have hel : ∀ c', eligible w1 c' activeScene = eligible w c' activeScene := by
          intro c'; simp [eligible, h1, h2]
        simp only [ih w1, hel]
    · simp only [updateLoop, he, List.filter_cons]
      exact ih w

/-- A run of the body over components all different from `c`, when each step
keeps what is stored for the components it does not visit, keeps the fields of `c`. -/
theorem bodyLoop_frame (body : World → CompPtr → Option World) (kind : SystemKind) (c : CompPtr)
    (hbody : ∀ w c1 w1, body w c1 = some w1 → c ≠ c1 → w1.fieldsOf kind c = w.fieldsOf kind c) :
    ∀ (cs : List CompPtr) (w w1 : World), c ∉ cs → bodyLoop body cs w = some w1 →
      w1.fieldsOf kind c = w.fieldsOf kind c := by
  intro cs
  induction cs with
  | nil =>
    intro w w1 _ h
    simp only [bodyLoop, Option.some.injEq] at h
    rw [h]
  | cons c1 cs ih =>
    intro w w1 hc h
    simp only [bodyLoop] at h
    cases hb : body w c1 with
    | none => rw [hb] at h; exact Option.noConfusion h
    | some w2 =>
      rw [hb] at h
      have hne : c ≠ c1 := fun q => hc (by simp [q])
      have hcs : c ∉ cs := fun q => hc (List.mem_cons_of_mem c1 q)
      rw [ih w2 w1 hcs h, hbody w c1 w2 hb hne]

/-- One run of a loop body leaves the base fields of all components and all
entities as they are, and leaves every field of every component other than the
one it runs on as it is. -/
theorem System_body_frame (kind : SystemKind) (w0 : World) (deltaTime : ℚ) (w : World)
    (c : CompPtr) (w1 : World) (h : System.body kind w0 deltaTime w c = some w1) :
    w1.component = w.component ∧ w1.entity = w.entity ∧
    ∀ c1, c1 ≠ c → w1.fieldsOf kind c1 = w.fieldsOf kind c1 := by
  cases kind with
  | input =>
    simp only [System.body, InputSystem.body, Option.some.injEq] at h
    subst h
    exact ⟨rfl, rfl, fun _ _ => rfl⟩
  | particle =>
    simp only [System.body, ParticleSystem.body] at h
    split at h
    · split at h
      · exact Option.noConfusion h
      · split at h
        · simp only [Option.some.injEq] at h
          subst h
          refine ⟨rfl, rfl, fun c1 hc1 => ?_⟩
          simp [World.fieldsOf, hc1]
        · simp only [Option.some.injEq] at h
          subst h
          refine ⟨rfl, rfl, fun c1 hc1 => ?_⟩
          simp [World.fieldsOf, hc1]
    · simp only [Option.some.injEq] at h
      subst h
      refine ⟨rfl, rfl, fun c1 hc1 => ?_⟩
      simp [World.fieldsOf, hc1]
  | image =>
    simp only [System.body, ImageSystem.body] at h
    split at h
    · simp only [Option.some.injEq] at h
      subst h
      exact ⟨rfl, rfl, fun _ _ => rfl⟩
    · exact Option.noConfusion h
  | staticRendering =>
    simp only [System.body, StaticRenderingSystem.body] at h
    split at h
    · simp only [Option.some.injEq] at h
      subst h
      exact ⟨rfl, rfl, fun _ _ => rfl⟩
    · simp only [Option.some.injEq] at h
      subst h
      exact ⟨rfl, rfl, fun _ _ => rfl⟩
  | cameraFollow =>
    simp only [System.body, CameraFollowSystem.body] at h
    split at h
    · exact Option.noConfusion h
    · simp only [Option.some.injEq] at h
      subst h
      exact ⟨rfl, rfl, fun _ _ => rfl⟩
  | animationController =>
    simp only [System.body, AnimationControllerSystem.body, ite_self, Option.some.injEq] at h
    subst h
    exact ⟨rfl, rfl, fun _ _ => rfl⟩
  | animation =>
    simp only [System.body, AnimationSystem.body] at h
    split at h
    · exact Option.noConfusion h
    · exact Option.noConfusion h
    · split at h
      · simp only [Option.some.injEq] at h
        subst h
        refine ⟨rfl, rfl, fun c1 hc1 => ?_⟩
        simp [World.fieldsOf, hc1]
      · simp only [Option.some.injEq] at h
        subst h
        refine ⟨rfl, rfl, fun c1 hc1 => ?_⟩
        simp [World.fieldsOf, hc1]

/-- The `Update` of every system is the loop over its collection in visiting order. -/
theorem System_Update_eq_updateLoop
    (sort : (CompPtr → CompPtr → Bool) → List CompPtr → List CompPtr)
    (w : World) (s : System) (activeScene : Int) (deltaTime : ℚ) :
    System.Update sort w s activeScene deltaTime =
      (updateLoop (System.body s.kind w deltaTime) activeScene (System.order sort w s) w).map
        (fun w1 => (w1, { s with components := System.order sort w s })) := by
  obtain ⟨kind, comps⟩ := s
  cases kind <;>
    simp only [System.Update, System.body, System.order, InputSystem.Update, ParticleSystem.Update,
      ImageSystem.Update, StaticRenderingSystem.Update, CameraFollowSystem.Update,
      AnimationControllerSystem.Update, AnimationSystem.Update]
  · cases updateLoop StaticRenderingSystem.body activeScene _ w <;> rfl
  · cases updateLoop (AnimationSystem.body deltaTime) activeScene _ w <;> rfl

/-- C5: in the `Update` of every system a component is processed exactly when
it is active and its owner's scene is the active scene or scene 0. A component
of a scene-0 entity takes part under every active scene, a component of a
scene-5 entity only under active scene 5. `Update` is the loop body run on the
eligible components only, in visiting order, so all quad submissions, camera
writes and particle requests come from them; when no component is eligible the
world is left as it is; and no field of a component that is not eligible changes. -/
theorem Update_participation
    (sort : (CompPtr → CompPtr → Bool) → List CompPtr → List CompPtr)
    (w : World) (s : System) (activeScene : Int) (deltaTime : ℚ) :
    (∀ c, eligible w c activeScene = true ↔
      (w.component c).active = true ∧
      ((w.entity (w.component c).entity).scene = activeScene ∨
       (w.entity (w.component c).entity).scene = 0)) ∧
    (∀ c, (w.entity (w.component c).entity).scene = 0 →
      eligible w c activeScene = (w.component c).active) ∧
    (∀ c, (w.entity (w.component c).entity).scene = 5 →
      (eligible w c activeScene = true ↔ (w.component c).active = true ∧ activeScene = 5)) ∧
    System.Update sort w s activeScene deltaTime =
      (bodyLoop (System.body s.kind w deltaTime)
        ((System.order sort w s).filter (fun c => eligible w c activeScene)) w).map
        (fun w1 => (w1, { s with components := System.order sort w s })) ∧
    ((∀ c ∈ System.order sort w s, eligible w c activeScene = false) →
      System.Update sort w s activeScene deltaTime
        = some (w, { s with components := System.order sort w s })) ∧
    (∀ w1 s1, System.Update sort w s activeScene deltaTime = some (w1, s1) →
      ∀ c, eligible w c activeScene = false → w1.fieldsOf s.kind c = w.fieldsOf s.kind c) := by
  have hloop : System.Update sort w s activeScene deltaTime =
      (bodyLoop (System.body s.kind w deltaTime)
        ((System.order sort w s).filter (fun c => eligible w c activeScene)) w).map
        (fun w1 => (w1, { s with components := System.order sort w s })) := by
    rw [System_Update_eq_updateLoop,
      updateLoop_eq_bodyLoop (System.body s.kind w deltaTime) activeScene
        (fun w2 c w3 hb => ⟨(System_body_frame s.kind w deltaTime w2 c w3 hb).1,
          (System_body_frame s.kind w deltaTime w2 c w3 hb).2.1⟩)]
  refine ⟨fun c => eligible_iff w c activeScene, ?_, ?_, hloop, ?_, ?_⟩
  · intro c hc
    unfold eligible
    cases (w.component c).active <;> simp [hc]
  · intro c hc
    rw [eligible_iff, hc]
    constructor
    · rintro ⟨ha, h5 | h0⟩
      · exact ⟨ha, h5.symm⟩
      · exact absurd h0 (by decide)
    · rintro ⟨ha, h5⟩
      exact ⟨ha, Or.inl h5.symm⟩
  · intro hnone
    have hfil : (System.order sort w s).filter (fun c => eligible w c activeScene) = [] := by
      apply List.filter_eq_nil_iff.mpr
      intro c hc
      simp [hnone c hc]
    rw [hloop, hfil]
    rfl
  · intro w1 s1 hup c hc
    rw [hloop] at hup
    cases hb : bodyLoop (System.body s.kind w deltaTime)
        ((System.order sort w s).filter (fun c => eligible w c activeScene)) w with
    | none => rw [hb] at hup; exact Option.noConfusion hup
    | some w2 =>
      rw [hb] at hup
      simp only [Option.map_some', Option.some.injEq, Prod.mk.injEq] at hup
      rw [← hup.1]
      apply bodyLoop_frame (System.body s.kind w deltaTime) s.kind c
        (fun w3 c1 w4 hb1 hne => (System_body_frame s.kind w deltaTime w3 c1 w4 hb1).2.2 c hne)
        _ w w2 _ hb
      intro hin
      have := (List.mem_filter.mp hin).2
      simp [hc] at this

/-- Witness for C5: the particle system holding the emitters 31 (entity 1,
scene 0) and 32 (entity 2, scene 5) under active scene 7. The update succeeds;
emitter 31 is eligible and emitter 32 is not, and no field of emitter 32 changes. -/
theorem Update_participation_witness :
    ∃ w1 s1,
      System.Update insertionSortBy exampleWorld ⟨SystemKind.particle, [31, 32]⟩ 7 (1 / 10)
        = some (w1, s1) ∧
      eligible exampleWorld 31 7 = true ∧
      eligible exampleWorld 32 7 = false ∧
      w1.fieldsOf SystemKind.particle 32 = exampleWorld.fieldsOf SystemKind.particle 32 := by
  have hsome : (System.Update insertionSortBy exampleWorld
      ⟨SystemKind.particle, [31, 32]⟩ 7 (1 / 10)).isSome = true := by decide
  obtain ⟨r, hr⟩ := Option.isSome_iff_exists.mp hsome
  exact ⟨r.1, r.2, hr, by decide, by decide,
    (Update_participation insertionSortBy exampleWorld ⟨SystemKind.particle, [31, 32]⟩ 7
      (1 / 10)).2.2.2.2.2 r.1 r.2 hr 32 (by decide)⟩

/-! ## Theorems: flushing -/

/-- C11 (failing input): a renderer constructed with white texture 0 after the
textures 1 to 31 were bound, so that 32 textures are bound, as many as one
batch takes. The loop of `sendToGL` binds texture `i` to unit `i`, flushes
batch 0 at the last texture and leaves `currentBatch = 1`; the flush after the
loop then selects `batches[1]`, which does not exist, so `sendToGL` has no
defined result. With a second batch present the calls would contain two draw
calls, one more than the one batch in use. -/
theorem sendToGL_flushes_past_last_batch :
    (submitAll MAX_TEXTURES_PER_BATCH (Renderer.create 0) (List.range' 1 31)).map
      (fun r => (r.textureIDs.length, r.batches.length)) = some (32, 1) ∧
    ((submitAll MAX_TEXTURES_PER_BATCH (Renderer.create 0) (List.range' 1 31)).bind
      (fun r => sendToGLLoop MAX_TEXTURES_PER_BATCH r.batches r.textureIDs 0 0 [])).map
      (fun p => (p.1, drawCount p.2, bindings p.2))
        = some (1, 1, (List.range 32).map (fun i => (i, i))) ∧
    ((submitAll MAX_TEXTURES_PER_BATCH (Renderer.create 0) (List.range' 1 31)).bind
      (fun r => r.sendToGL MAX_TEXTURES_PER_BATCH)).isNone = true ∧
    ((submitAll MAX_TEXTURES_PER_BATCH (Renderer.create 0) (List.range' 1 31)).bind
      (fun r => Renderer.sendToGL MAX_TEXTURES_PER_BATCH
        { r with batches := r.batches ++ [Batch.empty] })).map drawCount = some 2 := by
  refine ⟨by decide, by decide, by decide, by decide⟩

/-! ## Theorems: animation frame advance -/

/-- The loop body of `AnimationSystem::Update`, when the active clip is in the
map, replaces the component by its frame advance and touches no other
animation component, no position and no clip. -/
theorem AnimationSystem_body_advance (deltaTime : ℚ) (w : World) (a : CompPtr) (ap : AnimPtr)
    (hclip : mapFind (w.animation a).animations (w.animation a).activeAnimation = some (some ap)) :
    ∃ w1, AnimationSystem.body deltaTime w a = some w1 ∧
      w1.animation a = AnimationSystem.advance (w.animation2D ap) deltaTime (w.animation a) ∧
      (∀ c, c ≠ a → w1.animation c = w.animation c) ∧
      w1.position = w.position ∧ w1.animation2D = w.animation2D ∧ w1.game = w.game := by
  simp only [AnimationSystem.body, hclip]
  split
  · exact ⟨_, rfl, by simp, fun c hc => by simp [hc], rfl, rfl, rfl⟩
  · exact ⟨_, rfl, by simp, fun c hc => by simp [hc], rfl, rfl, rfl⟩

/-- The loop of an `Update` over a collection of one eligible component is one
run of the loop body. -/
theorem updateLoop_singleton (body : World → CompPtr → Option World) (activeScene : Int)
    (w : World) (c : CompPtr) (h : eligible w c activeScene = true) :
    updateLoop body activeScene [c] w = body w c := by
  simp only [updateLoop, h, if_true]
  cases body w c <;> rfl

theorem succ_mod_cases (k c : Nat) (hc : 1 ≤ c) :
    (k % c + 1 < c ∧ (k + 1) % c = k % c + 1) ∨ (k % c + 1 = c ∧ (k + 1) % c = 0) := by
  have hlt : k % c < c := Nat.mod_lt k hc
  have hk : c * (k / c) + k % c = k := Nat.div_add_mod k c
  by_cases h : k % c + 1 < c
  · left
    refine ⟨h, ?_⟩
    have e : k + 1 = c * (k / c) + (k % c + 1) := by omega
    conv_lhs => rw [e]
    rw [Nat.mul_add_mod, Nat.mod_eq_of_lt h]
  · right
    have h1 : k % c + 1 = c := by omega
    refine ⟨h1, ?_⟩
    have e : k + 1 = c * (k / c + 1) := by
      rw [Nat.mul_add, Nat.mul_one]; omega
    conv_lhs => rw [e]
    exact Nat.mul_mod_right c _

/-- A tick that does not bring the accumulator above the frame duration only
adds the time step to the accumulator. -/
theorem advance_wait (clip : Animation2D) (dt : ℚ) (a : AnimationComponent)
    (h : ¬ clip.speed < a.lastTick + dt) :
    AnimationSystem.advance clip dt a = { a with lastTick := a.lastTick + dt } := by
  simp [AnimationSystem.advance, h]

/-- A tick that brings the accumulator above the frame duration, on a looping
clip whose only row has `c` columns, moves the cell from column `x` of row 0 to
column `(x + 1) mod c` of row 0 and clears the accumulator. -/
theorem advance_step_row (clip : Animation2D) (dt : ℚ) (a : AnimationComponent) (c x : Nat)
    (hloop : clip.loop = true) (hrows : clip.rows = 1) (hcols : clip.rowsToCols 0 = (c : Int))
    (hc : 1 ≤ c) (hx : a.activeX = (((x % c : Nat)) : Int)) (hy : a.activeY = 0)
    (h : clip.speed < a.lastTick + dt) :
    AnimationSystem.advance clip dt a =
      { a with lastTick := 0, activeX := ((((x + 1) % c : Nat)) : Int), activeY := 0 } := by
  obtain ⟨ax, ay, nm, anims, mt, ps, lt, sx, sy, fx, fy⟩ := a
  simp only at hx hy h
  subst hx hy
  rcases succ_mod_cases x c hc with ⟨h1, h2⟩ | ⟨h1, h2⟩
  · have hv : ((x % c : Nat) : Int) + 1 < (c : Int) := by exact_mod_cast h1
    simp only [AnimationSystem.advance, h, hcols, hv, if_true, h2]
    simp
  · have hv : ¬ ((x % c : Nat) : Int) + 1 < (c : Int) := by
      have : ((x % c : Nat) : Int) + 1 = (c : Int) := by exact_mod_cast h1
      omega
    have hv2 : ¬ (x : Int) % (c : Int) + 1 < (c : Int) := by simpa using hv
    simp [AnimationSystem.advance, h, hcols, hv2, hloop, hrows, h2]

/-- The cells of a looping one-row clip under ticks of twice the frame
duration and under ticks of the frame duration, from cell (0, 0) with an empty
accumulator: a tick of twice the duration always advances one column; ticks of
the duration advance one column at every second tick. -/
theorem ticks_row_states (clip : Animation2D) (a0 : AnimationComponent) (c : Nat) (d : ℚ)
    (hloop : clip.loop = true) (hrows : clip.rows = 1) (hcols : clip.rowsToCols 0 = (c : Int))
    (hc : 1 ≤ c) (hspeed : clip.speed = d) (hd : 0 < d)
    (hx : a0.activeX = 0) (hy : a0.activeY = 0) (ht : a0.lastTick = 0) :
    (∀ k, AnimationSystem.ticks clip (2 * d) k a0 =
      { a0 with activeX := (((k % c : Nat)) : Int), activeY := 0, lastTick := 0 }) ∧
    (∀ k, AnimationSystem.ticks clip d (2 * k) a0 =
        { a0 with activeX := (((k % c : Nat)) : Int), activeY := 0, lastTick := 0 } ∧
      AnimationSystem.ticks clip d (2 * k + 1) a0 =
        { a0 with activeX := (((k % c : Nat)) : Int), activeY := 0, lastTick := d }) := by
  have hbase : a0 = { a0 with activeX := (((0 % c : Nat)) : Int), activeY := 0, lastTick := 0 } := by
    obtain ⟨ax, ay, nm, anims, mt, ps, lt, sx, sy, fx, fy⟩ := a0
    simp only at hx hy ht
    subst hx hy ht
    simp
  constructor
  · intro k
    induction k with
    | zero => exact hbase
    | succ k ih =>
      simp only [AnimationSystem.ticks]
      rw [ih, advance_step_row clip (2 * d) _ c k hloop hrows hcols hc rfl rfl
        (by simp only [hspeed]; linarith)]
  · intro k
    induction k with
    | zero =>
      refine ⟨hbase, ?_⟩
      show AnimationSystem.advance clip d a0 = _
      rw [advance_wait clip d a0 (by rw [hspeed, ht]; simp)]
      obtain ⟨ax, ay, nm, anims, mt, ps, lt, sx, sy, fx, fy⟩ := a0
      simp only at hx hy ht
      subst hx hy ht
      simp
    | succ k ih =>
      have e1 : 2 * (k + 1) = (2 * k + 1) + 1 := by ring
      have hfirst : AnimationSystem.ticks clip d (2 * (k + 1)) a0 =
          { a0 with activeX := ((((k + 1) % c : Nat)) : Int), activeY := 0, lastTick := 0 } := by
        rw [e1]
        simp only [AnimationSystem.ticks]
        have := ih.2
        simp only [AnimationSystem.ticks] at this
        rw [this, advance_step_row clip d _ c k hloop hrows hcols hc rfl rfl
          (by simp only [hspeed]; linarith)]
      refine ⟨hfirst, ?_⟩
      show AnimationSystem.advance clip d (AnimationSystem.ticks clip d (2 * (k + 1)) a0) = _
      rw [hfirst, advance_wait clip d _ (by simp [hspeed])]
      simp

/-- C13: for a looping clip of one row with `c ≥ 1` columns and frame duration
`d > 0`, from cell (0, 0) with accumulator 0: after `k` ticks of `2 d` and after
`2 k` ticks of `d` the active cell is `(k mod c, 0)`, and the cell after `i`
ticks of `d` is the cell after `i / 2` ticks of `2 d`, so both runs visit the
same cells in the same order. For four columns and frame duration 0.1, five
ticks of 0.2 and ten ticks of 0.1 both go through (0,0), (1,0), (2,0), (3,0),
(0,0), (1,0). -/
theorem ticks_same_cells (clip : Animation2D) (a0 : AnimationComponent) (c : Nat) (d : ℚ)
    (hloop : clip.loop = true) (hrows : clip.rows = 1) (hcols : clip.rowsToCols 0 = (c : Int))
    (hc : 1 ≤ c) (hspeed : clip.speed = d) (hd : 0 < d)
    (hx : a0.activeX = 0) (hy : a0.activeY = 0) (ht : a0.lastTick = 0) :
    (∀ k, (AnimationSystem.ticks clip (2 * d) k a0).cell = ((((k % c : Nat)) : Int), 0)) ∧
    (∀ k, (AnimationSystem.ticks clip d (2 * k) a0).cell = ((((k % c : Nat)) : Int), 0)) ∧
    (∀ i, (AnimationSystem.ticks clip d i a0).cell
      = (AnimationSystem.ticks clip (2 * d) (i / 2) a0).cell) ∧
    (List.range 6).map
        (fun j => (AnimationSystem.ticks (rowClip true) (1 / 5) j (idleAnimation 0 0 0)).cell)
      = [(0, 0), (1, 0), (2, 0), (3, 0), (0, 0), (1, 0)] ∧
    (List.range 11).map
        (fun i => (AnimationSystem.ticks (rowClip true) (1 / 10) i (idleAnimation 0 0 0)).cell)
      = [(0, 0), (0, 0), (1, 0), (1, 0), (2, 0), (2, 0), (3, 0), (3, 0), (0, 0), (0, 0), (1, 0)] ∧
    List.destutter (fun p q => p ≠ q)
        [((0 : Int), (0 : Int)), (0, 0), (1, 0), (1, 0), (2, 0), (2, 0), (3, 0), (3, 0),
          (0, 0), (0, 0), (1, 0)]
      = [(0, 0), (1, 0), (2, 0), (3, 0), (0, 0), (1, 0)] := by
  obtain ⟨hA, hB⟩ := ticks_row_states clip a0 c d hloop hrows hcols hc hspeed hd hx hy ht
  have hcellA : ∀ k, (AnimationSystem.ticks clip (2 * d) k a0).cell
      = ((((k % c : Nat)) : Int), 0) := fun k => by rw [hA k]; rfl
  have hcellB0 : ∀ k, (AnimationSystem.ticks clip d (2 * k) a0).cell
      = ((((k % c : Nat)) : Int), 0) := fun k => by rw [(hB k).1]; rfl
  have hcellB1 : ∀ k, (AnimationSystem.ticks clip d (2 * k + 1) a0).cell
      = ((((k % c : Nat)) : Int), 0) := fun k => by rw [(hB k).2]; rfl
  obtain ⟨hA4, hB4⟩ := ticks_row_states (rowClip true) (idleAnimation 0 0 0) 4 (1 / 10)
    rfl rfl rfl (by decide) rfl (by norm_num) rfl rfl rfl
  have e5 : (2 : ℚ) * (1 / 10) = 1 / 5 := by norm_num
  rw [e5] at hA4
  refine ⟨hcellA, hcellB0, ?_, ?_, ?_, by decide⟩
  · intro i
    rcases Nat.even_or_odd' i with ⟨k, rfl | rfl⟩
    · rw [hcellB0 k, Nat.mul_div_cancel_left k (by decide : 0 < 2), hcellA k]
    · have e : (2 * k + 1) / 2 = k := by omega
      rw [hcellB1 k, e, hcellA k]
  · simp only [List.range, List.range.loop, List.map, hA4]
    decide
  · have h0 := (hB4 0).1
    have h1 := (hB4 0).2
    have h2 := (hB4 1).1
    have h3 := (hB4 1).2
    have h4 := (hB4 2).1
    have h5 := (hB4 2).2
    have h6 := (hB4 3).1
    have h7 := (hB4 3).2
    have h8 := (hB4 4).1
    have h9 := (hB4 4).2
    have h10 := (hB4 5).1
    simp only [Nat.mul_zero, Nat.mul_one, Nat.zero_add, Nat.reduceMul, Nat.reduceAdd] at h0 h1 h2 h3 h4 h5 h6 h7 h8 h9 h10
    simp only [List.range, List.range.loop, List.map, h0, h1, h2, h3, h4, h5, h6, h7, h8, h9, h10]
    decide

/-- Witness for C13: the clip of four columns with frame duration 0.1, five
ticks of 0.2 against ten ticks of 0.1. -/
theorem ticks_same_cells_witness :
    (AnimationSystem.ticks (rowClip true) (2 * (1 / 10)) 5 (idleAnimation 0 0 0)).cell
      = ((((5 % 4 : Nat)) : Int), 0) ∧
    (AnimationSystem.ticks (rowClip true) (1 / 10) (2 * 5) (idleAnimation 0 0 0)).cell
      = ((((5 % 4 : Nat)) : Int), 0) :=
  have h := ticks_same_cells (rowClip true) (idleAnimation 0 0 0) 4 (1 / 10)
    rfl rfl rfl (by decide) rfl (by norm_num) rfl rfl rfl
  ⟨h.1 5, h.2.1 5⟩

/-! ## Theorems: SetAnimation -/

theorem mapIndex_of_some {κ β : Type} [DecidableEq κ] (m : List (κ × Option β)) (k : κ)
    (v : Option β) (h : mapFind m k = some v) : mapIndex m k = (v, m) := by
  simp [mapIndex, h]

theorem mapIndex_of_none {κ β : Type} [DecidableEq κ] (m : List (κ × Option β)) (k : κ)
    (h : mapFind m k = none) : mapIndex m k = (none, m ++ [(k, none)]) := by
  simp [mapIndex, h]

/-- C14: for a clip name `s` that the clip map of the component binds to a
clip, `SetAnimation(s)` completes and the component afterwards has active clip
name `s`, column 0, row `rows - 1` of that clip and accumulator 0, with the
clip map and all other fields as before. -/
theorem SetAnimation_known (clips : AnimPtr → Animation2D) (a : AnimationComponent) (s : String)
    (ap : AnimPtr) (h : mapFind a.animations s = some (some ap)) :
    a.SetAnimation clips s =
      some { a with activeAnimation := s, activeX := 0, activeY := (clips ap).rows - 1,
                    lastTick := 0 } := by
  simp [AnimationComponent.SetAnimation, mapIndex_of_some a.animations s (some ap) h]

/-- Witness for C14: switching the component at cell (3, 0) with accumulator
0.05 to its clip "idle", a clip of one row. -/
theorem SetAnimation_known_witness :
    (idleAnimation 3 0 (1 / 20)).SetAnimation (fun _ => rowClip true) "idle" =
      some { idleAnimation 3 0 (1 / 20) with
        activeAnimation := "idle", activeX := 0, activeY := (rowClip true).rows - 1,
        lastTick := 0 } :=
  SetAnimation_known (fun _ => rowClip true) (idleAnimation 3 0 (1 / 20)) "idle" 0 (by decide)

/-- `SetAnimation` with a name that has no entry in the clip map completes and
changes the clip map only: the entry `(s, null)` is inserted. -/
theorem SetAnimation_absent (clips : AnimPtr → Animation2D) (a : AnimationComponent) (s : String)
    (h : mapFind a.animations s = none) :
    a.SetAnimation clips s = some { a with animations := a.animations ++ [(s, none)] } := by
  simp [AnimationComponent.SetAnimation, mapIndex_of_none a.animations s h]

/-- C15 (failing input): a component whose clip map holds the one name "idle",
and `SetAnimation("run")`. The call completes and leaves the active clip name,
the cell and the accumulator as they were, but the clip map afterwards has the
two names "idle" and "run", the new one bound to a null pointer. -/
theorem SetAnimation_unknown_inserts_name :
    mapFind (idleAnimation 3 0 (1 / 20)).animations "run" = none ∧
    ((idleAnimation 3 0 (1 / 20)).SetAnimation (fun _ => rowClip true) "run").map
      (fun a => a.animations) = some [("idle", some 0), ("run", none)] ∧
    ((idleAnimation 3 0 (1 / 20)).SetAnimation (fun _ => rowClip true) "run").map
      (fun a => a.animations.map Prod.fst) = some ["idle", "run"] ∧
    ((idleAnimation 3 0 (1 / 20)).SetAnimation (fun _ => rowClip true) "run")
      ≠ some (idleAnimation 3 0 (1 / 20)) ∧
    ((idleAnimation 3 0 (1 / 20)).SetAnimation (fun _ => rowClip true) "run").map
      (fun a => (a.activeAnimation, a.activeX, a.activeY, a.lastTick))
      = some ("idle", 3, 0, 1 / 20) := by
  have h := SetAnimation_absent (fun _ => rowClip true) (idleAnimation 3 0 (1 / 20)) "run"
    (by decide)
  rw [h]
  refine ⟨by decide, by decide, by decide, ?_, rfl⟩
  intro q
  have := congrArg (fun o => o.map (fun a => a.animations.length)) q
  revert this
  decide

/-! ## Theorems: rendering passes -/

theorem StaticRenderingSystem_body_eq (w : World) (s : CompPtr) :
    StaticRenderingSystem.body w s =
      some (if StaticRenderingSystem.visible w s = true then
        { w with quadCalls := w.quadCalls ++ [StaticRenderingSystem.call w s] } else w) := by
  unfold StaticRenderingSystem.body StaticRenderingSystem.visible StaticRenderingSystem.call
  by_cases h : (w.position (w.sprite s).pos).x + ((w.sprite s).width / 2) > w.game.leftX ∧
    (w.position (w.sprite s).pos).x - ((w.sprite s).width / 2) < w.game.rightX ∧
    (w.position (w.sprite s).pos).y + ((w.sprite s).height / 2) > w.game.bottomY ∧
    (w.position (w.sprite s).pos).y - ((w.sprite s).height / 2) < w.game.topY ∧
    (w.position (w.sprite s).pos).z < w.game.camZ
  · simp only [h, and_self, if_true, decide_True]
  · simp only [h, if_false, decide_False]
    rfl

theorem StaticRenderingSystem_visible_iff (w : World) (s : CompPtr) :
    StaticRenderingSystem.visible w s = true ↔
      ((w.position (w.sprite s).pos).x + (w.sprite s).width / 2 > w.game.leftX ∧
       (w.position (w.sprite s).pos).x - (w.sprite s).width / 2 < w.game.rightX ∧
       (w.position (w.sprite s).pos).y + (w.sprite s).height / 2 > w.game.bottomY ∧
       (w.position (w.sprite s).pos).y - (w.sprite s).height / 2 < w.game.topY ∧
       (w.position (w.sprite s).pos).z < w.game.camZ) := by
  simp [StaticRenderingSystem.visible]

/-- C20 (failing input): entities of scene 0 without any component, so that
`componentIDMap[positionComponentID]` finds nothing, and the eligible component
31 as a camera follower and as a particle emitter whose accumulator has reached
its tick rate. Both `CameraFollowSystem::Update` and `ParticleSystem::Update`
dereference the null pointer that the lookup returns and have no defined result. -/
theorem Update_without_position_faults :
    eligible bareWorld 31 7 = true ∧
    mapFind (bareWorld.entity (bareWorld.component 31).entity).componentIDMap positionComponentID
      = none ∧
    (bareWorld.particle 31).lastTick ≥ (bareWorld.particle 31).tickRate ∧
    (CameraFollowSystem.Update bareWorld [31] 7 (1 / 60)).isNone = true ∧
    (ParticleSystem.Update bareWorld [31] 7 (1 / 60)).isNone = true := by
  refine ⟨by decide, by decide, by decide, by decide, by decide⟩

/-! ## Theorems: resetBuffers, index buffer and cell quads -/

theorem quadIndicesLoop_outside (n : Nat) (a : Nat → Nat) (p : Nat) (hp : 6 * n ≤ p) :
    quadIndicesLoop n a p = a p := by
  induction n with
  | zero => rfl
  | succ n ih =>
    have h := ih (by omega)
    simp only [quadIndicesLoop, quadIndicesStep, arrayStore]
    rw [if_neg (by omega), if_neg (by omega), if_neg (by omega), if_neg (by omega),
      if_neg (by omega), if_neg (by omega)]
    exact h

theorem quadIndicesStep_below (n : Nat) (a : Nat → Nat) (p : Nat) (hp : p < 6 * n) :
    quadIndicesStep n a p = a p := by
  simp only [quadIndicesStep, arrayStore]
  rw [if_neg (by omega), if_neg (by omega), if_neg (by omega), if_neg (by omega),
    if_neg (by omega), if_neg (by omega)]

theorem quadIndicesLoop_pattern (n : Nat) (a : Nat → Nat) (i : Nat) (hi : i < n) :
    quadIndicesLoop n a (6 * i + 0) = 4 * i + 0 ∧
    quadIndicesLoop n a (6 * i + 1) = 4 * i + 1 ∧
    quadIndicesLoop n a (6 * i + 2) = 4 * i + 3 ∧
    quadIndicesLoop n a (6 * i + 3) = 4 * i + 1 ∧
    quadIndicesLoop n a (6 * i + 4) = 4 * i + 2 ∧
    quadIndicesLoop n a (6 * i + 5) = 4 * i + 3 := by
  induction n with
  | zero => omega
  | succ n ih =>
    by_cases h : i < n
    · obtain ⟨h0, h1, h2, h3, h4, h5⟩ := ih h
      simp only [quadIndicesLoop]
      rw [quadIndicesStep_below _ _ _ (by omega), quadIndicesStep_below _ _ _ (by omega),
        quadIndicesStep_below _ _ _ (by omega), quadIndicesStep_below _ _ _ (by omega),
        quadIndicesStep_below _ _ _ (by omega), quadIndicesStep_below _ _ _ (by omega)]
      exact ⟨h0, h1, h2, h3, h4, h5⟩
    · have hin : i = n := by omega
      subst hin
      simp [quadIndicesLoop, quadIndicesStep, arrayStore]

/-- Within the capacity of a batch, the first `6 * k` indices all refer to
vertices of the first `k` quads. -/
theorem quadIndices_lt (uninit : Nat → Nat) (k p : Nat) (hk : k ≤ MAX_QUADS) (hp : p < 6 * k) :
    Renderer.quadIndices uninit p < 4 * k := by
  have hi : p / 6 < MAX_QUADS := by omega
  obtain ⟨h0, h1, h2, h3, h4, h5⟩ := quadIndicesLoop_pattern MAX_QUADS uninit (p / 6) hi
  have hm : p % 6 < 6 := Nat.mod_lt _ (by decide)
  have hp6 : p = 6 * (p / 6) + p % 6 := (Nat.div_add_mod p 6).symm
  unfold Renderer.quadIndices
  rw [hp6]
  have hq : p / 6 < k := by omega
  rcases (by omega : p % 6 = 0 ∨ p % 6 = 1 ∨ p % 6 = 2 ∨ p % 6 = 3 ∨ p % 6 = 4 ∨ p % 6 = 5) with
    h | h | h | h | h | h <;> rw [h] <;> omega

/-- C22: `resetBuffers` sets the cursor of every batch to 0 and keeps the number
of batches, the stored quads of every batch, the list of bound textures and the
white texture; so a texture resolves to the same slot afterwards. -/
theorem resetBuffers_only_cursors (r : Renderer) :
    (r.resetBuffers).cursors = List.replicate r.batches.length 0 ∧
    (r.resetBuffers).batches.length = r.batches.length ∧
    (r.resetBuffers).batches.map (fun b => b.quadBuffer) = r.batches.map (fun b => b.quadBuffer) ∧
    (r.resetBuffers).textureIDs = r.textureIDs ∧
    (r.resetBuffers).whiteTextureID = r.whiteTextureID ∧
    (r.resetBuffers).whiteTextureIndex = r.whiteTextureIndex ∧
    ∀ t, resolveTexture (r.resetBuffers).textureIDs t = resolveTexture r.textureIDs t := by
  refine ⟨?_, by simp [Renderer.resetBuffers], ?_, rfl, rfl, rfl, fun _ => rfl⟩
  · simp only [Renderer.cursors, Renderer.resetBuffers, List.map_map]
    induction r.batches with
    | nil => rfl
    | cons b bs ih => simp [List.replicate_succ, ih]
  · simp only [Renderer.resetBuffers, List.map_map]
    rfl

/-- C28 (failing input): a cell of a sheet 8 wide and 2 high with 4 columns and
1 row, at scale 1, centred at the origin with rotation 0. One scaled cell is
2 wide and 2 high, so the claimed vertices are the centre ± 1; the quad built
has its vertices at the centre ± 2 on both axes, twice the rectangle
`pos ± (width / columns) / 2`, `pos ± (height / rows) / 2` that
`AnimationSystem` tests against the viewport. -/
theorem cellQuad_twice_cell_size (trig : Trig) :
    (cellQuad trig ⟨false, 0, 0, 0, 0⟩ 8 2 1 1 ⟨1, 1, 1, 1⟩ 0 0 4 1 false false 0).corners =
      [(-2, -2), (2, -2), (2, 2), (-2, 2)] ∧
    ((8 : ℚ) * 1 / ((4 : Int) : ℚ)) / 2 = 1 ∧ ((2 : ℚ) * 1 / ((1 : Int) : ℚ)) / 2 = 1 ∧
    ((8 : ℚ) / ((4 : Int) : ℚ)) / 2 = 1 ∧ ((2 : ℚ) / ((1 : Int) : ℚ)) / 2 = 1 := by
  refine ⟨?_, by norm_num, by norm_num, by norm_num, by norm_num⟩
  norm_num [Quad.corners, cellQuad, Vertex.init, PositionComponent.Rotate,
    PositionComponent.RelativeLocation, fl32_ofNat, fl32_zero, fl32_one, fl32_neg]

/-! ## Theorems: images -/

theorem mapFind_append_of_some {κ β : Type} [DecidableEq κ] (m m2 : List (κ × β)) (k : κ) (v : β)
    (h : mapFind m k = some v) : mapFind (m ++ m2) k = some v := by
  induction m with
  | nil => simp [mapFind] at h
  | cons kv rest ih =>
    obtain ⟨k', v'⟩ := kv
    by_cases hk : k' = k
    · simp only [mapFind, hk, if_true] at h
      simp [mapFind, hk, h]
    · simp only [mapFind, hk, if_false] at h
      simp [mapFind, hk, ih h]

/-- The frame advance keeps the clip map and the active clip name. -/
theorem advance_names (clip : Animation2D) (dt : ℚ) (a : AnimationComponent) :
    (AnimationSystem.advance clip dt a).animations = a.animations ∧
    (AnimationSystem.advance clip dt a).activeAnimation = a.activeAnimation := by
  unfold AnimationSystem.advance
  simp only []
  split_ifs <;> exact ⟨rfl, rfl⟩

/-- The frame advance keeps the active cell inside a well-shaped clip. -/
theorem advance_inClip (clip : Animation2D) (dt : ℚ) (a : AnimationComponent)
    (hshape : clip.WellShaped) (hin : a.InClip clip) :
    (AnimationSystem.advance clip dt a).InClip clip := by
  obtain ⟨hrows, hcols⟩ := hshape
  obtain ⟨ax, ay, nm, anims, mt, ps, lt, sx, sy, fx, fy⟩ := a
  obtain ⟨hy0, hy1, hx0, hx1⟩ := hin
  simp only at hy0 hy1 hx0 hx1
  unfold AnimationSystem.advance
  simp only []
  by_cases hs : clip.speed < lt + dt
  · simp only [hs, if_true]
    by_cases hx : ax + 1 < clip.rowsToCols ay
    · simp only [hx, if_true]
      exact ⟨hy0, hy1, by show (0 : Int) ≤ ax + 1; omega, hx⟩
    · simp only [hx, if_false]
      by_cases hy : ay - 1 ≥ 0
      · have hpos : ay > 0 := by omega
        have hc := hcols (ay - 1) hy (by omega)
        simp only [hpos, or_true, if_true, hy]
        exact ⟨hy, by show ay - 1 < clip.rows; omega, le_refl _,
          by show (0 : Int) < clip.rowsToCols (ay - 1); omega⟩
      · have hzero : ay = 0 := by omega
        subst hzero
        by_cases hl : clip.loop = true
        · have hc := hcols (clip.rows - 1) (by omega) (by omega)
          simp only [hl, true_or, if_true, hy, if_false]
          exact ⟨by show (0 : Int) ≤ clip.rows - 1; omega,
            by show clip.rows - 1 < clip.rows; omega, le_refl _,
            by show (0 : Int) < clip.rowsToCols (clip.rows - 1); omega⟩
        · have hnp : ¬ ((0 : Int) > 0) := by omega
          simp only [hl, hnp, or_self, if_false, hy]
          exact ⟨hy0, hy1, hx0, hx1⟩
  · simp only [hs, if_false]
    exact ⟨hy0, hy1, hx0, hx1⟩

/-- C26: for clips with at least one row and at least one column in every row,
the active cell is a cell of the active clip (0 ≤ row < rows and
0 ≤ column < cols(row)) after construction with a non-null clip, and this is
preserved by every tick of `AnimationSystem::Update` on an eligible component
and by every call of `SetAnimation`, which completes. -/
theorem animation_cell_invariant (clips : AnimPtr → Animation2D) :
    (∀ (pos : CompPtr) (idle : AnimPtr) (name : String) (mapTex : TexPtr) (sx sy : ℚ)
        (fx fy : Bool), (clips idle).WellShaped →
      ∃ a, AnimationComponent.create clips pos (some idle) name mapTex sx sy fx fy = some a ∧
        a.CellValid clips) ∧
    (∀ (w : World) (a : CompPtr) (activeScene : Int) (dt : ℚ),
      w.animation2D = clips → eligible w a activeScene = true →
      (∀ ap, mapFind (w.animation a).animations (w.animation a).activeAnimation = some (some ap) →
        (clips ap).WellShaped) →
      (w.animation a).CellValid clips →
      ∃ w1, updateLoop (AnimationSystem.body dt) activeScene [a] w = some w1 ∧
        (w1.animation a).CellValid clips) ∧
    (∀ (a : AnimationComponent) (s : String),
      (∀ ap, mapFind a.animations s = some (some ap) → (clips ap).WellShaped) →
      a.CellValid clips →
      ∃ a1, a.SetAnimation clips s = some a1 ∧ a1.CellValid clips) := by
  refine ⟨?_, ?_, ?_⟩
  · intro pos idle name mapTex sx sy fx fy hshape
    obtain ⟨hrows, hcols⟩ := hshape
    have hc := hcols ((clips idle).rows - 1) (by omega) (by omega)
    refine ⟨{ activeX := 0, activeY := (clips idle).rows - 1, activeAnimation := name,
              animations := [(name, some idle)], mapTex := mapTex, pos := pos, lastTick := 0,
              scaleX := sx, scaleY := sy, flippedX := fx, flippedY := fy }, ?_, idle, ?_, ?_⟩
    · simp [AnimationComponent.create, mapEmplace, mapIndex, mapFind]
    · simp [mapFind]
    · exact ⟨by show (0 : Int) ≤ (clips idle).rows - 1; omega,
        by show (clips idle).rows - 1 < (clips idle).rows; omega, le_refl _,
        by show (0 : Int) < (clips idle).rowsToCols ((clips idle).rows - 1); omega⟩
  · intro w a activeScene dt hclips helig hshape hvalid
    obtain ⟨ap, hfind, hin⟩ := hvalid
    obtain ⟨w1, hb, hadv, _⟩ := AnimationSystem_body_advance dt w a ap hfind
    refine ⟨w1, by rw [updateLoop_singleton _ _ _ _ helig]; exact hb, ap, ?_, ?_⟩
    · rw [hadv, (advance_names _ _ _).1, (advance_names _ _ _).2]
      exact hfind
    · rw [hadv, hclips]
      exact advance_inClip (clips ap) dt (w.animation a) (hshape ap hfind) hin
  · intro a s hshape hvalid
    obtain ⟨ap0, hfind0, hin0⟩ := hvalid
    cases hs : mapFind a.animations s with
    | none =>
      rw [SetAnimation_absent clips a s hs]
      exact ⟨_, rfl, ap0, mapFind_append_of_some _ _ _ _ hfind0, hin0⟩
    | some v =>
      cases v with
      | none =>
        refine ⟨{ a with animations := a.animations }, ?_, ap0, hfind0, hin0⟩
        simp [AnimationComponent.SetAnimation, mapIndex_of_some a.animations s none hs]
      | some ap =>
        obtain ⟨hrows, hcols⟩ := hshape ap hs
        have hc := hcols ((clips ap).rows - 1) (by omega) (by omega)
        refine ⟨{ a with animations := a.animations, activeAnimation := s, activeX := 0,
                         activeY := (clips ap).rows - 1, lastTick := 0 }, ?_, ap, hs, ?_⟩
        · simp [AnimationComponent.SetAnimation, mapIndex_of_some a.animations s (some ap) hs]
        · exact ⟨by show (0 : Int) ≤ (clips ap).rows - 1; omega,
            by show (clips ap).rows - 1 < (clips ap).rows; omega, le_refl _,
            by show (0 : Int) < (clips ap).rowsToCols ((clips ap).rows - 1); omega⟩

/-- Witness for C26: the looping clip of one row with four columns is well
shaped; in the example world the component 31 at cell (0, 0) of that kind of
clip is constructed inside it and stays inside it under a tick of 0.2, and `SetAnimation("idle")` on the
component at cell (3, 0) leaves it at a cell of the clip. -/
theorem animation_cell_invariant_witness :
    (∃ a, AnimationComponent.create exampleWorld.animation2D 10 (some 0) "idle" 0 1 1 false false
        = some a ∧ a.CellValid exampleWorld.animation2D) ∧
    (∃ w1, updateLoop (AnimationSystem.body (1 / 5)) 7 [31] exampleWorld = some w1 ∧
      (w1.animation 31).CellValid exampleWorld.animation2D) ∧
    (∃ a1, (idleAnimation 3 0 0).SetAnimation exampleWorld.animation2D "idle" = some a1 ∧
      a1.CellValid exampleWorld.animation2D) :=
  ⟨(animation_cell_invariant exampleWorld.animation2D).1 10 0 "idle" 0 1 1 false false
      ⟨show (1 : Int) ≤ 1 from by decide, fun _ _ _ => show (1 : Int) ≤ 4 from by decide⟩,
   (animation_cell_invariant exampleWorld.animation2D).2.1 exampleWorld 31 7 (1 / 5) rfl
      (by decide)
      (fun _ _ => ⟨show (1 : Int) ≤ 1 from by decide, fun _ _ _ => show (1 : Int) ≤ 4 from by decide⟩)
      ⟨0, by decide, by decide, by decide, by decide, by decide⟩,
   (animation_cell_invariant exampleWorld.animation2D).2.2 (idleAnimation 3 0 0) "idle"
      (fun _ _ => ⟨show (1 : Int) ≤ 1 from by decide, fun _ _ _ => show (1 : Int) ≤ 4 from by decide⟩)
      ⟨0, by decide, by decide, by decide, by decide, by decide⟩⟩

/-! ## Theorems: texture units at the moment of a flush -/

theorem boundAfter_append (a b : List GLCall) :
    ∀ st, boundAfter (a ++ b) st = boundAfter b (boundAfter a st) := by
  induction a with
  | nil => intro st; rfl
  | cons c rest ih =>
    intro st
    cases c with
    | bindTexture u t => exact ih (bindUnit st u t)
    | drawElements n => exact ih st

theorem drawSnapshots_append (a b : List GLCall) :
    ∀ st, drawSnapshots (a ++ b) st = drawSnapshots a st ++ drawSnapshots b (boundAfter a st) := by
  induction a with
  | nil => intro st; rfl
  | cons c rest ih =>
    intro st
    cases c with
    | bindTexture u t => exact ih (bindUnit st u t)
    | drawElements n =>
      show (n, st) :: drawSnapshots (rest ++ b) st = _
      rw [ih st]
      rfl

/-- The calls issued by the loop of `sendToGL` are appended to those issued
before it. -/
theorem sendToGLLoop_acc (M : Nat) (batches : List Batch) :
    ∀ (ids : List Nat) (cb u : Nat) (calls : List GLCall),
      sendToGLLoop M batches ids cb u calls =
        (sendToGLLoop M batches ids cb u []).map (fun p => (p.1, calls ++ p.2)) := by
  intro ids
  induction ids with
  | nil =>
    intro cb u calls
    simp [sendToGLLoop]
  | cons t rest ih =>
    intro cb u calls
    simp only [sendToGLLoop]
    split_ifs with hfull
    · cases hb : batches[cb]? with
      | none => rfl
      | some batch =>
        simp only []
        rw [ih (cb + 1) 0 (calls ++ [GLCall.bindTexture u t, Renderer.flush batch]),
          ih (cb + 1) 0 ([] ++ [GLCall.bindTexture u t, Renderer.flush batch])]
        cases sendToGLLoop M batches rest (cb + 1) 0 [] with
        | none => rfl
        | some p => simp
    · rw [ih cb (u + 1) (calls ++ [GLCall.bindTexture u t]),
        ih cb (u + 1) ([] ++ [GLCall.bindTexture u t])]
      cases sendToGLLoop M batches rest cb (u + 1) [] with
      | none => rfl
      | some p => simp

/-- The loop of `sendToGL`, started at batch `cb` and unit `u` with the units
in state `st`: the number of flushes it makes, the batch and the bindings of
each flush, and the bindings it leaves for the flush after the loop. -/
theorem sendToGLLoop_snapshots (M : Nat) (batches : List Batch) :
    ∀ (ids : List Nat) (cb u : Nat) (st : Nat → Option Nat) (cb' : Nat) (tr : List GLCall),
      u < M → sendToGLLoop M batches ids cb u [] = some (cb', tr) →
      cb' = cb + (drawSnapshots tr st).length ∧
      (u + ids.length) / M = (drawSnapshots tr st).length ∧
      (∀ k t, ids[k]? = some t → (u + k) / M < (drawSnapshots tr st).length →
        ∃ b snap, batches[cb + (u + k) / M]? = some b ∧
          (drawSnapshots tr st)[(u + k) / M]? = some (b.quadIndex * 6, snap) ∧
          snap ((u + k) % M) = some t) ∧
      (∀ c snap, (drawSnapshots tr st)[0]? = some (c, snap) →
        (∃ b, batches[cb]? = some b ∧ c = b.quadIndex * 6) ∧ ∀ v, v < u → snap v = st v) ∧
      (∀ k t, ids[k]? = some t → (u + k) / M = (drawSnapshots tr st).length →
        boundAfter tr st ((u + k) % M) = some t) ∧
      ((drawSnapshots tr st).length = 0 → ∀ v, v < u → boundAfter tr st v = st v) := by
  intro ids
  induction ids with
  | nil =>
    intro cb u st cb' tr hu h
    simp only [sendToGLLoop, Option.some.injEq, Prod.mk.injEq] at h
    obtain ⟨h1, h2⟩ := h
    subst h1 h2
    refine ⟨rfl, ?_, ?_, ?_, ?_, ?_⟩
    · simp [drawSnapshots, Nat.div_eq_of_lt hu]
    · intro k t hk; simp at hk
    · intro c snap hs; simp [drawSnapshots] at hs
    · intro k t hk; simp at hk
    · intro _ v _; rfl
  | cons t rest ih =>
    intro cb u st cb' tr hu h
    simp only [sendToGLLoop] at h
    have hmodu : u % M = u := Nat.mod_eq_of_lt hu
    have hdivu : u / M = 0 := Nat.div_eq_of_lt hu
    by_cases hfull : (u : Int) ≥ (M : Int) - 1
    · have hueq : u + 1 = M := by omega
      have hMpos : 0 < M := by omega
      rw [if_pos hfull] at h
      cases hb : batches[cb]? with
      | none => rw [hb] at h; simp at h
      | some batch =>
        rw [hb] at h
        simp only [] at h
        rw [sendToGLLoop_acc] at h
        cases hrec : sendToGLLoop M batches rest (cb + 1) 0 [] with
        | none => rw [hrec] at h; simp at h
        | some p =>
          obtain ⟨cb1, tr1⟩ := p
          rw [hrec] at h
          simp only [Option.map_some', Option.some.injEq, Prod.mk.injEq, List.nil_append] at h
          obtain ⟨h1, h2⟩ := h
          subst h1 h2
          obtain ⟨iA, iF, iB, iC, iD, iE⟩ :=
            ih (cb + 1) 0 (bindUnit st u t) cb1 tr1 hMpos hrec
          have hsn : drawSnapshots ([GLCall.bindTexture u t, Renderer.flush batch] ++ tr1) st
              = (batch.quadIndex * 6, bindUnit st u t) :: drawSnapshots tr1 (bindUnit st u t) := rfl
          have hba : boundAfter ([GLCall.bindTexture u t, Renderer.flush batch] ++ tr1) st
              = boundAfter tr1 (bindUnit st u t) := rfl
          have harith : ∀ k : Nat, (u + (k + 1)) / M = (0 + k) / M + 1 ∧
              (u + (k + 1)) % M = (0 + k) % M := by
            intro k
            have e : u + (k + 1) = (0 + k) + M := by omega
            rw [e]
            exact ⟨Nat.add_div_right _ hMpos, Nat.add_mod_right _ _⟩
          rw [hsn, hba]
          simp only [List.length_cons]
          refine ⟨by omega, ?_, ?_, ?_, ?_, ?_⟩
          · have e : u + (rest.length + 1) = (0 + rest.length) + M := by omega
            rw [e, Nat.add_div_right _ hMpos, iF]
          · intro k t' hk hlt
            cases k with
            | zero =>
              simp only [List.getElem?_cons_zero, Option.some.injEq] at hk
              subst hk
              refine ⟨batch, bindUnit st u t, ?_, ?_, ?_⟩
              · simp only [Nat.add_zero, hdivu]; exact hb
              · simp only [Nat.add_zero, hdivu, List.getElem?_cons_zero]
              · simp only [Nat.add_zero, hmodu, bindUnit, if_true]
            | succ k =>
              simp only [List.getElem?_cons_succ] at hk
              obtain ⟨ha1, ha2⟩ := harith k
              rw [ha1] at hlt
              obtain ⟨b, snap, e1, e2, e3⟩ := iB k t' hk (by omega)
              refine ⟨b, snap, ?_, ?_, ?_⟩
              · rw [ha1, ← e1]; congr 1; omega
              · rw [ha1, List.getElem?_cons_succ]; exact e2
              · rw [ha2]; exact e3
          · intro c snap hs
            simp only [List.getElem?_cons_zero, Option.some.injEq, Prod.mk.injEq] at hs
            obtain ⟨hs1, hs2⟩ := hs
            subst hs1 hs2
            refine ⟨⟨batch, rfl, rfl⟩, ?_⟩
            intro v hv
            have hne : ¬ v = u := by omega
            simp only [bindUnit, hne, if_false]
          · intro k t' hk heq
            cases k with
            | zero =>
              simp only [Nat.add_zero, hdivu] at heq
              omega
            | succ k =>
              simp only [List.getElem?_cons_succ] at hk
              obtain ⟨ha1, ha2⟩ := harith k
              rw [ha1] at heq
              rw [ha2]
              exact iD k t' hk (by omega)
          · intro h0
            omega
    · have hlt1 : u + 1 < M := by omega
      rw [if_neg hfull] at h
      rw [sendToGLLoop_acc] at h
      cases hrec : sendToGLLoop M batches rest cb (u + 1) [] with
      | none => rw [hrec] at h; simp at h
      | some p =>
        obtain ⟨cb1, tr1⟩ := p
        rw [hrec] at h
        simp only [Option.map_some', Option.some.injEq, Prod.mk.injEq, List.nil_append] at h
        obtain ⟨h1, h2⟩ := h
        subst h1 h2
        obtain ⟨iA, iF, iB, iC, iD, iE⟩ :=
          ih cb (u + 1) (bindUnit st u t) cb1 tr1 hlt1 hrec
        have hsn : drawSnapshots ([GLCall.bindTexture u t] ++ tr1) st
            = drawSnapshots tr1 (bindUnit st u t) := rfl
        have hba : boundAfter ([GLCall.bindTexture u t] ++ tr1) st
            = boundAfter tr1 (bindUnit st u t) := rfl
        have harith : ∀ k : Nat, u + (k + 1) = u + 1 + k := by intro k; omega
        have hself : bindUnit st u t u = some t := by simp [bindUnit]
        have hother : ∀ v, v < u → bindUnit st u t v = st v := by
          intro v hv
          have hne : ¬ v = u := by omega
          simp only [bindUnit, hne, if_false]
        rw [hsn, hba]
        refine ⟨iA, ?_, ?_, ?_, ?_, ?_⟩
        · rw [← iF]; congr 1; simp only [List.length_cons]; omega
        · intro k t' hk hlt
          cases k with
          | zero =>
            simp only [List.getElem?_cons_zero, Option.some.injEq] at hk
            subst hk
            simp only [Nat.add_zero, hdivu, hmodu] at hlt ⊢
            cases hfirst : (drawSnapshots tr1 (bindUnit st u t))[0]? with
            | none =>
              rw [List.getElem?_eq_none_iff] at hfirst
              omega
            | some cs =>
              obtain ⟨c, snap⟩ := cs
              obtain ⟨⟨b, e1, e2⟩, e3⟩ := iC c snap hfirst
              refine ⟨b, snap, e1, by rw [e2], ?_⟩
              rw [e3 u (by omega)]
              exact hself
          | succ k =>
            simp only [List.getElem?_cons_succ] at hk
            rw [harith k] at hlt ⊢
            exact iB k t' hk hlt
        · intro c snap hs
          obtain ⟨e1, e2⟩ := iC c snap hs
          refine ⟨e1, ?_⟩
          intro v hv
          rw [e2 v (by omega)]
          exact hother v hv
        · intro k t' hk heq
          cases k with
          | zero =>
            simp only [List.getElem?_cons_zero, Option.some.injEq] at hk
            subst hk
            simp only [Nat.add_zero, hdivu, hmodu] at heq ⊢
            rw [iE heq.symm u (by omega)]
            exact hself
          | succ k =>
            simp only [List.getElem?_cons_succ] at hk
            rw [harith k] at heq ⊢
            exact iD k t' hk heq
        · intro h0 v hv
          rw [iE h0 v (by omega)]
          exact hother v hv

/-- The loop of `sendToGL` completes when the batches it flushes exist, and
leaves `currentBatch` advanced by the number of flushes. -/
theorem sendToGLLoop_completes (M : Nat) (batches : List Batch) :
    ∀ (ids : List Nat) (cb u : Nat) (calls : List GLCall),
      u < M → cb + (u + ids.length) / M ≤ batches.length →
      ∃ tr, sendToGLLoop M batches ids cb u calls = some (cb + (u + ids.length) / M, tr) := by
  intro ids
  induction ids with
  | nil =>
    intro cb u calls hu _
    exact ⟨calls, by simp [sendToGLLoop, Nat.div_eq_of_lt hu]⟩
  | cons t rest ih =>
    intro cb u calls hu hlen
    simp only [sendToGLLoop]
    by_cases hfull : (u : Int) ≥ (M : Int) - 1
    · have hueq : u + 1 = M := by omega
      have hMpos : 0 < M := by omega
      have e : u + (t :: rest).length = (0 + rest.length) + M := by
        simp only [List.length_cons]; omega
      rw [e, Nat.add_div_right _ hMpos] at hlen ⊢
      have hcb : cb < batches.length :=
        Nat.lt_of_lt_of_le (Nat.lt_of_lt_of_le (Nat.lt_succ_self cb)
          (Nat.succ_le_succ (Nat.le_add_right cb _))) hlen
      rw [if_pos hfull, List.getElem?_eq_getElem hcb]
      simp only []
      obtain ⟨tr, htr⟩ := ih (cb + 1) 0
        (calls ++ [GLCall.bindTexture u t, Renderer.flush batches[cb]]) hMpos
        (by rw [Nat.add_right_comm]; exact hlen)
      refine ⟨tr, ?_⟩
      rw [htr, Nat.add_right_comm]
      rfl
    · have hlt1 : u + 1 < M := by omega
      have e : u + (t :: rest).length = (u + 1) + rest.length := by
        simp only [List.length_cons]; omega
      rw [e] at hlen ⊢
      rw [if_neg hfull]
      exact ih cb (u + 1) (calls ++ [GLCall.bindTexture u t]) hlt1 hlen

/-- For a positive `M`, `sendToGL` completes when the batches up to
number `n / M` exist (`n` the number of bound textures); and whenever it
completes, for every slot `i` of the list of bound textures the draw call number
`i / M` (counting from 0) is the flush of batch `i / M`, and at the moment of
that draw call texture unit `i mod M` is bound to the texture at slot `i`. So a
texture that `prepareQuad` resolves to location `loc`, for which it writes
batch index `loc / M` and unit `loc mod M` into the quad, is bound to that unit
when that batch is drawn. -/
theorem sendToGL_binds_at_flush (M : Nat) (r : Renderer) (init : Nat → Option Nat)
    (hM : 1 ≤ M) :
    (r.textureIDs.length / M < r.batches.length → ∃ calls, r.sendToGL M = some calls) ∧
    (∀ calls, r.sendToGL M = some calls →
      (∀ i t, r.textureIDs[i]? = some t →
        ∃ b snap, r.batches[i / M]? = some b ∧
          (drawSnapshots calls init)[i / M]? = some (b.quadIndex * 6, snap) ∧
          snap (i % M) = some t) ∧
      (∀ t, t ∈ r.textureIDs →
        (resolveTexture r.textureIDs t).2 = r.textureIDs ∧
        ∃ b snap, r.batches[(resolveTexture r.textureIDs t).1 / M]? = some b ∧
          (drawSnapshots calls init)[(resolveTexture r.textureIDs t).1 / M]?
            = some (b.quadIndex * 6, snap) ∧
          snap ((resolveTexture r.textureIDs t).1 % M) = some t)) := by
  refine ⟨?_, ?_⟩
  · intro hlen
    obtain ⟨tr, htr⟩ := sendToGLLoop_completes M r.batches r.textureIDs 0 0 [] (by omega)
      (by simp only [Nat.zero_add]; omega)
    simp only [Nat.zero_add] at htr
    simp only [Renderer.sendToGL, htr, List.getElem?_eq_getElem hlen]
    exact ⟨_, rfl⟩
  intro calls h
  have hslots : ∀ i t, r.textureIDs[i]? = some t →
      ∃ b snap, r.batches[i / M]? = some b ∧
        (drawSnapshots calls init)[i / M]? = some (b.quadIndex * 6, snap) ∧
        snap (i % M) = some t := by
    simp only [Renderer.sendToGL] at h
    cases hloop : sendToGLLoop M r.batches r.textureIDs 0 0 [] with
    | none => rw [hloop] at h; simp at h
    | some p =>
      obtain ⟨cb1, tr⟩ := p
      rw [hloop] at h
      simp only [] at h
      cases hb : r.batches[cb1]? with
      | none => rw [hb] at h; simp at h
      | some batch =>
        rw [hb] at h
        simp only [Option.some.injEq] at h
        subst h
        obtain ⟨iA, iF, iB, _, iD, _⟩ :=
          sendToGLLoop_snapshots M r.batches r.textureIDs 0 0 init cb1 tr (by omega) hloop
        have hsn : drawSnapshots (tr ++ [Renderer.flush batch]) init
            = drawSnapshots tr init ++ [(batch.quadIndex * 6, boundAfter tr init)] := by
          rw [drawSnapshots_append]
          rfl
        intro i t hi
        have hilt : i < r.textureIDs.length := (List.getElem?_eq_some.mp hi).1
        have hle : i / M ≤ (drawSnapshots tr init).length := by
          rw [← iF]
          exact Nat.div_le_div_right (by omega)
        rw [hsn]
        rcases Nat.lt_or_eq_of_le hle with hlt | heq
        · obtain ⟨b, snap, e1, e2, e3⟩ := iB i t hi (by simpa using hlt)
          simp only [Nat.zero_add] at e1 e2 e3
          exact ⟨b, snap, e1, by rw [List.getElem?_append_left hlt]; exact e2, e3⟩
        · have e3 := iD i t hi (by simpa using heq)
          simp only [Nat.zero_add] at e3 iA
          refine ⟨batch, boundAfter tr init, ?_, ?_, e3⟩
          · rw [heq, ← iA]; exact hb
          · rw [heq, List.getElem?_append_right (le_refl _)]
            simp
  refine ⟨hslots, ?_⟩
  intro t ht
  rw [resolveTexture_of_mem r.textureIDs t ht]
  exact ⟨rfl, hslots (stdFind r.textureIDs t) t (stdFind_getElem? r.textureIDs t ht)⟩

/-- A renderer with the three textures 5, 6, 7 bound and one
batch, with 32 textures per batch: the one draw call finds texture 7 on unit 2.
And with 2 textures per batch and two batches: the second draw call, the flush
of batch 1, finds texture 7 on unit 0. -/
theorem sendToGL_binds_at_flush_witness :
    (∃ calls, Renderer.sendToGL 32 ⟨[5, 6, 7], 0, 5, [Batch.empty]⟩ = some calls ∧
      ∃ b snap, [Batch.empty][2 / 32]? = some b ∧
        (drawSnapshots calls (fun _ => none))[2 / 32]? = some (b.quadIndex * 6, snap) ∧
        snap (2 % 32) = some 7) ∧
    (∃ calls, Renderer.sendToGL 2 ⟨[5, 6, 7], 0, 5, [Batch.empty, Batch.empty]⟩ = some calls ∧
      ∃ b snap, [Batch.empty, Batch.empty][2 / 2]? = some b ∧
        (drawSnapshots calls (fun _ => none))[2 / 2]? = some (b.quadIndex * 6, snap) ∧
        snap (2 % 2) = some 7) :=
  ⟨match (sendToGL_binds_at_flush 32 ⟨[5, 6, 7], 0, 5, [Batch.empty]⟩ (fun _ => none)
      (by decide)).1 (by decide) with
    | ⟨calls, hc⟩ =>
      ⟨calls, hc, ((sendToGL_binds_at_flush 32 ⟨[5, 6, 7], 0, 5, [Batch.empty]⟩ (fun _ => none)
        (by decide)).2 calls hc).1 2 7 rfl⟩,
   match (sendToGL_binds_at_flush 2 ⟨[5, 6, 7], 0, 5, [Batch.empty, Batch.empty]⟩ (fun _ => none)
      (by decide)).1 (by decide) with
    | ⟨calls, hc⟩ =>
      ⟨calls, hc, ((sendToGL_binds_at_flush 2 ⟨[5, 6, 7], 0, 5, [Batch.empty, Batch.empty]⟩
        (fun _ => none) (by decide)).2 calls hc).1 2 7 rfl⟩⟩

/-! ## Theorems: the frame of the ECS -/

theorem registerInBlocks_signature (id : Int) (c : CompPtr) :
    ∀ blocks : List ComponentBlock,
      (registerInBlocks id c blocks).map ComponentBlock.signature
        = blocks.map ComponentBlock.signature := by
  intro blocks
  induction blocks with
  | nil => rfl
  | cons b bs ih =>
    by_cases hb : b.componentID = id
    · simp [registerInBlocks, hb, ComponentBlock.signature, ComponentBlock.AddComponent,
        System.AddComponent]
    · simp only [registerInBlocks, hb, if_false, List.map_cons, ih]

/-- A registration keeps the classes and type ids of the blocks, the active
scene, the round and the pending entities. -/
theorem World_RegisterComponent_frame (st : World × ECS) (c : CompPtr) (e : EntityPtr) :
    (World.RegisterComponent st c e).2.componentBlocks.map ComponentBlock.signature
      = st.2.componentBlocks.map ComponentBlock.signature ∧
    (World.RegisterComponent st c e).2.activeScene = st.2.activeScene ∧
    (World.RegisterComponent st c e).2.round = st.2.round ∧
    (World.RegisterComponent st c e).2.dyingEntities = st.2.dyingEntities :=
  ⟨registerInBlocks_signature _ _ _, rfl, rfl, rfl⟩

/-- The opening of `ECS::Update` keeps the classes and type ids of the blocks,
the active scene and the pending entities, and adds one to the round. -/
theorem beginFrame_frame (boot : Bootstrap) (st st1 : World × ECS)
    (h : ECS.beginFrame boot st = some st1) :
    st1.2.componentBlocks.map ComponentBlock.signature
      = st.2.componentBlocks.map ComponentBlock.signature ∧
    st1.2.activeScene = st.2.activeScene ∧ st1.2.round = st.2.round + 1 ∧
    st1.2.dyingEntities = st.2.dyingEntities := by
  unfold ECS.beginFrame at h
  simp only [] at h
  by_cases hr : st.2.round + 1 = 1
  · rw [if_pos hr] at h
    unfold ECS.bootstrap at h
    simp only [] at h
    split at h
    · simp only [Option.some.injEq] at h
      subst h
      obtain ⟨a1, a2, a3, a4⟩ := World_RegisterComponent_frame
        (ImageComponent.construct (World.RegisterComponent
          (StaticSpriteComponent.construct _ boot.sprite boot.entity true _ _ _ 1 1 _
            boot.watermarkMap false false false, _) boot.sprite boot.entity).1
          boot.image boot.entity true Anchor.topRight 0 0, _) boot.image boot.entity
      rw [a1, a2, a3, a4]
      obtain ⟨b1, b2, b3, b4⟩ := World_RegisterComponent_frame
        (StaticSpriteComponent.construct _ boot.sprite boot.entity true _ _ _ 1 1 _
            boot.watermarkMap false false false, _) boot.sprite boot.entity
      rw [b1, b2, b3, b4]
      obtain ⟨c1, c2, c3, c4⟩ := World_RegisterComponent_frame
        (PositionComponent.construct _ boot.position boot.entity true true 0 0 100 0, _)
        boot.position boot.entity
      rw [c1, c2, c3, c4]
      exact ⟨rfl, rfl, rfl, rfl⟩
    · simp at h
  · rw [if_neg hr] at h
    simp only [Option.some.injEq] at h
    subst h
    exact ⟨rfl, rfl, rfl, rfl⟩

/-- The frame of `ECS::Update` while every pointer that the systems dereference
is valid. `Init` on an empty ECS leaves exactly seven blocks, with the systems
and type ids input (3), particle (7), image (9), sprite (2), camera follow (6),
animation controller (5), animation (4) in that order, the ids pairwise
distinct. `ECS::Update(dt)` is its opening (round counter, first-frame
bootstrap), which keeps the classes and ids of the blocks and the active scene,
then the loop over the blocks, then `PurgeDeadEntities` on what the loop left;
and the loop over seven blocks is one `Update` call per block, in the order of
the blocks, each with the same active scene and `dt` and on the world the
previous one left. -/
theorem ECS_Update_order (sort : (CompPtr → CompPtr → Bool) → List CompPtr → List CompPtr)
    (boot : Bootstrap) (st : World × ECS) (dt : ℚ) :
    (ECS.empty.Init).componentBlocks =
      [⟨⟨SystemKind.input, []⟩, 3⟩, ⟨⟨SystemKind.particle, []⟩, 7⟩, ⟨⟨SystemKind.image, []⟩, 9⟩,
       ⟨⟨SystemKind.staticRendering, []⟩, 2⟩, ⟨⟨SystemKind.cameraFollow, []⟩, 6⟩,
       ⟨⟨SystemKind.animationController, []⟩, 5⟩, ⟨⟨SystemKind.animation, []⟩, 4⟩] ∧
    (ECS.empty.Init).componentBlocks.map (fun b => b.componentID) =
      [inputComponentID, particleComponentID, imageComponentID, spriteComponentID,
       cameraFollowComponentID, animationControllerComponentID, animationComponentID] ∧
    ((ECS.empty.Init).componentBlocks.map (fun b => b.componentID)).Nodup ∧
    ECS.Update sort boot st dt =
      (ECS.beginFrame boot st).bind (fun st1 =>
        (updateBlocks sort st1.2.activeScene dt st1.2.componentBlocks st1.1).map (fun r =>
          World.PurgeDeadEntities (r.1, { st1.2 with componentBlocks := r.2 }))) ∧
    (∀ st1, ECS.beginFrame boot st = some st1 →
      st1.2.componentBlocks.map ComponentBlock.signature
        = st.2.componentBlocks.map ComponentBlock.signature ∧
      st1.2.activeScene = st.2.activeScene) ∧
    (∀ (w : World) (activeScene : Int) (b1 b2 b3 b4 b5 b6 b7 : ComponentBlock),
      updateBlocks sort activeScene dt [b1, b2, b3, b4, b5, b6, b7] w =
        (b1.Update sort w activeScene dt).bind (fun r1 =>
        (b2.Update sort r1.1 activeScene dt).bind (fun r2 =>
        (b3.Update sort r2.1 activeScene dt).bind (fun r3 =>
        (b4.Update sort r3.1 activeScene dt).bind (fun r4 =>
        (b5.Update sort r4.1 activeScene dt).bind (fun r5 =>
        (b6.Update sort r5.1 activeScene dt).bind (fun r6 =>
        (b7.Update sort r6.1 activeScene dt).bind (fun r7 =>
          some (r7.1, [r1.2, r2.2, r3.2, r4.2, r5.2, r6.2, r7.2]))))))))) := by
  refine ⟨rfl, rfl, by decide, ?_, ?_, ?_⟩
  · unfold ECS.Update
    cases ECS.beginFrame boot st with
    | none => rfl
    | some st1 =>
      simp only [Option.some_bind]
      cases updateBlocks sort st1.2.activeScene dt st1.2.componentBlocks st1.1 <;> rfl
  · intro st1 h
    obtain ⟨h1, h2, _, _⟩ := beginFrame_frame boot st st1 h
    exact ⟨h1, h2⟩
  · intro w activeScene b1 b2 b3 b4 b5 b6 b7
    simp only [updateBlocks]
    cases b1.Update sort w activeScene dt with
    | none => rfl
    | some r1 =>
      simp only [Option.some_bind]
      cases b2.Update sort r1.1 activeScene dt with
      | none => rfl
      | some r2 =>
        simp only [Option.some_bind]
        cases b3.Update sort r2.1 activeScene dt with
        | none => rfl
        | some r3 =>
          simp only [Option.some_bind]
          cases b4.Update sort r3.1 activeScene dt with
          | none => rfl
          | some r4 =>
            simp only [Option.some_bind]
            cases b5.Update sort r4.1 activeScene dt with
            | none => rfl
            | some r5 =>
              simp only [Option.some_bind]
              cases b6.Update sort r5.1 activeScene dt with
              | none => rfl
              | some r6 =>
                simp only [Option.some_bind]
                cases b7.Update sort r6.1 activeScene dt with
                | none => rfl
                | some r7 => rfl

/-- The opening of a first frame whose texture map holds both watermark
textures, on the example world after `Init`: it completes (the bootstrap
registers the sprite 52 and the image 53 with their blocks) and the seven
blocks keep their classes and ids in order. -/
theorem ECS_Update_order_witness :
    ∃ st1, ECS.beginFrame exampleBootstrap (exampleWorld, ECS.empty.Init) = some st1 ∧
      st1.2.componentBlocks.map ComponentBlock.signature =
        [(SystemKind.input, 3), (SystemKind.particle, 7), (SystemKind.image, 9),
         (SystemKind.staticRendering, 2), (SystemKind.cameraFollow, 6),
         (SystemKind.animationController, 5), (SystemKind.animation, 4)] ∧
      st1.2.activeScene = 0 :=
  match Option.isSome_iff_exists.mp
    (by decide : (ECS.beginFrame exampleBootstrap (exampleWorld, ECS.empty.Init)).isSome = true) with
  | ⟨st1, h⟩ =>
    ⟨st1, h, ((ECS_Update_order (fun _ l => l) exampleBootstrap (exampleWorld, ECS.empty.Init) 0).2.2.2.2.1
      st1 h).1, ((ECS_Update_order (fun _ l => l) exampleBootstrap
        (exampleWorld, ECS.empty.Init) 0).2.2.2.2.1 st1 h).2⟩

/-! ## Theorems: rotation, drawn rectangle and culling -/

/-- C38 (failing input): an eligible sprite 2 by 2 at scale 4, at (12, 0, 1)
without rotation, with the viewport from -10 to 10 and the camera at depth 120.
The quad of the world-position overload has its vertices at (8, -4), (16, -4),
(16, 4), (8, 4) and overlaps the viewport, and z < camZ; the viewport test of
`StaticRenderingSystem::Update` uses the unscaled half size 1, fails on
12 - 1 < 10, and no quad is submitted. -/
theorem StaticRendering_culls_scaled_sprite (trig : Trig) :
    eligible scaledSpriteWorld 31 7 = true ∧
    (worldQuad trig (scaledSpriteWorld.position (scaledSpriteWorld.sprite 31).pos)
      (scaledSpriteWorld.sprite 31).width (scaledSpriteWorld.sprite 31).height
      (scaledSpriteWorld.sprite 31).scaleX (scaledSpriteWorld.sprite 31).scaleY
      ⟨1, 1, 1, 1⟩ false false 0).corners = [(8, -4), (16, -4), (16, 4), (8, 4)] ∧
    (worldQuad trig (scaledSpriteWorld.position (scaledSpriteWorld.sprite 31).pos)
      (scaledSpriteWorld.sprite 31).width (scaledSpriteWorld.sprite 31).height
      (scaledSpriteWorld.sprite 31).scaleX (scaledSpriteWorld.sprite 31).scaleY
      ⟨1, 1, 1, 1⟩ false false 0).overlapsViewport scaledSpriteWorld.game ∧
    (scaledSpriteWorld.position (scaledSpriteWorld.sprite 31).pos).z
      < scaledSpriteWorld.game.camZ ∧
    StaticRenderingSystem.visible scaledSpriteWorld 31 = false ∧
    (updateLoop StaticRenderingSystem.body 7 [31] scaledSpriteWorld).map
      (fun w1 => w1.quadCalls) = some [] := by
  have hvis : StaticRenderingSystem.visible scaledSpriteWorld 31 = false := by
    rw [Bool.eq_false_iff, Ne, StaticRenderingSystem_visible_iff]
    norm_num [scaledSpriteWorld, exampleWorld]
  refine ⟨by decide, ?_, ?_, ?_, hvis, ?_⟩
  · norm_num [Quad.corners, worldQuad, Vertex.init, PositionComponent.Rotate,
      PositionComponent.RelativeLocation, scaledSpriteWorld, exampleWorld,
      fl32_ofNat, fl32_zero, fl32_one, fl32_neg]
  · norm_num [Quad.overlapsViewport, worldQuad, Vertex.init, PositionComponent.Rotate,
      PositionComponent.RelativeLocation, scaledSpriteWorld, exampleWorld,
      fl32_ofNat, fl32_zero, fl32_one, fl32_neg]
  · norm_num [scaledSpriteWorld, exampleWorld]
  · rw [updateLoop_singleton _ _ _ _ (by decide), StaticRenderingSystem_body_eq, hvis]
    rfl

/-! ## Theorems: one raster step per tick, and the last frame of a clip that does not loop -/

/-- A tick that brings the accumulator above the frame duration clears the
accumulator and moves the cell by one step of the raster scan. -/
theorem advance_step (clip : Animation2D) (dt : ℚ) (a : AnimationComponent)
    (h : clip.speed < a.lastTick + dt) :
    (AnimationSystem.advance clip dt a).cell = rasterStep clip a.cell ∧
    (AnimationSystem.advance clip dt a).lastTick = 0 := by
  obtain ⟨ax, ay, nm, anims, mt, ps, lt, sx, sy, fx, fy⟩ := a
  simp only at h
  unfold AnimationSystem.advance rasterStep AnimationComponent.cell
  simp only [h, if_true]
  by_cases hx : ax + 1 < clip.rowsToCols ay
  · simp only [hx, if_true, and_self]
  · simp only [hx, if_false]
    by_cases hy : ay > 0
    · have hy1 : ay - 1 ≥ 0 := by omega
      simp only [hy, or_true, if_true, hy1, and_self]
    · have hy1 : ¬ ay - 1 ≥ 0 := by omega
      by_cases hl : clip.loop = true
      · simp only [hy, hl, true_or, if_true, hy1, if_false, and_self]
      · have hl2 : clip.loop = false := by simpa using hl
        simp only [hy, hl2, Bool.false_eq_true, or_self, if_false, hy1, and_self]

/-- On a clip that does not loop, a component at the last valid column of row 0
keeps its cell under the frame advance, for every time step. -/
theorem advance_last_frame (clip : Animation2D) (dt : ℚ) (a : AnimationComponent)
    (hloop : clip.loop = false) (hrow : a.activeY = 0)
    (hcol : a.activeX + 1 = clip.rowsToCols 0) :
    (AnimationSystem.advance clip dt a).cell = a.cell := by
  by_cases h : clip.speed < a.lastTick + dt
  · rw [(advance_step clip dt a h).1]
    have hx : ¬ a.activeX + 1 < clip.rowsToCols a.activeY := by rw [hrow, hcol]; omega
    have hy : ¬ a.activeY > 0 := by omega
    simp [rasterStep, AnimationComponent.cell, hx, hy, hloop]
  · rw [advance_wait _ _ _ h]
    rfl

/-- C34: for a clip that does not loop, an eligible component whose active clip
is in its map and whose cell is the last valid column of row 0 keeps that cell
under every sequence of ticks of `AnimationSystem::Update`, whatever the time
steps; every one of these ticks completes. -/
theorem AnimationSystem_last_frame_absorbing (activeScene : Int) (a : CompPtr) (ap : AnimPtr) :
    ∀ (dts : List ℚ) (w : World),
      eligible w a activeScene = true →
      mapFind (w.animation a).animations (w.animation a).activeAnimation = some (some ap) →
      (w.animation2D ap).loop = false →
      (w.animation a).activeY = 0 →
      (w.animation a).activeX + 1 = (w.animation2D ap).rowsToCols 0 →
      ∃ w1, AnimationSystem.frames activeScene a dts w = some w1 ∧
        (w1.animation a).cell = (w.animation a).cell := by
  intro dts
  induction dts with
  | nil =>
    intro w _ _ _ _ _
    exact ⟨w, rfl, rfl⟩
  | cons dt dts ih =>
    intro w helig hclip hloop hrow hcol
    obtain ⟨w1, hb, hadv, _, _, hclips, _⟩ := AnimationSystem_body_advance dt w a ap hclip
    obtain ⟨hcomp, hent, _⟩ := System_body_frame SystemKind.animation w dt w a w1 hb
    have hcell := advance_last_frame (w.animation2D ap) dt (w.animation a) hloop hrow hcol
    rw [← hadv] at hcell
    have hnames := advance_names (w.animation2D ap) dt (w.animation a)
    rw [← hadv] at hnames
    have helig1 : eligible w1 a activeScene = true := by
      simp only [eligible, hcomp, hent]
      exact helig
    have hcell2 : (w1.animation a).activeX = (w.animation a).activeX ∧
        (w1.animation a).activeY = (w.animation a).activeY := by
      simp only [AnimationComponent.cell, Prod.mk.injEq] at hcell
      exact hcell
    obtain ⟨w2, h2, hc2⟩ := ih w1 helig1 (by rw [hnames.1, hnames.2]; exact hclip)
      (by rw [hclips]; exact hloop) (by rw [hcell2.2]; exact hrow)
      (by rw [hcell2.1, hclips]; exact hcol)
    refine ⟨w2, ?_, by rw [hc2, hcell]⟩
    simp only [AnimationSystem.frames]
    rw [updateLoop_singleton _ _ _ _ helig, hb]
    exact h2

/-- Witness for C34: component 31 of the world whose clip does not loop, at
cell (3, 0) of a row of four columns, keeps that cell over ticks of 0.2, 5 and
0.05. -/
theorem AnimationSystem_last_frame_absorbing_witness :
    ∃ w1, AnimationSystem.frames 7 31 [1 / 5, 5, 1 / 20] lastFrameWorld = some w1 ∧
      (w1.animation 31).cell = (3, 0) :=
  AnimationSystem_last_frame_absorbing 7 31 0 [1 / 5, 5, 1 / 20] lastFrameWorld
    (by decide) (by decide) rfl rfl (by decide)

/-! ## Theorems: the active clip of an animation component -/

/-- `SetAnimation` completes and keeps the active clip name bound to a clip. -/
theorem SetAnimation_bound (clips : AnimPtr → Animation2D) (a : AnimationComponent) (s : String)
    (h : a.Bound) : ∃ a1, a.SetAnimation clips s = some a1 ∧ a1.Bound := by
  obtain ⟨ap0, hfind0⟩ := h
  cases hs : mapFind a.animations s with
  | none =>
    rw [SetAnimation_absent clips a s hs]
    exact ⟨_, rfl, ap0, mapFind_append_of_some _ _ _ _ hfind0⟩
  | some v =>
    cases v with
    | none =>
      refine ⟨{ a with animations := a.animations }, ?_, ap0, hfind0⟩
      simp [AnimationComponent.SetAnimation, mapIndex_of_some a.animations s none hs]
    | some ap =>
      refine ⟨{ a with animations := a.animations, activeAnimation := s, activeX := 0,
                       activeY := (clips ap).rows - 1, lastTick := 0 }, ?_, ap, hs⟩
      simp [AnimationComponent.SetAnimation, mapIndex_of_some a.animations s (some ap) hs]

/-- `AddAnimation` keeps the active clip name bound to a clip. -/
theorem AddAnimation_bound (a : AnimationComponent) (s : String) (anim : Option AnimPtr)
    (h : a.Bound) : (a.AddAnimation s anim).Bound := by
  obtain ⟨ap0, hfind0⟩ := h
  refine ⟨ap0, ?_⟩
  simp only [AnimationComponent.AddAnimation, mapEmplace]
  cases mapFind a.animations s with
  | none => exact mapFind_append_of_some _ _ _ _ hfind0
  | some v => exact hfind0

/-- A run of the loop of `AnimationSystem::Update` over a component whose
active clip name is bound to a clip completes and keeps it bound. -/
theorem AnimationSystem_update_bound (dt : ℚ) (activeScene : Int) (w : World) (a : CompPtr)
    (h : (w.animation a).Bound) :
    ∃ w1, updateLoop (AnimationSystem.body dt) activeScene [a] w = some w1 ∧
      (w1.animation a).Bound := by
  by_cases helig : eligible w a activeScene = true
  · obtain ⟨ap, hfind⟩ := h
    obtain ⟨w1, hb, hadv, _⟩ := AnimationSystem_body_advance dt w a ap hfind
    refine ⟨w1, by rw [updateLoop_singleton _ _ _ _ helig]; exact hb, ap, ?_⟩
    rw [hadv, (advance_names _ _ _).1, (advance_names _ _ _).2]
    exact hfind
  · refine ⟨w, ?_, h⟩
    simp [updateLoop, helig]

/-- C31: an Animation component constructed with a clip that is not null has
its active clip name bound to that clip; and from a component whose active clip
name is bound to a clip, every sequence of `SetAnimation` calls (names known or
not), `AddAnimation` calls (clip null or not) and runs of
`AnimationSystem::Update` completes and leaves the active clip name a key of the
clip map bound to a clip that is not null. -/
theorem active_clip_stays_bound (a : CompPtr) :
    (∀ (clips : AnimPtr → Animation2D) (pos : CompPtr) (idle : AnimPtr) (name : String)
        (mapTex : TexPtr) (sx sy : ℚ) (fx fy : Bool),
      ∃ ac, AnimationComponent.create clips pos (some idle) name mapTex sx sy fx fy = some ac ∧
        ac.Bound) ∧
    (∀ (calls : List AnimationCall) (w : World), (w.animation a).Bound →
      ∃ w1, AnimationCall.runAll a calls w = some w1 ∧ (w1.animation a).Bound) := by
  refine ⟨?_, ?_⟩
  · intro clips pos idle name mapTex sx sy fx fy
    refine ⟨{ activeX := 0, activeY := (clips idle).rows - 1, activeAnimation := name,
              animations := [(name, some idle)], mapTex := mapTex, pos := pos, lastTick := 0,
              scaleX := sx, scaleY := sy, flippedX := fx, flippedY := fy }, ?_, idle, ?_⟩
    · simp [AnimationComponent.create, mapEmplace, mapIndex, mapFind]
    · simp [mapFind]
  · intro calls
    induction calls with
    | nil =>
      intro w h
      exact ⟨w, rfl, h⟩
    | cons call calls ih =>
      intro w h
      have hstep : ∃ w1, call.run a w = some w1 ∧ (w1.animation a).Bound := by
        cases call with
        | setAnimation s =>
          obtain ⟨a1, h1, h2⟩ := SetAnimation_bound w.animation2D (w.animation a) s h
          refine ⟨w.withAnimation a a1, ?_, ?_⟩
          · simp only [AnimationCall.run, h1, Option.map_some']
          · simpa [World.withAnimation] using h2
        | addAnimation s anim =>
          refine ⟨_, rfl, ?_⟩
          simpa [World.withAnimation] using AddAnimation_bound (w.animation a) s anim h
        | update activeScene dt =>
          exact AnimationSystem_update_bound dt activeScene w a h
      obtain ⟨w1, h1, hb1⟩ := hstep
      obtain ⟨w2, h2, hb2⟩ := ih w1 hb1
      exact ⟨w2, by simp only [AnimationCall.runAll, h1]; exact h2, hb2⟩

/-- Witness for C31: component 31 of the example world, whose active clip
"idle" is bound, after `SetAnimation("run")`, `AddAnimation("run", clip 1)`, a
tick of 0.2 and `SetAnimation("idle")`. -/
theorem active_clip_stays_bound_witness :
    ∃ w1, AnimationCall.runAll 31
        [AnimationCall.setAnimation "run", AnimationCall.addAnimation "run" (some 1),
         AnimationCall.update 7 (1 / 5), AnimationCall.setAnimation "idle"] exampleWorld
        = some w1 ∧ (w1.animation 31).Bound :=
  (active_clip_stays_bound 31).2
    [AnimationCall.setAnimation "run", AnimationCall.addAnimation "run" (some 1),
     AnimationCall.update 7 (1 / 5), AnimationCall.setAnimation "idle"] exampleWorld
    ⟨0, by decide⟩

/-- When the clip map has no entry for `s`, `AddAnimation(s, clip)` followed by
`SetAnimation(s)` makes `s` the active clip at cell (0, rows - 1) with
accumulator 0. -/
theorem SetAnimation_after_AddAnimation (clips : AnimPtr → Animation2D) (a : AnimationComponent)
    (s : String) (clip : AnimPtr) (h : mapFind a.animations s = none) :
    (a.AddAnimation s (some clip)).SetAnimation clips s =
      some { a with animations := a.animations ++ [(s, some clip)], activeAnimation := s,
                    activeX := 0, activeY := (clips clip).rows - 1, lastTick := 0 } := by
  have hm : mapEmplace a.animations s (some clip) = a.animations ++ [(s, some clip)] := by
    simp [mapEmplace, h]
  have hf : mapFind (a.animations ++ [(s, some clip)]) s = some (some clip) := by
    rw [mapFind_append_of_none _ _ _ h]
    simp [mapFind]
  simp [AnimationComponent.SetAnimation, AnimationComponent.AddAnimation, hm,
    mapIndex_of_some _ s (some clip) hf]

/-- C32 (failing input): a component constructed with the clip "idle" (clip 0,
one row). `AddAnimation("run", clip 1)` followed by `SetAnimation("run")` makes
"run" the active clip at cell (0, 2), clip 1 having three rows. But when
`SetAnimation("run")` was called before, while "run" was unknown, that call
left the entry ("run", null) in the clip map, `AddAnimation` does not replace
it, and `SetAnimation("run")` afterwards leaves the active clip "idle" at cell
(0, 0). -/
theorem SetAnimation_blocked_by_earlier_call :
    ((AnimationComponent.create twoClips 10 (some 0) "idle" 0 1 1 false false).bind
      (fun a0 => (a0.AddAnimation "run" (some 1)).SetAnimation twoClips "run")).map
        (fun a => (a.activeAnimation, a.cell, a.animations))
      = some ("run", (0, 2), [("idle", some 0), ("run", some 1)]) ∧
    ((AnimationComponent.create twoClips 10 (some 0) "idle" 0 1 1 false false).bind
      (fun a0 => (a0.SetAnimation twoClips "run").bind
        (fun a1 => (a1.AddAnimation "run" (some 1)).SetAnimation twoClips "run"))).map
        (fun a => (a.activeAnimation, a.cell, a.animations))
      = some ("idle", (0, 0), [("idle", some 0), ("run", none)]) := by
  refine ⟨by decide, by decide⟩

/-! ## Theorems: components whose type id has no block -/

theorem registerInBlocks_no_block (id : Int) (c : CompPtr) :
    ∀ blocks : List ComponentBlock, (∀ b ∈ blocks, b.componentID ≠ id) →
      registerInBlocks id c blocks = blocks := by
  intro blocks
  induction blocks with
  | nil => intro _; rfl
  | cons b bs ih =>
    intro h
    have hb : ¬ b.componentID = id := h b (List.mem_cons_self b bs)
    simp only [registerInBlocks, hb, if_false]
    rw [ih (fun b' hb' => h b' (List.mem_cons_of_mem b hb'))]

/-- C37 (counterexample): two Position components, 10 and 12, registered in
turn on entity 1 after `Init`. The second call appends 12 to the component
sequence of the entity, but the type-id map keeps its one entry for the
Position id, bound to 10: 12 is not added to the map. -/
theorem RegisterComponent_keeps_first_map_entry :
    ((ECS.RegisterComponent
        (ECS.RegisterComponent (positionsMemory, ECS.empty.Init) 10 1) 12 1).1.entity 1).components
      = [10, 12] ∧
    ((ECS.RegisterComponent
        (ECS.RegisterComponent (positionsMemory, ECS.empty.Init) 10 1) 12 1).1.entity 1).componentIDMap
      = [(positionComponentID, 10)] ∧
    (ECS.RegisterComponent
        (ECS.RegisterComponent (positionsMemory, ECS.empty.Init) 10 1) 12 1).2
      = ECS.empty.Init := by
  refine ⟨by decide, by decide, by decide⟩

/-- C37 (as amended): for a component `c` whose type id is the id of no block
(the Position id is the id of none of the blocks of `Init`),
`RegisterComponent(c, e)` appends `c` to the component sequence of `e`; adds
the entry from the type id to `c` to the type-id map of `e` when the map has no
entry for that id, and leaves the map as it is otherwise; and leaves the ECS
with every block and every system's collection, the components and the release
logs unchanged, so that `c` is held by a system afterwards only if it was
before. -/
theorem RegisterComponent_without_block (st : Memory × ECS) (c : CompPtr) (e : EntityPtr)
    (hno : ∀ b ∈ st.2.componentBlocks, b.componentID ≠ (st.1.component c).ID) :
    ((ECS.RegisterComponent st c e).1.entity e).components = (st.1.entity e).components ++ [c] ∧
    (mapFind (st.1.entity e).componentIDMap (st.1.component c).ID = none →
      ((ECS.RegisterComponent st c e).1.entity e).componentIDMap
        = (st.1.entity e).componentIDMap ++ [((st.1.component c).ID, c)] ∧
      mapFind ((ECS.RegisterComponent st c e).1.entity e).componentIDMap (st.1.component c).ID
        = some c) ∧
    (mapFind (st.1.entity e).componentIDMap (st.1.component c).ID ≠ none →
      ((ECS.RegisterComponent st c e).1.entity e).componentIDMap
        = (st.1.entity e).componentIDMap) ∧
    (ECS.RegisterComponent st c e).2 = st.2 ∧
    heldComponents (ECS.RegisterComponent st c e).2.componentBlocks
      = heldComponents st.2.componentBlocks ∧
    (ECS.RegisterComponent st c e).1.component = st.1.component ∧
    (ECS.RegisterComponent st c e).1.deletedComponents = st.1.deletedComponents ∧
    (∀ e1, e1 ≠ e → (ECS.RegisterComponent st c e).1.entity e1 = st.1.entity e1) ∧
    (∀ b ∈ ECS.empty.Init.componentBlocks, b.componentID ≠ positionComponentID) := by
  have hblocks : (ECS.RegisterComponent st c e).2 = st.2 := by
    simp only [ECS.RegisterComponent]
    rw [registerInBlocks_no_block _ _ _ hno]
  refine ⟨by simp [ECS.RegisterComponent], ?_, ?_, hblocks, by rw [hblocks], rfl, rfl, ?_,
    by decide⟩
  · intro hnone
    refine ⟨by simp [ECS.RegisterComponent, mapEmplace, hnone], ?_⟩
    simp [ECS.RegisterComponent, mapFind_emplace_of_none _ _ c hnone]
  · intro hsome
    cases hf : mapFind (st.1.entity e).componentIDMap (st.1.component c).ID with
    | none => exact absurd hf hsome
    | some v => simp [ECS.RegisterComponent, mapEmplace, hf]
  · intro e1 hne
    simp [ECS.RegisterComponent, hne]

/-- Witness for C37: the Position component 10 of the bootstrap heap registered
on entity 1 right after `Init`: it enters the component sequence and the
type-id map of the entity, and no system holds a component. -/
theorem RegisterComponent_without_block_witness :
    ((ECS.RegisterComponent (bootstrapMemory, ECS.empty.Init) 10 1).1.entity 1).components
      = [] ++ [10] ∧
    mapFind ((ECS.RegisterComponent (bootstrapMemory, ECS.empty.Init) 10 1).1.entity 1).componentIDMap
      positionComponentID = some 10 ∧
    heldComponents (ECS.RegisterComponent (bootstrapMemory, ECS.empty.Init) 10 1).2.componentBlocks
      = [] :=
  ⟨(RegisterComponent_without_block (bootstrapMemory, ECS.empty.Init) 10 1 (by decide)).1,
   ((RegisterComponent_without_block (bootstrapMemory, ECS.empty.Init) 10 1 (by decide)).2.1
      (by decide)).2,
   (RegisterComponent_without_block (bootstrapMemory, ECS.empty.Init) 10 1
      (by decide)).2.2.2.2.1⟩

/-! ## Theorems: the indices of a draw call -/

/-- C24: for every quad number i below 10000 the index buffer that the
constructor of the Renderer fills holds at the positions 6i to 6i+5 the values
4i, 4i+1, 4i+3, 4i+1, 4i+2, 4i+3; a flush of a batch whose cursor is k is one
draw call of exactly 6k indices; and, the cursor being within the `MAX_QUADS`
quads of the batch, each of these 6k indices is that of a vertex of the first k
quads: the index at position p is one of the four vertices of quad p / 6, so
it is below 4k. -/
theorem flush_draws_first_quads (uninit : Nat → Nat) (quadBuffer : Nat → Quad) (k : Nat)
    (hk : k ≤ MAX_QUADS) :
    (∀ i, i < 10000 →
      Renderer.quadIndices uninit (6 * i + 0) = 4 * i + 0 ∧
      Renderer.quadIndices uninit (6 * i + 1) = 4 * i + 1 ∧
      Renderer.quadIndices uninit (6 * i + 2) = 4 * i + 3 ∧
      Renderer.quadIndices uninit (6 * i + 3) = 4 * i + 1 ∧
      Renderer.quadIndices uninit (6 * i + 4) = 4 * i + 2 ∧
      Renderer.quadIndices uninit (6 * i + 5) = 4 * i + 3) ∧
    Renderer.flush { quadBuffer := quadBuffer, quadIndex := k } = GLCall.drawElements (6 * k) ∧
    (∀ p, p < 6 * k →
      4 * (p / 6) ≤ Renderer.quadIndices uninit p ∧
      Renderer.quadIndices uninit p < 4 * (p / 6) + 4 ∧
      Renderer.quadIndices uninit p < 4 * k) := by
  have hpat : ∀ i, i < MAX_QUADS →
      Renderer.quadIndices uninit (6 * i + 0) = 4 * i + 0 ∧
      Renderer.quadIndices uninit (6 * i + 1) = 4 * i + 1 ∧
      Renderer.quadIndices uninit (6 * i + 2) = 4 * i + 3 ∧
      Renderer.quadIndices uninit (6 * i + 3) = 4 * i + 1 ∧
      Renderer.quadIndices uninit (6 * i + 4) = 4 * i + 2 ∧
      Renderer.quadIndices uninit (6 * i + 5) = 4 * i + 3 := by
    intro i hi
    unfold Renderer.quadIndices
    exact quadIndicesLoop_pattern MAX_QUADS uninit i hi
  have hmax : MAX_QUADS = 10000 := rfl
  refine ⟨fun i hi => hpat i (by omega), ?_, ?_⟩
  · show GLCall.drawElements (k * 6) = GLCall.drawElements (6 * k)
    rw [Nat.mul_comm]
  · intro p hp
    have hi : p / 6 < MAX_QUADS := by omega
    have key : ∀ q m, m < 6 → q < MAX_QUADS →
        4 * q ≤ Renderer.quadIndices uninit (6 * q + m) ∧
        Renderer.quadIndices uninit (6 * q + m) < 4 * q + 4 := by
      intro q m hm hq
      obtain ⟨h0, h1, h2, h3, h4, h5⟩ := hpat q hq
      interval_cases m
      · rw [h0]; omega
      · rw [h1]; omega
      · rw [h2]; omega
      · rw [h3]; omega
      · rw [h4]; omega
      · rw [h5]; omega
    have h := key (p / 6) (p % 6) (Nat.mod_lt _ (by decide)) hi
    rw [Nat.div_add_mod] at h
    have hq : p / 6 < k := by omega
    exact ⟨h.1, h.2, by omega⟩

/-- Witness for C24: a batch with the cursor 2. The flush draws 12 indices, and
the index at position 11, the last one drawn, is 7, a vertex of the second
quad. -/
theorem flush_draws_first_quads_witness :
    Renderer.flush { quadBuffer := fun _ => Quad.zero, quadIndex := 2 }
      = GLCall.drawElements (6 * 2) ∧
    Renderer.quadIndices (fun _ => 0) (6 * 1 + 5) = 4 * 1 + 3 ∧
    Renderer.quadIndices (fun _ => 0) 11 < 4 * 2 :=
  ⟨(flush_draws_first_quads (fun _ => 0) (fun _ => Quad.zero) 2 (by decide)).2.1,
   ((flush_draws_first_quads (fun _ => 0) (fun _ => Quad.zero) 2 (by decide)).1 1
      (by decide)).2.2.2.2.2,
   ((flush_draws_first_quads (fun _ => 0) (fun _ => Quad.zero) 2 (by decide)).2.2 11
      (by decide)).2.2⟩

/-! ## Theorems: bound textures beyond the first batch -/

/-- When `sendToGL` completes, the batch that takes the last bound texture exists. -/
theorem sendToGL_some_batches (M : Nat) (r : Renderer) (hM : 1 ≤ M) (calls : List GLCall)
    (h : r.sendToGL M = some calls) : r.textureIDs.length / M < r.batches.length := by
  unfold Renderer.sendToGL at h
  cases hl : sendToGLLoop M r.batches r.textureIDs 0 0 [] with
  | none => rw [hl] at h; simp at h
  | some p =>
    obtain ⟨cb, tr⟩ := p
    rw [hl] at h
    simp only [] at h
    cases hb : r.batches[cb]? with
    | none => rw [hb] at h; simp at h
    | some b =>
      obtain ⟨h1, h2, _⟩ := sendToGLLoop_snapshots M r.batches r.textureIDs 0 0 (fun _ => none) cb tr
        (by omega) hl
      have hcb : cb = r.textureIDs.length / M := by
        rw [h1, ← h2]
        simp
      have hlt : cb < r.batches.length := by
        by_contra hc
        rw [List.getElem?_eq_none (by omega)] at hb
        simp at hb
      omega

/-- C30 (the code departs from the claim): a renderer holds the one batch that
its constructor makes. `sendToGL` completes exactly when fewer textures are
bound than one batch takes; and for every slot i from `M` on, the batch i / M
in which `prepareQuad` places the quads of that texture does not exist and
`sendToGL` has no defined result, so there is no flush of batch i / M at which
unit i mod M holds the texture of slot i. -/
theorem sendToGL_without_second_batch (M : Nat) (r : Renderer) (hM : 1 ≤ M)
    (hone : r.batches.length = 1) :
    ((∃ calls, r.sendToGL M = some calls) ↔ r.textureIDs.length < M) ∧
    (∀ i t, r.textureIDs[i]? = some t → M ≤ i →
      r.batches[i / M]? = none ∧ r.sendToGL M = none) := by
  have hiff : (∃ calls, r.sendToGL M = some calls) ↔ r.textureIDs.length < M := by
    constructor
    · rintro ⟨calls, h⟩
      have := sendToGL_some_batches M r hM calls h
      rw [hone] at this
      exact (Nat.div_lt_one_iff (by omega)).mp this
    · intro h
      have h0 : r.textureIDs.length / M < r.batches.length := by
        rw [hone, Nat.div_eq_of_lt h]
        omega
      exact (sendToGL_binds_at_flush M r (fun _ => none) hM).1 h0
  refine ⟨hiff, ?_⟩
  intro i t hi hMi
  have hlen : i < r.textureIDs.length := by
    by_contra hc
    rw [List.getElem?_eq_none (by omega)] at hi
    simp at hi
  have hdiv : 1 ≤ i / M := (Nat.one_le_div_iff (by omega)).mpr hMi
  refine ⟨List.getElem?_eq_none (by omega), ?_⟩
  cases hs : r.sendToGL M with
  | none => rfl
  | some calls =>
    have := hiff.mp ⟨calls, hs⟩
    omega

/-- Witness for C30: the renderer as constructed with the textures 0 to 32
bound. The loop of `sendToGL` flushes batch 0, then binds the texture of slot 32
to unit 0 for batch 1, which does not exist: `sendToGL` has no defined result. -/
theorem sendToGL_without_second_batch_witness :
    Renderer.sendToGL MAX_TEXTURES_PER_BATCH
      { Renderer.create 0 with textureIDs := List.range 33 } = none ∧
    (Renderer.create 0).batches[32 / MAX_TEXTURES_PER_BATCH]? = none ∧
    (sendToGLLoop MAX_TEXTURES_PER_BATCH (Renderer.create 0).batches (List.range 33) 0 0 []).map
      (fun p => (p.1, drawCount p.2, (bindings p.2).getLast?)) = some (1, 1, some (0, 32)) :=
  ⟨((sendToGL_without_second_batch MAX_TEXTURES_PER_BATCH
      { Renderer.create 0 with textureIDs := List.range 33 } (by decide) rfl).2 32 32
      (by decide) (by decide)).2,
   ((sendToGL_without_second_batch MAX_TEXTURES_PER_BATCH
      { Renderer.create 0 with textureIDs := List.range 33 } (by decide) rfl).2 32 32
      (by decide) (by decide)).1,
   by decide⟩

/-! ## Theorems: the first frame -/

/-- The opening of the first `ECS::Update`: the watermark entity 50 with its
Position 51, StaticSprite 52 and Image 53; the sprite and the image are in
their blocks, and the `mapTex` of the sprite is the null pointer that
`textureMap["watermarkMap"]` gave. -/
theorem firstFrame_begin (width height : ℚ) :
    ∃ st1, ECS.beginFrame firstFrameBootstrap (firstFrameWorld width height, ECS.empty.Init)
        = some st1 ∧
      st1.2.componentBlocks =
        [⟨⟨SystemKind.input, []⟩, 3⟩, ⟨⟨SystemKind.particle, []⟩, 7⟩,
         ⟨⟨SystemKind.image, [53]⟩, 9⟩, ⟨⟨SystemKind.staticRendering, [52]⟩, 2⟩,
         ⟨⟨SystemKind.cameraFollow, []⟩, 6⟩, ⟨⟨SystemKind.animationController, []⟩, 5⟩,
         ⟨⟨SystemKind.animation, []⟩, 4⟩] ∧
      st1.2.activeScene = 0 ∧
      st1.1.nullMapTex 52 = true ∧
      st1.1.entity 50 = ⟨1, 0, "Watermark", [51, 52, 53], [(1, 51), (2, 52), (9, 53)]⟩ ∧
      st1.1.component 53 = ⟨true, 50, imageComponentID⟩ ∧
      st1.1.component 52 = ⟨true, 50, spriteComponentID⟩ ∧
      st1.1.sprite 52 = ⟨width, height, 1, 1, false, false, false, 0, 0, 51⟩ ∧
      st1.1.position 51 = ⟨true, 0, 0, 100, 0⟩ ∧
      st1.1.image 53 = ⟨Anchor.topRight, 0, 0⟩ ∧
      st1.1.texture = (fun _ => ⟨1, width, height⟩) ∧
      st1.1.game = Game.updateViewport ⟨1280, 960, 0, 0, 120, 1 / 2, 0, 0, 0, 0⟩ := by
  exact ⟨_, rfl, rfl, rfl, rfl, rfl, rfl, rfl, rfl, rfl, rfl, rfl, rfl⟩

/-- The viewport of the first frame: from -320 to 320 and from -240 to 240. -/
theorem firstFrame_viewport :
    (Game.updateViewport ⟨1280, 960, 0, 0, 120, 1 / 2, 0, 0, 0, 0⟩)
      = ⟨1280, 960, 0, 0, 120, 1 / 2, 240, -240, -320, 320⟩ := by
  norm_num [Game.updateViewport]

/-- C21 (failing input): the first `ECS::Update` after `Init`, as main.cpp
makes it: the texture map holds the name "watermark" only, the window is 1280
by 960 at zoom 1/2, and the watermark texture is smaller than twice the
viewport. `Init` has left the seven blocks in the claimed order. The opening of
`Update` stores the null pointer that `textureMap["watermarkMap"]` gives as the
`mapTex` of the watermark sprite. The loop calls the input, particle and image
blocks, in that order; the image block moves the watermark to
(320 - width, 240 - height), inside the viewport. The fourth call, of the
sprite block, finds the watermark sprite eligible and visible and dereferences
its null `mapTex`: it has no defined result, so that the camera-follow,
animation-controller and animation blocks are never called, the pending
entities are never purged, and `ECS::Update` has no defined result. -/
theorem ECS_Update_first_frame_faults
    (sort : (CompPtr → CompPtr → Bool) → List CompPtr → List CompPtr) (width height dt : ℚ)
    (hw0 : 0 < width) (hw1 : width < 1280) (hh0 : 0 < height) (hh1 : height < 960) :
    (ECS.empty.Init).componentBlocks.map ComponentBlock.signature =
      [(SystemKind.input, inputComponentID), (SystemKind.particle, particleComponentID),
       (SystemKind.image, imageComponentID), (SystemKind.staticRendering, spriteComponentID),
       (SystemKind.cameraFollow, cameraFollowComponentID),
       (SystemKind.animationController, animationControllerComponentID),
       (SystemKind.animation, animationComponentID)] ∧
    firstFrameBootstrap.watermark = some 0 ∧ firstFrameBootstrap.watermarkMap = none ∧
    ECS.Update sort firstFrameBootstrap (firstFrameWorld width height, ECS.empty.Init) dt
      = none ∧
    ∃ st1 w3,
      ECS.beginFrame firstFrameBootstrap (firstFrameWorld width height, ECS.empty.Init)
        = some st1 ∧
      st1.2.componentBlocks =
        [⟨⟨SystemKind.input, []⟩, 3⟩, ⟨⟨SystemKind.particle, []⟩, 7⟩,
         ⟨⟨SystemKind.image, [53]⟩, 9⟩, ⟨⟨SystemKind.staticRendering, [52]⟩, 2⟩,
         ⟨⟨SystemKind.cameraFollow, []⟩, 6⟩, ⟨⟨SystemKind.animationController, []⟩, 5⟩,
         ⟨⟨SystemKind.animation, []⟩, 4⟩] ∧
      st1.2.activeScene = 0 ∧
      ComponentBlock.Update sort st1.1 ⟨⟨SystemKind.input, []⟩, 3⟩ 0 dt
        = some (st1.1, ⟨⟨SystemKind.input, []⟩, 3⟩) ∧
      ComponentBlock.Update sort st1.1 ⟨⟨SystemKind.particle, []⟩, 7⟩ 0 dt
        = some (st1.1, ⟨⟨SystemKind.particle, []⟩, 7⟩) ∧
      ComponentBlock.Update sort st1.1 ⟨⟨SystemKind.image, [53]⟩, 9⟩ 0 dt
        = some (w3, ⟨⟨SystemKind.image, [53]⟩, 9⟩) ∧
      (w3.sprite 52).pos = 51 ∧
      ((w3.position 51).x, (w3.position 51).y, (w3.position 51).z)
        = (320 - width, 240 - height, 100) ∧
      eligible w3 52 0 = true ∧ StaticRenderingSystem.visible w3 52 = true ∧
      w3.nullMapTex 52 = true ∧
      ComponentBlock.Update sort w3 ⟨⟨SystemKind.staticRendering, [52]⟩, 2⟩ 0 dt = none ∧
      updateBlocks sort st1.2.activeScene dt st1.2.componentBlocks st1.1 = none := by
  obtain ⟨st1, h0, hblocks, hscene, hnull, hent, hc53, hc52, hsp, hpos, himg, htex, hgame⟩ :=
    firstFrame_begin width height
  rw [firstFrame_viewport] at hgame
  have hb1 : ComponentBlock.Update sort st1.1 ⟨⟨SystemKind.input, []⟩, 3⟩ 0 dt
      = some (st1.1, ⟨⟨SystemKind.input, []⟩, 3⟩) := rfl
  have hb2 : ComponentBlock.Update sort st1.1 ⟨⟨SystemKind.particle, []⟩, 7⟩ 0 dt
      = some (st1.1, ⟨⟨SystemKind.particle, []⟩, 7⟩) := rfl
  have helig53 : eligible st1.1 53 0 = true := by
    simp [eligible, hc53, hent]
  obtain ⟨w3, hw3⟩ : ∃ w3 : World, w3 =
      { st1.1 with
        position := fun c =>
          if c = 51 then
            { st1.1.position 51 with x := 320 - width + 0, y := 240 - height + 0 }
          else st1.1.position c } := ⟨_, rfl⟩
  have himage : ImageSystem.body st1.1 53 = some w3 := by
    rw [hw3]
    simp [ImageSystem.body, hc53, hent, mapFind, positionComponentID, spriteComponentID, himg,
      hsp, htex, hgame]
  have hb3 : ComponentBlock.Update sort st1.1 ⟨⟨SystemKind.image, [53]⟩, 9⟩ 0 dt
      = some (w3, ⟨⟨SystemKind.image, [53]⟩, 9⟩) := by
    simp [ComponentBlock.Update, System.Update, ImageSystem.Update,
      updateLoop_singleton _ _ _ _ helig53, himage]
  have hsp3 : w3.sprite 52 = ⟨width, height, 1, 1, false, false, false, 0, 0, 51⟩ := by
    rw [hw3]; exact hsp
  have hpos3 : w3.position 51 = ⟨true, 320 - width + 0, 240 - height + 0, 100, 0⟩ := by
    rw [hw3]; simp [hpos]
  have hgame3 : w3.game = st1.1.game := by rw [hw3]
  have hnull3 : w3.nullMapTex 52 = true := by rw [hw3]; exact hnull
  have helig52 : eligible w3 52 0 = true := by
    rw [hw3]
    simp [eligible, hc52, hent]
  have hvis : StaticRenderingSystem.visible w3 52 = true := by
    simp only [StaticRenderingSystem.visible, decide_eq_true_eq, hsp3, hgame3, hgame, hpos3]
    refine ⟨by linarith, by linarith, by linarith, by linarith, by norm_num⟩
  have hb4 : ComponentBlock.Update sort w3 ⟨⟨SystemKind.staticRendering, [52]⟩, 2⟩ 0 dt
      = none := by
    have hd : StaticRenderingSystem.derefsNull w3 [52] 0 = true := by
      simp only [StaticRenderingSystem.derefsNull, List.any_cons, List.any_nil, helig52, hvis,
        Bool.or_false, Bool.true_and]
      exact hnull3
    simp only [ComponentBlock.Update, hd, and_self, if_true]
  have hloop : updateBlocks sort st1.2.activeScene dt st1.2.componentBlocks st1.1 = none := by
    rw [hblocks, hscene]
    simp only [updateBlocks, hb1, hb2, hb3, hb4]
  refine ⟨rfl, rfl, rfl, ?_, st1, w3, h0, hblocks, hscene, hb1, hb2, hb3, ?_, ?_, helig52, hvis,
    hnull3, hb4, hloop⟩
  · simp only [ECS.Update, h0, hloop]
  · rw [hsp3]
  · simp [hpos3]

/-- Witness for C21: a watermark texture of 64 by 32. The first `ECS::Update`
has no defined result. -/
theorem ECS_Update_first_frame_faults_witness :
    ECS.Update (fun _ l => l) firstFrameBootstrap (firstFrameWorld 64 32, ECS.empty.Init)
      (1 / 60) = none :=
  (ECS_Update_first_frame_faults (fun _ l => l) 64 32 (1 / 60) (by norm_num) (by norm_num)
    (by norm_num) (by norm_num)).2.2.2.1

/-! ## Theorems: texture coordinates of animated cells -/

/-- Evaluation of `fl64` at a positive number in a binade of normal numbers,
away from a tie. -/
theorem fl64_eval_pos (x : ℚ) (e n : ℤ) (he : -1022 ≤ e) (h1 : 2 ^ e ≤ x) (h2 : x < 2 ^ (e + 1))
    (hlo : (n : ℚ) - 1 / 2 < x / 2 ^ (e - 52)) (hhi : x / 2 ^ (e - 52) < n + 1 / 2) :
    fl64 x = n * 2 ^ (e - 52) := by
  have hpos : 0 < x := lt_of_lt_of_le (zpow_pos (by norm_num) e) h1
  unfold fl64 ulp64
  rw [binade_eq (-1022) x e he (by rwa [abs_of_pos hpos]) (by rwa [abs_of_pos hpos]),
    roundEven_eq _ n (Or.inl (abs_lt.mpr ⟨by linarith, by linarith⟩))]

/-- The local `radians` of `Rotate` for a rotation of 90 degrees is the `float`
nearest to π/2. -/
theorem radians_quarter_turn : PositionComponent.radians 90 = 13176795 / 8388608 := by
  have h1 : fl64 (M_PI / 180) = 5030569068109113 / 288230376151711744 := by
    rw [fl64_eval_pos (M_PI / 180) (-6) 5030569068109113 (by norm_num) (by norm_num [M_PI])
      (by norm_num [M_PI]) (by norm_num [M_PI]) (by norm_num [M_PI])]
    norm_num
  have h2 : fl64 (90 * (5030569068109113 / 288230376151711744))
      = 884279719003555 / 562949953421312 := by
    rw [fl64_eval_pos (90 * (5030569068109113 / 288230376151711744)) 0 7074237752028440
      (by norm_num) (by norm_num) (by norm_num) (by norm_num) (by norm_num)]
    norm_num
  have h3 : fl32 (884279719003555 / 562949953421312) = 13176795 / 8388608 := by
    rw [fl32_eval_pos (884279719003555 / 562949953421312) 0 13176795 (by norm_num)
      (by norm_num) (by norm_num) (by norm_num) (by norm_num)]
    norm_num
  unfold PositionComponent.radians
  rw [h1, h2, h3]

/-- Without rotation `Rotate` returns the binary32 values of the coordinates. -/
theorem Rotate_zero (trig : Trig) (pos : PositionComponent) (p : ℚ × ℚ)
    (h : pos.rotation = 0) : pos.Rotate trig p = (fl32 p.1, fl32 p.2) := by
  simp [PositionComponent.Rotate, PositionComponent.RelativeLocation, h, fl32_zero, fl32_idem]

/-- With a rotation `Rotate` combines the coordinates with the stored cosine
and sine, each product and each sum rounded. -/
theorem Rotate_nonzero (trig : Trig) (pos : PositionComponent) (p : ℚ × ℚ)
    (h : pos.rotation ≠ 0) :
    pos.Rotate trig p =
      (fl32 (fl32 (p.1 * fl32 (trig.cos (PositionComponent.radians pos.rotation)))
          + fl32 (p.2 * -fl32 (trig.sin (PositionComponent.radians pos.rotation)))),
       fl32 (fl32 (p.1 * fl32 (trig.sin (PositionComponent.radians pos.rotation)))
          + fl32 (p.2 * fl32 (trig.cos (PositionComponent.radians pos.rotation))))) := by
  simp [PositionComponent.Rotate, PositionComponent.RelativeLocation, h, fl32_zero, fl32_idem,
    fl32_neg]

/-- Two integers whose squares add up to a power of 4 are not both different
from zero. -/
theorem sq_add_sq_eq_four_pow (K : ℕ) : ∀ a b : ℤ, a ^ 2 + b ^ 2 = 4 ^ K → a = 0 ∨ b = 0 := by
  induction K with
  | zero =>
    intro a b h
    by_contra hc
    push_neg at hc
    obtain ⟨ha0, hb0⟩ := hc
    have ha : 0 < a ^ 2 := by positivity
    have hb : 0 < b ^ 2 := by positivity
    simp at h
    omega
  | succ K ih =>
    intro a b h
    have h4 : (4 : ℤ) ^ (K + 1) = 4 ^ K * 4 := pow_succ 4 K
    rw [h4] at h
    obtain ⟨a', ha | ha⟩ := Int.even_or_odd' a <;> obtain ⟨b', hb | hb⟩ := Int.even_or_odd' b
    · have h2 : a' ^ 2 + b' ^ 2 = 4 ^ K := by
        rw [ha, hb] at h
        nlinarith
      rcases ih a' b' h2 with h0 | h0
      · left; rw [ha, h0]; rfl
      · right; rw [hb, h0]; rfl
    · exfalso
      rw [ha, hb] at h
      have e : (2 * a') ^ 2 + (2 * b' + 1) ^ 2 = 4 * (a' ^ 2 + b' ^ 2 + b') + 1 := by ring
      rw [e] at h
      omega
    · exfalso
      rw [ha, hb] at h
      have e : (2 * a' + 1) ^ 2 + (2 * b') ^ 2 = 4 * (a' ^ 2 + b' ^ 2 + a') + 1 := by ring
      rw [e] at h
      omega
    · exfalso
      rw [ha, hb] at h
      have e : (2 * a' + 1) ^ 2 + (2 * b' + 1) ^ 2
          = 4 * (a' ^ 2 + b' ^ 2 + a' + b') + 2 := by ring
      rw [e] at h
      omega

/-- A binary32 value times 2^149 is an integer. -/
theorem fl32_scaled_int (x : ℚ) : ∃ a : ℤ, fl32 x * 2 ^ (149 : ℕ) = a := by
  obtain ⟨n, k, _, hk, h⟩ := fl32_repr x
  obtain ⟨j, hj⟩ : ∃ j : ℕ, k + 149 = j := ⟨(k + 149).toNat, by omega⟩
  refine ⟨n * 2 ^ j, ?_⟩
  rw [h, mul_assoc, ← zpow_natCast, ← zpow_add₀ (by norm_num : (2 : ℚ) ≠ 0)]
  push_cast
  rw [← zpow_natCast (2 : ℚ) j, ← hj]

/-- No pair of binary32 values other than (±1, 0) and (0, ±1) lies on the unit
circle. -/
theorem fl32_unit_circle (x y : ℚ) (h : fl32 x ^ 2 + fl32 y ^ 2 = 1) :
    fl32 x = 0 ∨ fl32 y = 0 := by
  obtain ⟨a, ha⟩ := fl32_scaled_int x
  obtain ⟨b, hb⟩ := fl32_scaled_int y
  have hq : ((a ^ 2 + b ^ 2 : ℤ) : ℚ) = ((4 ^ 149 : ℤ) : ℚ) := by
    push_cast
    rw [← ha, ← hb]
    have e : (fl32 x * 2 ^ 149) ^ 2 + (fl32 y * 2 ^ 149) ^ 2
        = (fl32 x ^ 2 + fl32 y ^ 2) * (2 ^ 149) ^ 2 := by ring
    rw [e, h]
    norm_num
  have hz : a ^ 2 + b ^ 2 = 4 ^ 149 := by exact_mod_cast hq
  have hpos : (2 : ℚ) ^ (149 : ℕ) ≠ 0 := by positivity
  rcases sq_add_sq_eq_four_pow 149 a b hz with h0 | h0
  · left
    rw [h0] at ha
    simpa [hpos] using ha
  · right
    rw [h0] at hb
    simpa [hpos] using hb

/-- C35 (counterexample): a rotation of 90 degrees. `radians` is the `float`
nearest to π/2, where the cosine is the `float` -4.371139e-8 and the sine is 1.
The point (3, 4) becomes (-4, 12582911 / 2^22), that is (-4, 2.9999998): not
the value (3 cos - 4 sin, 3 sin + 4 cos) of the formula at these very cosine
and sine, and of squared length different from 25. -/
theorem Rotate_quarter_turn :
    PositionComponent.radians 90 = 13176795 / 8388608 ∧
    PositionComponent.Rotate quarterTurnTrig ⟨false, 0, 0, 0, 90⟩ (3, 4)
      = (-4, 12582911 / 4194304) ∧
    PositionComponent.Rotate quarterTurnTrig ⟨false, 0, 0, 0, 90⟩ (3, 4)
      ≠ (3 * quarterTurnTrig.cos (PositionComponent.radians 90)
          - 4 * quarterTurnTrig.sin (PositionComponent.radians 90),
         3 * quarterTurnTrig.sin (PositionComponent.radians 90)
          + 4 * quarterTurnTrig.cos (PositionComponent.radians 90)) ∧
    (PositionComponent.Rotate quarterTurnTrig ⟨false, 0, 0, 0, 90⟩ (3, 4)).1 ^ 2
      + (PositionComponent.Rotate quarterTurnTrig ⟨false, 0, 0, 0, 90⟩ (3, 4)).2 ^ 2
      ≠ (3 : ℚ) ^ 2 + 4 ^ 2 := by
  have hc : quarterTurnTrig.cos (13176795 / 8388608) = -12303662 / 281474976710656 := by
    simp [quarterTurnTrig]
  have hs : quarterTurnTrig.sin (13176795 / 8388608) = 1 := by
    simp [quarterTurnTrig]
  have fc : fl32 (-12303662 / 281474976710656) = -12303662 / 281474976710656 := by
    have := fl32_of_repr (-12303662) (-48) (by norm_num) (by norm_num)
    norm_num at this ⊢
    exact this
  have f3c : fl32 (3 * (12303662 / 281474976710656)) = 9227746 / 70368744177664 := by
    rw [fl32_eval_tie (3 * (12303662 / 281474976710656)) (-23) 9227746 (by norm_num)
      (by norm_num) (by norm_num) (by norm_num) (by norm_num)]
    norm_num
  have f4c : fl32 (4 * (12303662 / 281474976710656)) = 12303662 / 70368744177664 := by
    have := fl32_of_repr 12303662 (-46) (by norm_num) (by norm_num)
    norm_num at this ⊢
    exact this
  have fx : fl32 (9227746 / 70368744177664 + 4) = 4 := by
    rw [fl32_eval_pos (9227746 / 70368744177664 + 4) 2 8388608 (by norm_num) (by norm_num)
      (by norm_num) (by norm_num) (by norm_num)]
    norm_num
  have fy : fl32 (3 - 12303662 / 70368744177664) = 12582911 / 4194304 := by
    rw [fl32_eval_pos (3 - 12303662 / 70368744177664) 1 12582911 (by norm_num) (by norm_num)
      (by norm_num) (by norm_num) (by norm_num)]
    norm_num
  have f3 : fl32 3 = 3 := fl32_ofNat 3 (by norm_num)
  have f4 : fl32 4 = 4 := fl32_ofNat 4 (by norm_num)
  have hrot : PositionComponent.Rotate quarterTurnTrig ⟨false, 0, 0, 0, 90⟩ (3, 4)
      = (-4, 12582911 / 4194304) := by
    rw [Rotate_nonzero _ _ _ (by norm_num)]
    simp only [radians_quarter_turn, hc, hs, fc, fl32_one, mul_one]
    have e1 : (3 : ℚ) * (-12303662 / 281474976710656) = -(3 * (12303662 / 281474976710656)) := by
      ring
    have e2 : (4 : ℚ) * (-12303662 / 281474976710656) = -(4 * (12303662 / 281474976710656)) := by
      ring
    have e3 : (4 : ℚ) * -1 = -4 := by ring
    have e4 : -(9227746 / 70368744177664 : ℚ) + -4 = -(9227746 / 70368744177664 + 4) := by ring
    have e5 : (3 : ℚ) + -(12303662 / 70368744177664) = 3 - 12303662 / 70368744177664 := by ring
    rw [e1, e2, e3, fl32_neg, fl32_neg, fl32_neg, f3c, f4c, f3, f4, e4, fl32_neg, fx, e5, fy]
  refine ⟨radians_quarter_turn, hrot, ?_, ?_⟩
  · rw [hrot, radians_quarter_turn, hc, hs]
    intro h
    have := congrArg Prod.snd h
    norm_num at this
  · rw [hrot]
    norm_num

/-- C35 (as amended): `Rotate` returns its argument when the rotation is 0 and
the argument is a pair of binary32 values. Otherwise, with c and s the binary32
values stored for the cosine and the sine of `radians` (the rotation times
π/180, computed in binary64 and converted to binary32), it returns
(p.x c - p.y s, p.x s + p.y c) with every product and sum rounded to binary32.
The Euclidean length is not preserved in general: the unit vector (1, 0) is
sent to (c, s), and c² + s² is different from 1 whenever neither c nor s is 0.
With rotation 0 the quad of the world-position overload is the quad of the
raw-position overload at (pos.x, pos.y), with vertices at the binary32 sums of
the centre and plus or minus the binary32 half extents
(width scaleX / 2, height scaleY / 2). -/
theorem Rotate_binary32 (trig : Trig) (pos : PositionComponent) (p : ℚ × ℚ)
    (width height scaleX scaleY : ℚ) (rgb : Color) (fx fy : Bool) (idx : ℚ) :
    (pos.rotation = 0 → fl32 p.1 = p.1 → fl32 p.2 = p.2 → pos.Rotate trig p = p) ∧
    (pos.rotation ≠ 0 → pos.Rotate trig p =
      (fl32 (fl32 (p.1 * fl32 (trig.cos (PositionComponent.radians pos.rotation)))
          + fl32 (p.2 * -fl32 (trig.sin (PositionComponent.radians pos.rotation)))),
       fl32 (fl32 (p.1 * fl32 (trig.sin (PositionComponent.radians pos.rotation)))
          + fl32 (p.2 * fl32 (trig.cos (PositionComponent.radians pos.rotation)))))) ∧
    (pos.rotation ≠ 0 → pos.Rotate trig (1, 0) =
      (fl32 (trig.cos (PositionComponent.radians pos.rotation)),
       fl32 (trig.sin (PositionComponent.radians pos.rotation)))) ∧
    (pos.rotation ≠ 0 → fl32 (trig.cos (PositionComponent.radians pos.rotation)) ≠ 0 →
      fl32 (trig.sin (PositionComponent.radians pos.rotation)) ≠ 0 →
      (pos.Rotate trig (1, 0)).1 ^ 2 + (pos.Rotate trig (1, 0)).2 ^ 2 ≠ (1 : ℚ) ^ 2 + 0 ^ 2) ∧
    (pos.rotation = 0 →
      worldQuad trig pos width height scaleX scaleY rgb fx fy idx
        = screenQuad (pos.x, pos.y) width height scaleX scaleY rgb fx fy idx ∧
      (worldQuad trig pos width height scaleX scaleY rgb fx fy idx).corners =
        [(fl32 (pos.x - fl32 (fl32 (width * scaleX) / 2)),
          fl32 (pos.y - fl32 (fl32 (height * scaleY) / 2))),
         (fl32 (pos.x + fl32 (fl32 (width * scaleX) / 2)),
          fl32 (pos.y - fl32 (fl32 (height * scaleY) / 2))),
         (fl32 (pos.x + fl32 (fl32 (width * scaleX) / 2)),
          fl32 (pos.y + fl32 (fl32 (height * scaleY) / 2))),
         (fl32 (pos.x - fl32 (fl32 (width * scaleX) / 2)),
          fl32 (pos.y + fl32 (fl32 (height * scaleY) / 2)))]) := by
  have hunit : pos.rotation ≠ 0 → pos.Rotate trig (1, 0) =
      (fl32 (trig.cos (PositionComponent.radians pos.rotation)),
       fl32 (trig.sin (PositionComponent.radians pos.rotation))) := by
    intro h
    rw [Rotate_nonzero trig pos (1, 0) h]
    simp [fl32_zero, fl32_idem]
  refine ⟨?_, Rotate_nonzero trig pos p, hunit, ?_, ?_⟩
  · intro h h1 h2
    rw [Rotate_zero trig pos p h, h1, h2]
  · intro h hc hs hlen
    rw [hunit h] at hlen
    have h1 : fl32 (trig.cos (PositionComponent.radians pos.rotation)) ^ 2
        + fl32 (trig.sin (PositionComponent.radians pos.rotation)) ^ 2 = 1 := by
      simpa using hlen
    rcases fl32_unit_circle _ _ h1 with h0 | h0
    · exact hc h0
    · exact hs h0
  · intro h
    have hq : worldQuad trig pos width height scaleX scaleY rgb fx fy idx
        = screenQuad (pos.x, pos.y) width height scaleX scaleY rgb fx fy idx := by
      simp only [worldQuad, screenQuad, Rotate_zero trig pos _ h, fl32_neg, fl32_idem]
    refine ⟨hq, ?_⟩
    rw [hq]
    simp only [Quad.corners, screenQuad, Vertex.init, ← sub_eq_add_neg]

/-- Witness for C35: without rotation the point (3, 4) is returned as it is;
with a rotation of 90 degrees the unit vector (1, 0) becomes
(-12303662 / 2^48, 1), whose squared length is not 1. -/
theorem Rotate_binary32_witness :
    PositionComponent.Rotate quarterTurnTrig ⟨false, 0, 0, 0, 0⟩ (3, 4) = (3, 4) ∧
    (PositionComponent.Rotate quarterTurnTrig ⟨false, 0, 0, 0, 90⟩ (1, 0)).1 ^ 2
      + (PositionComponent.Rotate quarterTurnTrig ⟨false, 0, 0, 0, 90⟩ (1, 0)).2 ^ 2
      ≠ (1 : ℚ) ^ 2 + 0 ^ 2 :=
  have hc : fl32 (quarterTurnTrig.cos (PositionComponent.radians 90))
      = -(12303662 / 281474976710656) := by
    have h := fl32_of_repr (-12303662) (-48) (by norm_num) (by norm_num)
    rw [radians_quarter_turn]
    norm_num [quarterTurnTrig] at h ⊢
    exact h
  have hs : fl32 (quarterTurnTrig.sin (PositionComponent.radians 90)) = 1 := by
    rw [radians_quarter_turn]
    simp [quarterTurnTrig, fl32_one]
  ⟨(Rotate_binary32 quarterTurnTrig ⟨false, 0, 0, 0, 0⟩ (3, 4) 1 1 1 1
      ⟨1, 1, 1, 1⟩ false false 0).1 rfl (fl32_ofNat 3 (by norm_num)) (fl32_ofNat 4 (by norm_num)),
   (Rotate_binary32 quarterTurnTrig ⟨false, 0, 0, 0, 90⟩ (1, 0) 1 1 1 1
      ⟨1, 1, 1, 1⟩ false false 0).2.2.2.1 (by norm_num)
      (by rw [hc]; norm_num) (by rw [hs]; norm_num)⟩

end Asciismos
